import Mathlib

/-!
# Menu management: Category / Subcategory / Item controllers

A shallow embedding of the Express controllers in `src/controllers/` over the
Mongoose models of `src/models/`.  The document database is a `Store` holding
one list of records per collection, in insertion order.  Every controller
becomes a pure function from the store before the request (and the request's
inputs) to the store after it and the HTTP response.

Conventions of the embedding:

* an absent (`undefined`) request field is `none`;
* a JavaScript `Number` is an `Int` (no controller computes with numbers);
* identifiers arrive as strings (JSON bodies, route parameters) and are cast
  to `ObjectId` the way Mongoose casts them: exactly the strings of 24
  hexadecimal digits are accepted, anything else is a `CastError`;
* the `_id` Mongoose generates for a new document is an explicit argument
  `newId` of the `create*` controllers;
* `save()` validates the whole document against its schema before writing,
  for a new document and for a loaded one alike; the `required` check of a
  String path fails on the empty string;
* `findByIdAndUpdate` is called without `runValidators`: it casts the update
  (a field whose value does not cast to the type of its path throws a
  `CastError` before the query), drops the keys whose value is `undefined`,
  and writes the rest unvalidated;
* a controller's `catch` block answers 500 with `err.message`; whatever was
  written before the exception stays written.
-/

namespace MenuManagement

/-! ## ObjectId -/

/-- Value of a hexadecimal digit, either case; `none` for any other character. -/
def hexVal (c : Char) : Option (Fin 16) :=
  match c with
  | '0' => some 0 | '1' => some 1 | '2' => some 2 | '3' => some 3
  | '4' => some 4 | '5' => some 5 | '6' => some 6 | '7' => some 7
  | '8' => some 8 | '9' => some 9
  | 'a' => some 10 | 'b' => some 11 | 'c' => some 12
  | 'd' => some 13 | 'e' => some 14 | 'f' => some 15
  | 'A' => some 10 | 'B' => some 11 | 'C' => some 12
  | 'D' => some 13 | 'E' => some 14 | 'F' => some 15
  | _ => none

/-- Lower-case hexadecimal digit of a nibble. -/
def hexChar (d : Fin 16) : Char :=
  match d.val with
  | 0 => '0' | 1 => '1' | 2 => '2' | 3 => '3'
  | 4 => '4' | 5 => '5' | 6 => '6' | 7 => '7'
  | 8 => '8' | 9 => '9' | 10 => 'a' | 11 => 'b'
  | 12 => 'c' | 13 => 'd' | 14 => 'e' | _ => 'f'

/-- Reads a list of characters as hexadecimal digits; fails on the first
character that is not one. -/
def parseDigits : List Char → Option (List (Fin 16))
  | [] => some []
  | c :: cs =>
    match hexVal c, parseDigits cs with
    | some d, some ds => some (d :: ds)
    | _, _ => none

/-- A MongoDB ObjectId: 12 bytes, kept as its 24 hexadecimal digits. -/
structure ObjectId where
  digits : List (Fin 16)
  size : digits.length = 24
deriving DecidableEq

/-- Rendering `ObjectId.prototype.toHexString`: the id as it appears in JSON
responses and as clients send it back. -/
def ObjectId.toHexString (id : ObjectId) : String :=
  String.mk (id.digits.map hexChar)

/-- Casting a string to an ObjectId: succeeds exactly on 24 hexadecimal digits. -/
def ObjectId.parse (s : String) : Option ObjectId :=
  match parseDigits s.data with
  | some ds => if h : ds.length = 24 then some ⟨ds, h⟩ else none
  | none => none

/-- The check `mongoose.Types.ObjectId.isValid` applied to a string. -/
def ObjectId.isValid (s : String) : Bool :=
  (ObjectId.parse s).isSome

/-- The id whose 24 digits are all `d`, except the last, which is `e`. -/
def ObjectId.mk2 (d e : Fin 16) : ObjectId :=
  ⟨List.replicate 23 d ++ [e], by simp⟩

/-! ## Errors thrown by Mongoose and HTTP responses -/

/-- The exceptions the controllers can catch in their `try` blocks. -/
inductive MongooseError where
  /-- Schema validation failed in `save()` for the named model. -/
  | validation (model : String)
  /-- A value could not be cast to ObjectId. -/
  | cast (value : String)
  /-- The value of a field of an update could not be cast to the type of its path. -/
  | castField (path : String)
  /-- The insert violated the unique index on `_id`. -/
  | duplicateKey
  /-- The document being saved no longer exists in its collection. -/
  | documentNotFound
deriving DecidableEq, Repr

deriving instance DecidableEq for Except

/-- The text of `err.message`. -/
def MongooseError.message : MongooseError → String
  | .validation model => model ++ " validation failed"
  | .cast value => "Cast to ObjectId failed for value \"" ++ value ++ "\""
  | .castField path => "Cast failed at path \"" ++ path ++ "\""
  | .duplicateKey => "E11000 duplicate key error"
  | .documentNotFound => "No document found for query"

/-- What a controller sends: `res.status(status).json(...)` with a document (or a
list of documents), with `{ message }`, or with `{ error }`. -/
inductive Response (α : Type) where
  | json (status : Nat) (doc : α)
  | message (status : Nat) (message : String)
  | error (status : Nat) (error : String)
deriving DecidableEq, Repr

/-- The HTTP status code of a response. -/
def Response.status {α : Type} : Response α → Nat
  | .json st _ => st
  | .message st _ => st
  | .error st _ => st

/-! ## Schemas (`src/models`) -/

/-- A stored Category document (`CategorySchema`). -/
structure Category where
  _id : ObjectId
  name : String
  image : String
  description : String
  taxApplicability : Bool
  tax : Option Int
  taxType : String
  subCategories : List ObjectId
  items : List ObjectId
deriving DecidableEq

/-- A stored SubCategory document (`SubCategorySchema`). -/
structure SubCategory where
  _id : ObjectId
  name : String
  image : String
  description : String
  taxApplicability : Bool
  tax : Int
  taxType : String
  items : List ObjectId
  category : ObjectId
deriving DecidableEq

/-- A stored Item document (`ItemSchema`). -/
structure Item where
  _id : ObjectId
  name : String
  image : String
  description : String
  taxApplicability : Bool
  tax : Int
  baseAmount : Int
  discount : Int
  totalAmount : Int
  category : ObjectId
  subcategory : ObjectId
deriving DecidableEq

/-- The `required: true` check of a String path: the value must be a string of
positive length. -/
def requiredString (v : String) : Bool :=
  decide (0 < v.length)

/-- Validation of a Category document as `save()` runs it: `name`, `image` and
`description` are required, and `tax` is required when `this.taxApplicability`. -/
def Category.validate (c : Category) : Bool :=
  requiredString c.name && requiredString c.image && requiredString c.description
    && (!c.taxApplicability || c.tax.isSome)

/-- Validation of a SubCategory document as `save()` runs it. -/
def SubCategory.validate (c : SubCategory) : Bool :=
  requiredString c.name && requiredString c.image && requiredString c.description

/-- Validation of an Item document as `save()` runs it. -/
def Item.validate (c : Item) : Bool :=
  requiredString c.name && requiredString c.image && requiredString c.description

/-- What the generic store operations need of a document type. -/
class Document (α : Type) where
  id : α → ObjectId
  validate : α → Bool
  modelName : String

instance : Document Category := ⟨Category._id, Category.validate, "Category"⟩
instance : Document SubCategory := ⟨SubCategory._id, SubCategory.validate, "SubCategory"⟩
instance : Document Item := ⟨Item._id, Item.validate, "Item"⟩

/-- The database: the three collections, each in insertion order. -/
structure Store where
  categories : List Category
  subcategories : List SubCategory
  items : List Item
deriving DecidableEq

/-- The database with no documents. -/
def Store.empty : Store := ⟨[], [], []⟩

/-! ## The Mongoose operations the controllers call -/

section Operations

variable {α : Type} [Document α]

/-- The first document of a collection with the given `_id`. -/
def findById? (docs : List α) (id : ObjectId) : Option α :=
  docs.find? (fun d => Document.id d == id)

/-- The call `Model.findById(id)` on a value taken from the request: `undefined`
finds nothing, a string that is not an ObjectId throws a `CastError`, an
ObjectId finds the document with that `_id`, if any. -/
def Model.findById (docs : List α) (id : Option String) : Except MongooseError (Option α) :=
  match id with
  | none => .ok none
  | some v =>
    match ObjectId.parse v with
    | none => .error (.cast v)
    | some oid => .ok (findById? docs oid)

/-- The insert that `save()` performs for a new document: it goes to the end of the
collection unless its `_id` is already taken. -/
def insertOne (docs : List α) (doc : α) : Except MongooseError (List α) :=
  if (findById? docs (Document.id doc)).isSome then .error .duplicateKey
  else .ok (docs ++ [doc])

/-- Applies `f` to the first document with the given `_id`. -/
def modifyFirst (docs : List α) (id : ObjectId) (f : α → α) : List α :=
  match docs with
  | [] => []
  | d :: ds => if Document.id d = id then f d :: ds else d :: modifyFirst ds id f

/-- The call `doc.save()` on a document loaded from the collection and changed in
memory: the whole document is validated first, then written back in place. -/
def Document.save (docs : List α) (doc : α) : Except MongooseError (List α) :=
  if !Document.validate doc then .error (.validation (Document.modelName α))
  else if (findById? docs (Document.id doc)).isNone then .error .documentNotFound
  else .ok (modifyFirst docs (Document.id doc) (fun _ => doc))

/-- The call `Model.findByIdAndUpdate(id, update, { new: true })`: casts the id,
applies the update to the stored document without running validators, and
returns the collection after the update with the updated document (or `none`
when no document has that id). -/
def Model.findByIdAndUpdate (docs : List α) (id : String) (f : α → α) :
    Except MongooseError (List α × Option α) :=
  match ObjectId.parse id with
  | none => .error (.cast id)
  | some oid =>
    match findById? docs oid with
    | none => .ok (docs, none)
    | some d => .ok (modifyFirst docs oid f, some (f d))

/-- The call `Model.findByIdAndDelete(id)`: casts the id and removes the document
with that `_id`, returning it (or `none` when there is none). -/
def Model.findByIdAndDelete (docs : List α) (id : String) :
    Except MongooseError (List α × Option α) :=
  match ObjectId.parse id with
  | none => .error (.cast id)
  | some oid =>
    match findById? docs oid with
    | none => .ok (docs, none)
    | some d => .ok (docs.eraseP (fun x => Document.id x == oid), some d)

end Operations

/-- Casts each string of an array to an ObjectId; `none` if one of them fails. -/
def castIds : List String → Option (List ObjectId)
  | [] => some []
  | v :: vs =>
    match ObjectId.parse v, castIds vs with
    | some id, some ids => some (id :: ids)
    | _, _ => none

/-! ## Request bodies -/

/-- The fields `createCategory` and `updateCategory` read from `req.body`. -/
structure CategoryBody where
  name : Option String := none
  image : Option String := none
  description : Option String := none
  taxApplicability : Option Bool := none
  tax : Option Int := none
deriving DecidableEq

/-- The fields `createSubcategory` and `updateSubcategory` read from `req.body`. -/
structure SubcategoryBody where
  name : Option String := none
  image : Option String := none
  description : Option String := none
  taxApplicability : Option Bool := none
  tax : Option Int := none
  category : Option String := none
  items : Option (List String) := none
deriving DecidableEq

/-- The fields `createItem` and `updateItem` read from `req.body`. -/
structure ItemBody where
  name : Option String := none
  image : Option String := none
  description : Option String := none
  taxApplicability : Option Bool := none
  tax : Option Int := none
  baseAmount : Option Int := none
  discount : Option Int := none
  totalAmount : Option Int := none
  category : Option String := none
  subcategory : Option String := none
deriving DecidableEq

/-- The body of a `PUT /categories/:id` request as `findByIdAndUpdate` sees it: the
fields that cast to their schema type, and the names of the fields, among
the five the controller reads, whose value does not cast (`"tax"` for
`tax: "abc"`, `"taxApplicability"` for `taxApplicability: "maybe"`). -/
structure CategoryUpdate extends CategoryBody where
  uncastable : List String := []
deriving DecidableEq

/-- The body of a `PUT /subcategories/:id` request as `findByIdAndUpdate` sees it;
`uncastable` names the fields among `name`, `image`, `description`,
`taxApplicability` and `tax` whose value does not cast.  The ids in
`category` and `items` are cast from their strings. -/
structure SubcategoryUpdate extends SubcategoryBody where
  uncastable : List String := []
deriving DecidableEq

/-- The body of a `PUT /items/:id` request as `findByIdAndUpdate` sees it;
`uncastable` names the fields among `name`, `image`, `description`,
`taxApplicability`, `tax`, `baseAmount`, `discount` and `totalAmount` whose
value does not cast (`"baseAmount"` for `baseAmount: "abc"`).  The ids in
`category` and `subcategory` are cast from their strings. -/
structure ItemUpdate extends ItemBody where
  uncastable : List String := []
deriving DecidableEq

/-- The cast of the scalar fields of an update document, which
`findByIdAndUpdate` runs before it queries: the first field whose value does
not cast throws a `CastError`. -/
def castScalars (uncastable : List String) : Except MongooseError Unit :=
  match uncastable with
  | [] => .ok ()
  | path :: _ => .error (.castField path)

/-- The document `new Category({...})` builds from the body, with the schema
defaults, provided it passes the validation of `save()`. -/
def Category.fromBody (newId : ObjectId) (body : CategoryBody) : Except MongooseError Category :=
  match body.name, body.image, body.description with
  | some name, some image, some description =>
    let doc : Category :=
      { _id := newId, name := name, image := image, description := description,
        taxApplicability := body.taxApplicability.getD false, tax := body.tax,
        taxType := "percentage", subCategories := [], items := [] }
    if doc.validate then .ok doc else .error (.validation "Category")
  | _, _, _ => .error (.validation "Category")

/-- The document `new Subcategory({...})` builds from the body, with the schema
defaults, provided it passes the validation of `save()`: the three strings and
`category` are required, `category` and every element of `items` must cast to
an ObjectId. -/
def SubCategory.fromBody (newId : ObjectId) (body : SubcategoryBody) :
    Except MongooseError SubCategory :=
  match body.name, body.image, body.description, body.category.bind ObjectId.parse,
      castIds (body.items.getD []) with
  | some name, some image, some description, some category, some items =>
    let doc : SubCategory :=
      { _id := newId, name := name, image := image, description := description,
        taxApplicability := body.taxApplicability.getD false, tax := body.tax.getD 0,
        taxType := "percentage", items := items, category := category }
    if doc.validate then .ok doc else .error (.validation "SubCategory")
  | _, _, _, _, _ => .error (.validation "SubCategory")

/-- The document `new Item({...})` builds from the body, with the schema defaults,
provided it passes the validation of `save()`: the three strings, `baseAmount`,
`totalAmount`, `category` and `subcategory` are required. -/
def Item.fromBody (newId : ObjectId) (body : ItemBody) : Except MongooseError Item :=
  match body.name, body.image, body.description, body.baseAmount, body.totalAmount,
      body.category.bind ObjectId.parse, body.subcategory.bind ObjectId.parse with
  | some name, some image, some description, some baseAmount, some totalAmount,
      some category, some subcategory =>
    let doc : Item :=
      { _id := newId, name := name, image := image, description := description,
        taxApplicability := body.taxApplicability.getD false, tax := body.tax.getD 0,
        baseAmount := baseAmount, discount := body.discount.getD 0,
        totalAmount := totalAmount, category := category, subcategory := subcategory }
    if doc.validate then .ok doc else .error (.validation "Item")
  | _, _, _, _, _, _, _ => .error (.validation "Item")

/-- The update document `updateCategory` passes to `findByIdAndUpdate`, applied to
a stored Category: each field the body supplies is set, an `undefined` field
is dropped from the update and the stored value stays. -/
def Category.applyUpdate (body : CategoryBody) (c : Category) : Category :=
  { c with
    name := body.name.getD c.name
    image := body.image.getD c.image
    description := body.description.getD c.description
    taxApplicability := body.taxApplicability.getD c.taxApplicability
    tax := body.tax.orElse (fun _ => c.tax) }

/-- The update document of `updateSubcategory` applied to a stored SubCategory. -/
def SubCategory.applyUpdate (body : SubcategoryBody) (category : Option ObjectId)
    (items : Option (List ObjectId)) (c : SubCategory) : SubCategory :=
  { c with
    name := body.name.getD c.name
    image := body.image.getD c.image
    description := body.description.getD c.description
    taxApplicability := body.taxApplicability.getD c.taxApplicability
    tax := body.tax.getD c.tax
    category := category.getD c.category
    items := items.getD c.items }

/-- The update document of `updateItem` applied to a stored Item. -/
def Item.applyUpdate (body : ItemBody) (category subcategory : Option ObjectId)
    (c : Item) : Item :=
  { c with
    name := body.name.getD c.name
    image := body.image.getD c.image
    description := body.description.getD c.description
    taxApplicability := body.taxApplicability.getD c.taxApplicability
    tax := body.tax.getD c.tax
    baseAmount := body.baseAmount.getD c.baseAmount
    discount := body.discount.getD c.discount
    totalAmount := body.totalAmount.getD c.totalAmount
    category := category.getD c.category
    subcategory := subcategory.getD c.subcategory }

/-- Casts an optional id of an update document: `undefined` stays absent, a string
must be an ObjectId. -/
def castOptionalId (v : Option String) : Except MongooseError (Option ObjectId) :=
  match v with
  | none => .ok none
  | some x =>
    match ObjectId.parse x with
    | none => .error (.cast x)
    | some id => .ok (some id)

/-- Casts an optional array of ids of an update document. -/
def castOptionalIds (v : Option (List String)) : Except MongooseError (Option (List ObjectId)) :=
  match v with
  | none => .ok none
  | some xs =>
    match castIds xs with
    | none => .error (.cast (String.intercalate "," xs))
    | some ids => .ok (some ids)

/-! ## `src/controllers/categoryController.js` -/

/-- The controller `createCategory` (categoryController.js, lines 14-29): builds the
document from the body and saves it; 201 with the saved document, 500 on any
error. -/
def createCategory (s : Store) (newId : ObjectId) (body : CategoryBody) :
    Store × Response Category :=
  match Category.fromBody newId body with
  | .error e => (s, .error 500 e.message)
  | .ok newCategory =>
    match insertOne s.categories newCategory with
    | .error e => (s, .error 500 e.message)
    | .ok categories => ({ s with categories := categories }, .json 201 newCategory)

/-- The controller `getCategories` (lines 41-50): every Category, in store order. -/
def getCategories (s : Store) : Response (List Category) :=
  .json 200 s.categories

/-- The controller `getCategory` (lines 66-83): by id when the parameter is a valid ObjectId,
otherwise by exact name; 404 when nothing is found. -/
def getCategory (s : Store) (idOrName : String) : Response Category :=
  let category :=
    if ObjectId.isValid idOrName then Model.findById s.categories (some idOrName)
    else .ok (s.categories.find? (fun c => c.name == idOrName))
  match category with
  | .error e => .error 500 e.message
  | .ok none => .error 404 "Category not found"
  | .ok (some c) => .json 200 c

/-- The controller `updateCategory` (lines 99-120): `findByIdAndUpdate` with the five
fields of the body, which are cast first; 404 when no Category has the id,
500 when a field or the id does not cast. -/
def updateCategory (s : Store) (id : String) (body : CategoryUpdate) :
    Store × Response Category :=
  match castScalars body.uncastable with
  | .error e => (s, .error 500 e.message)
  | .ok _ =>
    match Model.findByIdAndUpdate s.categories id
        (Category.applyUpdate body.toCategoryBody) with
    | .error e => (s, .error 500 e.message)
    | .ok (_, none) => (s, .error 404 "Category not found")
    | .ok (categories, some updatedCategory) =>
      ({ s with categories := categories }, .json 200 updatedCategory)

/-- The controller `deleteCategory` (lines 139-149): `findByIdAndDelete`; 404 when no Category has
the id. -/
def deleteCategory (s : Store) (id : String) : Store × Response Category :=
  match Model.findByIdAndDelete s.categories id with
  | .error e => (s, .error 500 e.message)
  | .ok (_, none) => (s, .error 404 "Category not found")
  | .ok (categories, some _) =>
    ({ s with categories := categories }, .message 200 "Category deleted successfully")

/-! ## `src/controllers/subCategoryController.js` -/

/-- The controller `createSubcategory` (subCategoryController.js, lines 21-57): looks
the parent Category up, saves the new Subcategory, pushes its id on the
parent's `subCategories` and saves the parent.  The two writes are separate:
an error in the second leaves the first in the store. -/
def createSubcategory (s : Store) (newId : ObjectId) (body : SubcategoryBody) :
    Store × Response SubCategory :=
  match Model.findById s.categories body.category with
  | .error e => (s, .error 500 e.message)
  | .ok none => (s, .error 404 "Category not found")
  | .ok (some parentCategory) =>
    match SubCategory.fromBody newId body with
    | .error e => (s, .error 500 e.message)
    | .ok newSubcategory =>
      match insertOne s.subcategories newSubcategory with
      | .error e => (s, .error 500 e.message)
      | .ok subcategories =>
        let s1 : Store := { s with subcategories := subcategories }
        let parentCategory : Category :=
          { parentCategory with
            subCategories := parentCategory.subCategories ++ [newSubcategory._id] }
        match Document.save s1.categories parentCategory with
        | .error e => (s1, .error 500 e.message)
        | .ok categories => ({ s1 with categories := categories }, .json 201 newSubcategory)

/-- The controller `getAllSubcategories` (lines 69-78). -/
def getAllSubcategories (s : Store) : Response (List SubCategory) :=
  .json 200 s.subcategories

/-- The controller `getSubcategoriesByCategory` (lines 90-100): `find({ category: categoryId })`;
the route parameter is cast to an ObjectId by the query. -/
def getSubcategoriesByCategory (s : Store) (categoryId : String) : Response (List SubCategory) :=
  match ObjectId.parse categoryId with
  | none => .error 500 (MongooseError.cast categoryId).message
  | some id => .json 200 (s.subcategories.filter (fun c => c.category == id))

/-- The controller `getSubcategory` (lines 116-136): by id or by exact name. -/
def getSubcategory (s : Store) (idOrName : String) : Response SubCategory :=
  let subcategory :=
    if ObjectId.isValid idOrName then Model.findById s.subcategories (some idOrName)
    else .ok (s.subcategories.find? (fun c => c.name == idOrName))
  match subcategory with
  | .error e => .error 500 e.message
  | .ok none => .error 404 "Subcategory not found"
  | .ok (some c) => .json 200 c

/-- The controller `updateSubcategory` (lines 153-188): `findByIdAndUpdate` with the
seven fields of the body, which are cast first. -/
def updateSubcategory (s : Store) (id : String) (body : SubcategoryUpdate) :
    Store × Response SubCategory :=
  match castScalars body.uncastable with
  | .error e => (s, .error 500 e.message)
  | .ok _ =>
    match castOptionalId body.category, castOptionalIds body.items with
    | .error e, _ => (s, .error 500 e.message)
    | .ok _, .error e => (s, .error 500 e.message)
    | .ok category, .ok items =>
      match Model.findByIdAndUpdate s.subcategories id
          (SubCategory.applyUpdate body.toSubcategoryBody category items) with
      | .error e => (s, .error 500 e.message)
      | .ok (_, none) => (s, .error 404 "Subcategory not found")
      | .ok (subcategories, some updatedSubcategory) =>
        ({ s with subcategories := subcategories }, .json 200 updatedSubcategory)

/-- The controller `deleteSubcategory` (lines 204-218): `findByIdAndDelete`. -/
def deleteSubcategory (s : Store) (id : String) : Store × Response SubCategory :=
  match Model.findByIdAndDelete s.subcategories id with
  | .error e => (s, .error 500 e.message)
  | .ok (_, none) => (s, .error 404 "Subcategory not found")
  | .ok (subcategories, some _) =>
    ({ s with subcategories := subcategories }, .message 200 "Subcategory deleted successfully")

/-! ## `src/controllers/itemController.js` -/

/-- The controller `createItem` (itemController.js, lines 21-71): looks up the parent
Category, then the parent Subcategory, saves the new Item, pushes its id on
both parents' `items` and saves the Category, then the Subcategory.  The
three writes are separate. -/
def createItem (s : Store) (newId : ObjectId) (body : ItemBody) : Store × Response Item :=
  match Model.findById s.categories body.category with
  | .error e => (s, .error 500 e.message)
  | .ok none => (s, .error 404 "Category not found")
  | .ok (some parentCategory) =>
    match Model.findById s.subcategories body.subcategory with
    | .error e => (s, .error 500 e.message)
    | .ok none => (s, .error 404 "Subcategory not found")
    | .ok (some parentSubcategory) =>
      match Item.fromBody newId body with
      | .error e => (s, .error 500 e.message)
      | .ok newItem =>
        match insertOne s.items newItem with
        | .error e => (s, .error 500 e.message)
        | .ok items =>
          let s1 : Store := { s with items := items }
          let parentCategory : Category :=
            { parentCategory with items := parentCategory.items ++ [newItem._id] }
          let parentSubcategory : SubCategory :=
            { parentSubcategory with items := parentSubcategory.items ++ [newItem._id] }
          match Document.save s1.categories parentCategory with
          | .error e => (s1, .error 500 e.message)
          | .ok categories =>
            let s2 : Store := { s1 with categories := categories }
            match Document.save s2.subcategories parentSubcategory with
            | .error e => (s2, .error 500 e.message)
            | .ok subcategories =>
              ({ s2 with subcategories := subcategories }, .json 201 newItem)

/-- The controller `getAllItems` (lines 83-92). -/
def getAllItems (s : Store) : Response (List Item) :=
  .json 200 s.items

/-- The controller `getItem` (lines 108-128): by id when the parameter is a valid ObjectId,
otherwise by exact name. -/
def getItem (s : Store) (idOrName : String) : Response Item :=
  let item :=
    if ObjectId.isValid idOrName then Model.findById s.items (some idOrName)
    else .ok (s.items.find? (fun c => c.name == idOrName))
  match item with
  | .error e => .error 500 e.message
  | .ok none => .error 404 "Item not found"
  | .ok (some c) => .json 200 c

/-- The controller `searchItem` (lines 146-158), for a request whose query string carries `name`:
`findOne({ name })`, always by exact name. -/
def searchItem (s : Store) (name : String) : Response Item :=
  match s.items.find? (fun c => c.name == name) with
  | none => .error 404 "Item not found"
  | some c => .json 200 c

/-- The controller `getItemsByCategory` (lines 171-181): `find({ category: categoryId })`. -/
def getItemsByCategory (s : Store) (categoryId : String) : Response (List Item) :=
  match ObjectId.parse categoryId with
  | none => .error 500 (MongooseError.cast categoryId).message
  | some id => .json 200 (s.items.filter (fun c => c.category == id))

/-- The controller `getItemsBySubcategory` (lines 193-203):
`find({ subcategory: subcategoryId })`. -/
def getItemsBySubcategory (s : Store) (subcategoryId : String) : Response (List Item) :=
  match ObjectId.parse subcategoryId with
  | none => .error 500 (MongooseError.cast subcategoryId).message
  | some id => .json 200 (s.items.filter (fun c => c.subcategory == id))

/-- The controller `updateItem` (lines 220-263): `findByIdAndUpdate` with the ten
fields of the body, which are cast first. -/
def updateItem (s : Store) (id : String) (body : ItemUpdate) : Store × Response Item :=
  match castScalars body.uncastable with
  | .error e => (s, .error 500 e.message)
  | .ok _ =>
    match castOptionalId body.category, castOptionalId body.subcategory with
    | .error e, _ => (s, .error 500 e.message)
    | .ok _, .error e => (s, .error 500 e.message)
    | .ok category, .ok subcategory =>
      match Model.findByIdAndUpdate s.items id
          (Item.applyUpdate body.toItemBody category subcategory) with
      | .error e => (s, .error 500 e.message)
      | .ok (_, none) => (s, .error 404 "Item not found")
      | .ok (items, some updatedItem) => ({ s with items := items }, .json 200 updatedItem)

/-- The controller `deleteItem` (lines 279-292): `findByIdAndDelete`. -/
def deleteItem (s : Store) (id : String) : Store × Response Item :=
  match Model.findByIdAndDelete s.items id with
  | .error e => (s, .error 500 e.message)
  | .ok (_, none) => (s, .error 404 "Item not found")
  | .ok (items, some _) => ({ s with items := items }, .message 200 "Item deleted successfully")

/-! ## Requests that write, and runs of them -/

/-- A request to one of the writing routes of `src/routes`, with the `_id` Mongoose
generates for the creating ones. -/
inductive Request where
  | createCategory (newId : ObjectId) (body : CategoryBody)
  | updateCategory (id : String) (body : CategoryUpdate)
  | deleteCategory (id : String)
  | createSubcategory (newId : ObjectId) (body : SubcategoryBody)
  | updateSubcategory (id : String) (body : SubcategoryUpdate)
  | deleteSubcategory (id : String)
  | createItem (newId : ObjectId) (body : ItemBody)
  | updateItem (id : String) (body : ItemUpdate)
  | deleteItem (id : String)

/-- The store after a request. -/
def Store.step (s : Store) : Request → Store
  | .createCategory newId body => (MenuManagement.createCategory s newId body).1
  | .updateCategory id body => (MenuManagement.updateCategory s id body).1
  | .deleteCategory id => (MenuManagement.deleteCategory s id).1
  | .createSubcategory newId body => (MenuManagement.createSubcategory s newId body).1
  | .updateSubcategory id body => (MenuManagement.updateSubcategory s id body).1
  | .deleteSubcategory id => (MenuManagement.deleteSubcategory s id).1
  | .createItem newId body => (MenuManagement.createItem s newId body).1
  | .updateItem id body => (MenuManagement.updateItem s id body).1
  | .deleteItem id => (MenuManagement.deleteItem s id).1

/-- The store after a sequence of requests, served one after the other. -/
def Store.run (s : Store) (requests : List Request) : Store :=
  requests.foldl Store.step s

/-- The conditional requirement of `CategorySchema` read as a property of the whole
store: every stored Category with `taxApplicability` set has a `tax`. -/
def ConditionalTax (s : Store) : Prop :=
  ∀ c ∈ s.categories, c.taxApplicability = true → c.tax.isSome = true

/-- Whether the request goes to `updateCategory`. -/
def Request.isUpdateCategory : Request → Bool
  | .updateCategory _ _ => true
  | _ => false

/-- Whether the request is an `updateSubcategory` whose body supplies `items`. -/
def Request.setsItems : Request → Bool
  | .updateSubcategory _ body => body.items.isSome
  | _ => false

/-- Whether the request goes to one of the three creating controllers. -/
def Request.isCreate : Request → Bool
  | .createCategory _ _ => true
  | .createSubcategory _ _ => true
  | .createItem _ _ => true
  | _ => false

/-- Whether the request is a creation that leaves the child lists to the
controllers: `createCategory`, `createItem`, or `createSubcategory` with no
`items` in its body. -/
def Request.isPlainCreate : Request → Bool
  | .createCategory _ _ => true
  | .createSubcategory _ body => body.items.isNone
  | .createItem _ _ => true
  | _ => false

/-! ## What a request field refers to -/

section References

variable {α : Type} [Document α]

/-- The request field holds the id of the stored document `d`: it is a string that
casts to an ObjectId, and `d` is the document of the collection with that
`_id`. -/
def RefersTo (docs : List α) (v : Option String) (id : ObjectId) (d : α) : Prop :=
  v.bind ObjectId.parse = some id ∧ findById? docs id = some d

/-- The request field is a string that is not a well-formed ObjectId. -/
def Malformed (v : Option String) : Prop :=
  ∃ x, v = some x ∧ ObjectId.parse x = none

end References

/-- The request field is an array holding a string that is not a well-formed
ObjectId. -/
def MalformedIds (v : Option (List String)) : Prop :=
  ∃ xs, v = some xs ∧ castIds xs = none

/-! ## Store invariants -/

/-- The unique index on `_id`: no two documents of the collection share an id. -/
def UniqueIds {α : Type} [Document α] (docs : List α) : Prop :=
  (docs.map Document.id).Nodup

/-- The unique index on `_id` holds in each of the three collections. -/
def Store.WellIndexed (s : Store) : Prop :=
  UniqueIds s.categories ∧ UniqueIds s.subcategories ∧ UniqueIds s.items

/-! ## Parent lists and the children's parent fields -/

section Links

variable {P C : Type} [Document P]

/-- The child list `plist` of every parent is the list of the ids (`cid`) of the
stored children whose parent field (`ref`) is that parent's `_id`, in store
order. -/
def ListsAgree (parents : List P) (children : List C) (plist : P → List ObjectId)
    (ref cid : C → ObjectId) : Prop :=
  ∀ p ∈ parents, plist p = (children.filter (fun x => ref x == Document.id p)).map cid

/-- The parent field `ref` of every child is the `_id` of a stored parent. -/
def RefsIn (children : List C) (ref : C → ObjectId) (parents : List P) : Prop :=
  ∀ x ∈ children, ref x ∈ parents.map Document.id

end Links

/-- The three child lists agree with the parent fields of the stored children:
`Category.subCategories` with `SubCategory.category`, `Category.items` with
`Item.category`, and `SubCategory.items` with `Item.subcategory`. -/
def Linked (s : Store) : Prop :=
  ListsAgree s.categories s.subcategories Category.subCategories SubCategory.category
    SubCategory._id ∧
  ListsAgree s.categories s.items Category.items Item.category Item._id ∧
  ListsAgree s.subcategories s.items SubCategory.items Item.subcategory Item._id

/-- What creations keep true of the store: ids are unique, every stored Category
and Subcategory passes validation, every parent field names a stored parent,
and the child lists agree with the parent fields. -/
def Grown (s : Store) : Prop :=
  s.WellIndexed ∧
  (∀ c ∈ s.categories, c.validate = true) ∧
  (∀ c ∈ s.subcategories, c.validate = true) ∧
  RefsIn s.subcategories SubCategory.category s.categories ∧
  RefsIn s.items Item.category s.categories ∧
  RefsIn s.items Item.subcategory s.subcategories ∧
  Linked s

/-! ## Sample data -/

/-- A sample Category id. -/
def idC1 : ObjectId := ObjectId.mk2 0 1

/-- A second sample Category id. -/
def idC2 : ObjectId := ObjectId.mk2 0 2

/-- A sample Subcategory id. -/
def idS1 : ObjectId := ObjectId.mk2 1 1

/-- A sample Item id. -/
def idI1 : ObjectId := ObjectId.mk2 2 1

/-- A second sample Item id. -/
def idI2 : ObjectId := ObjectId.mk2 2 2

/-- A valid body for a Category "Beverages" with no tax fields. -/
def beverages : CategoryBody :=
  { name := some "Beverages", image := some "beverages.png", description := some "Drinks" }

/-- A valid body for a Subcategory "Cold Drinks" under the Category `idC1`. -/
def coldDrinks : SubcategoryBody :=
  { name := some "Cold Drinks", image := some "cold.png", description := some "Served cold",
    category := some idC1.toHexString }

/-- The body of "Cold Drinks" sent with an `items` array that already holds the
id `idI2`. -/
def coldDrinksWithItems : SubcategoryBody :=
  { coldDrinks with items := some [idI2.toHexString] }

/-- A valid body for an Item "Cola" under the Category `idC1` and the Subcategory
`idS1`. -/
def cola : ItemBody :=
  { name := some "Cola", image := some "cola.png", description := some "Cola, 330 ml",
    baseAmount := some 50, totalAmount := some 50,
    category := some idC1.toHexString, subcategory := some idS1.toHexString }

/-- The stored document of "Beverages". -/
def beveragesDoc : Category :=
  { _id := idC1, name := "Beverages", image := "beverages.png", description := "Drinks",
    taxApplicability := false, tax := none, taxType := "percentage",
    subCategories := [], items := [] }

/-- The stored document of "Cold Drinks". -/
def coldDrinksDoc : SubCategory :=
  { _id := idS1, name := "Cold Drinks", image := "cold.png", description := "Served cold",
    taxApplicability := false, tax := 0, taxType := "percentage", items := [],
    category := idC1 }

/-- The stored document of "Cola". -/
def colaDoc : Item :=
  { _id := idI1, name := "Cola", image := "cola.png", description := "Cola, 330 ml",
    taxApplicability := false, tax := 0, baseAmount := 50, discount := 0, totalAmount := 50,
    category := idC1, subcategory := idS1 }

/-- The body of "Cold Drinks" with the parent given by name, not by id. -/
def coldDrinksByName : SubcategoryBody :=
  { coldDrinks with category := some "Beverages" }

/-- The body of "Cola" with the parent Category given by name, not by id. -/
def colaByName : ItemBody :=
  { cola with category := some "Beverages" }

/-- A string of 24 hexadecimal digits used as a name. -/
def hexName : String := "0123456789abcdef01234567"

/-- A valid Category body whose name is `hexName`. -/
def hexNamedCategory : CategoryBody :=
  { beverages with name := some hexName }

/-- The stored document `createCategory` builds from `hexNamedCategory` with id
`idC1`. -/
def hexNamedCategoryDoc : Category :=
  { beveragesDoc with name := hexName }

/-- The stored document of a second Category named "Beverages", with id `idC2`. -/
def beveragesAgainDoc : Category :=
  { beveragesDoc with _id := idC2 }

/-- A stored Item whose name is `hexName`. -/
def hexNamedItemDoc : Item :=
  { colaDoc with name := hexName }

/-- A Category body with every field present, an empty `name`,
`taxApplicability = true` and `tax = 5`. -/
def emptyNameTaxed : CategoryBody :=
  { name := some "", image := some "beverages.png", description := some "Drinks",
    taxApplicability := some true, tax := some 5 }

/-- The body of "Beverages" with `taxApplicability = true` and `tax = 5`. -/
def beveragesTaxed : CategoryBody :=
  { beverages with taxApplicability := some true, tax := some 5 }

/-- An update body that supplies `taxApplicability = true` and nothing else. -/
def onlyTaxApplicability : CategoryUpdate :=
  { taxApplicability := some true }

/-- An Item update body whose `category` is a name, not an id. -/
def moveToBeveragesByName : ItemUpdate :=
  { category := some "Beverages" }

/-- An Item update body naming a Category and a Subcategory that are not stored. -/
def moveToUnknownParents : ItemUpdate :=
  { category := some idC2.toHexString, subcategory := some idI2.toHexString }

/-- A store holding "Beverages", "Cold Drinks" and "Cola", with "Cola" on both
parents' lists. -/
def menu : Store :=
  ⟨[{ beveragesDoc with subCategories := [idS1], items := [idI1] }],
    [{ coldDrinksDoc with items := [idI1] }], [colaDoc]⟩

/-- The requests that create "Beverages" and "Cold Drinks" under it, and then update
"Cold Drinks" with an empty `name`. -/
def emptiedSubcategoryName : List Request :=
  [.createCategory idC1 beverages,
   .createSubcategory idS1 coldDrinks,
   .updateSubcategory idS1.toHexString { name := some "" }]

/-- A Subcategory update body that supplies an empty `items` array and nothing
else. -/
def clearItems : SubcategoryUpdate :=
  { items := some [] }

/-- The requests that create "Beverages", "Cold Drinks" under it, and "Cola" under
both. -/
def createMenu : List Request :=
  [.createCategory idC1 beverages, .createSubcategory idS1 coldDrinks, .createItem idI1 cola]

/-- The requests that create "Beverages" and then update it with
`{ taxApplicability: true }` and no `tax`. -/
def taxWithoutValue : List Request :=
  [.createCategory idC1 beverages,
   .updateCategory idC1.toHexString { taxApplicability := some true }]

/-- The requests that create "Beverages" and "Cold Drinks" under it, and then update
"Beverages" with `{ taxApplicability: true }` and no `tax`. -/
def taxWithoutValueAfterChild : List Request :=
  [.createCategory idC1 beverages,
   .createSubcategory idS1 coldDrinks,
   .updateCategory idC1.toHexString { taxApplicability := some true }]

/-! ## ObjectId strings -/

theorem hexVal_hexChar (d : Fin 16) : hexVal (hexChar d) = some d := by
  fin_cases d <;> rfl

theorem parseDigits_map_hexChar (ds : List (Fin 16)) :
    parseDigits (ds.map hexChar) = some ds := by
  induction ds with
  | nil => rfl
  | cons d ds ih => simp [parseDigits, hexVal_hexChar, ih]

theorem ObjectId.parse_toHexString (id : ObjectId) :
    ObjectId.parse id.toHexString = some id := by
  obtain ⟨ds, h⟩ := id
  simp [ObjectId.parse, ObjectId.toHexString, parseDigits_map_hexChar, h]

theorem ObjectId.isValid_toHexString (id : ObjectId) :
    ObjectId.isValid id.toHexString = true := by
  simp [ObjectId.isValid, ObjectId.parse_toHexString]

/-! ## Lookups, inserts and saves -/

section Lookups

variable {α : Type} [Document α]

theorem findById?_eq_none_iff (docs : List α) (id : ObjectId) :
    findById? docs id = none ↔ ∀ d ∈ docs, Document.id d ≠ id := by
  simp [findById?, List.find?_eq_none]

theorem findById?_id {docs : List α} {id : ObjectId} {d : α}
    (h : findById? docs id = some d) : Document.id d = id := by
  have := List.find?_some h
  simpa using this

theorem findById?_mem {docs : List α} {id : ObjectId} {d : α}
    (h : findById? docs id = some d) : d ∈ docs :=
  List.mem_of_find?_eq_some h

theorem findById?_append_new (docs : List α) (d : α)
    (h : findById? docs (Document.id d) = none) :
    findById? (docs ++ [d]) (Document.id d) = some d := by
  unfold findById? at *
  simp [List.find?_append, h]

theorem findById?_modifyFirst (docs : List α) (id : ObjectId) (f : α → α) (d : α)
    (h : findById? docs id = some d) (hf : Document.id (f d) = id) :
    findById? (modifyFirst docs id f) id = some (f d) := by
  induction docs with
  | nil => simp [findById?] at h
  | cons x xs ih =>
    unfold findById? at h ih ⊢
    by_cases hx : Document.id x = id
    · simp [List.find?_cons, hx] at h
      subst h
      simp [modifyFirst, hx, List.find?_cons, hf]
    · simp [List.find?_cons, hx] at h
      simp [modifyFirst, hx, List.find?_cons, ih h]

theorem Model.findById_of_parse (docs : List α) (v : Option String)
    (id : ObjectId) (h : v.bind ObjectId.parse = some id) :
    Model.findById docs v = .ok (findById? docs id) := by
  cases v with
  | none => simp at h
  | some x =>
    simp only [Option.bind] at h
    simp [Model.findById, h]

theorem Model.findById_some_inv {docs : List α} {v : Option String} {d : α}
    (h : Model.findById docs v = .ok (some d)) :
    ∃ id, v.bind ObjectId.parse = some id ∧ findById? docs id = some d := by
  cases v with
  | none => simp [Model.findById] at h
  | some x =>
    cases hp : ObjectId.parse x with
    | none => simp [Model.findById, hp] at h
    | some id =>
      simp only [Model.findById, hp, Except.ok.injEq] at h
      exact ⟨id, by simp [hp], h⟩

theorem Model.findById_of_malformed {docs : List α} {v : Option String} {x : String}
    (hv : v = some x) (hx : ObjectId.parse x = none) :
    Model.findById docs v = .error (.cast x) := by
  subst hv
  simp [Model.findById, hx]

theorem insertOne_ok_inv {docs docs' : List α} {doc : α}
    (h : insertOne docs doc = .ok docs') :
    findById? docs (Document.id doc) = none ∧ docs' = docs ++ [doc] := by
  unfold insertOne at h
  split at h
  · cases h
  · rename_i hn
    simp only [Except.ok.injEq] at h
    exact ⟨by simpa using hn, h.symm⟩

theorem insertOne_of_new {docs : List α} {doc : α}
    (h : findById? docs (Document.id doc) = none) :
    insertOne docs doc = .ok (docs ++ [doc]) := by
  simp [insertOne, h]

theorem Document.save_ok_inv {docs docs' : List α} {doc : α}
    (h : Document.save docs doc = .ok docs') :
    Document.validate doc = true ∧
      docs' = modifyFirst docs (Document.id doc) (fun _ => doc) := by
  unfold Document.save at h
  split at h
  · cases h
  · rename_i hv
    split at h
    · cases h
    · simp only [Except.ok.injEq] at h
      exact ⟨by simpa using hv, h.symm⟩

theorem Document.save_of_valid (docs : List α) (doc d : α)
    (hv : Document.validate doc = true)
    (hd : findById? docs (Document.id doc) = some d) :
    Document.save docs doc = .ok (modifyFirst docs (Document.id doc) (fun _ => doc)) := by
  simp [Document.save, hv, hd]

end Lookups

/-! ## Documents built from request bodies -/

theorem categoryFromBody_ok_inv {newId : ObjectId} {body : CategoryBody} {doc : Category}
    (h : Category.fromBody newId body = .ok doc) :
    doc._id = newId ∧ body.name = some doc.name ∧ doc.tax = body.tax ∧
      doc.taxApplicability = body.taxApplicability.getD false ∧
      doc.subCategories = [] ∧ doc.items = [] ∧ doc.validate = true := by
  unfold Category.fromBody at h
  split at h
  · dsimp only at h
    split at h
    · rename_i hn _ _ hv
      cases h
      exact ⟨rfl, hn, rfl, rfl, rfl, rfl, hv⟩
    · cases h
  · cases h

theorem subCategoryFromBody_ok_inv {newId : ObjectId} {body : SubcategoryBody}
    {doc : SubCategory} (h : SubCategory.fromBody newId body = .ok doc) :
    doc._id = newId ∧ body.category.bind ObjectId.parse = some doc.category ∧
      castIds (body.items.getD []) = some doc.items ∧ doc.validate = true := by
  unfold SubCategory.fromBody at h
  split at h
  · dsimp only at h
    split at h
    · rename_i hc hi hv
      cases h
      exact ⟨rfl, hc, hi, hv⟩
    · cases h
  · cases h

theorem itemFromBody_ok_inv {newId : ObjectId} {body : ItemBody} {doc : Item}
    (h : Item.fromBody newId body = .ok doc) :
    doc._id = newId ∧ body.category.bind ObjectId.parse = some doc.category ∧
      body.subcategory.bind ObjectId.parse = some doc.subcategory ∧ doc.validate = true := by
  unfold Item.fromBody at h
  split at h
  · dsimp only at h
    split at h
    · rename_i hc hs hv
      cases h
      exact ⟨rfl, hc, hs, hv⟩
    · cases h
  · cases h

/-! ## The create flows, step by step -/

theorem createSubcategory_of_valid (s : Store) (newId cid : ObjectId)
    (body : SubcategoryBody) (parent : Category) (doc : SubCategory)
    (hcat : RefersTo s.categories body.category cid parent)
    (hvalid : parent.validate = true)
    (hbody : SubCategory.fromBody newId body = .ok doc)
    (hnew : findById? s.subcategories newId = none) :
    createSubcategory s newId body =
      (⟨modifyFirst s.categories cid
          (fun _ => { parent with subCategories := parent.subCategories ++ [newId] }),
        s.subcategories ++ [doc], s.items⟩, .json 201 doc) := by
  obtain ⟨hparse, hparent⟩ := hcat
  have hid : doc._id = newId := (subCategoryFromBody_ok_inv hbody).1
  have hpid : parent._id = cid := findById?_id hparent
  have hins : insertOne s.subcategories doc = .ok (s.subcategories ++ [doc]) :=
    insertOne_of_new (by show findById? s.subcategories doc._id = none; rw [hid]; exact hnew)
  have hsave : Document.save s.categories
      ({ parent with subCategories := parent.subCategories ++ [doc._id] } : Category)
      = .ok (modifyFirst s.categories cid
          (fun _ => { parent with subCategories := parent.subCategories ++ [newId] })) := by
    have h := Document.save_of_valid s.categories
      ({ parent with subCategories := parent.subCategories ++ [doc._id] } : Category)
      parent hvalid
      (by show findById? s.categories parent._id = some parent; rw [hpid]; exact hparent)
    rw [h, hid]
    show Except.ok (modifyFirst s.categories parent._id _) = _
    rw [hpid]
  simp [createSubcategory, Model.findById_of_parse _ _ _ hparse, hparent, hbody, hins, hsave]

theorem createSubcategory_created_inv {s : Store} {newId : ObjectId} {body : SubcategoryBody}
    (h : (createSubcategory s newId body).2.status = 201) :
    ∃ cid parent doc, RefersTo s.categories body.category cid parent ∧
      parent.validate = true ∧ SubCategory.fromBody newId body = .ok doc ∧
      findById? s.subcategories newId = none := by
  unfold createSubcategory at h
  rcases hc : Model.findById s.categories body.category with e | (_ | parent)
  · simp [hc, Response.status] at h
  · simp [hc, Response.status] at h
  · rcases hb : SubCategory.fromBody newId body with e | doc
    · simp [hc, hb, Response.status] at h
    · rcases hi : insertOne s.subcategories doc with e | subs
      · simp [hc, hb, hi, Response.status] at h
      · rcases hs : Document.save s.categories
            ({ parent with subCategories := parent.subCategories ++ [doc._id] } : Category)
          with e | cats
        · simp [hc, hb, hi, hs, Response.status] at h
        · obtain ⟨cid, hparse, hparent⟩ := Model.findById_some_inv hc
          have hid : doc._id = newId := (subCategoryFromBody_ok_inv hb).1
          refine ⟨cid, parent, doc, ⟨hparse, hparent⟩, (Document.save_ok_inv hs).1, rfl, ?_⟩
          have := (insertOne_ok_inv hi).1
          rw [← hid]; exact this

theorem createItem_of_valid (s : Store) (newId cid sid : ObjectId) (body : ItemBody)
    (pc : Category) (ps : SubCategory) (doc : Item)
    (hcat : RefersTo s.categories body.category cid pc)
    (hsub : RefersTo s.subcategories body.subcategory sid ps)
    (hvc : pc.validate = true) (hvs : ps.validate = true)
    (hbody : Item.fromBody newId body = .ok doc)
    (hnew : findById? s.items newId = none) :
    createItem s newId body =
      (⟨modifyFirst s.categories cid (fun _ => { pc with items := pc.items ++ [newId] }),
        modifyFirst s.subcategories sid (fun _ => { ps with items := ps.items ++ [newId] }),
        s.items ++ [doc]⟩, .json 201 doc) := by
  obtain ⟨hparseC, hpc⟩ := hcat
  obtain ⟨hparseS, hps⟩ := hsub
  have hid : doc._id = newId := (itemFromBody_ok_inv hbody).1
  have hpcid : pc._id = cid := findById?_id hpc
  have hpsid : ps._id = sid := findById?_id hps
  have hins : insertOne s.items doc = .ok (s.items ++ [doc]) :=
    insertOne_of_new (by show findById? s.items doc._id = none; rw [hid]; exact hnew)
  have hsaveC : Document.save s.categories
      ({ pc with items := pc.items ++ [doc._id] } : Category)
      = .ok (modifyFirst s.categories cid (fun _ => { pc with items := pc.items ++ [newId] })) := by
    have h := Document.save_of_valid s.categories
      ({ pc with items := pc.items ++ [doc._id] } : Category)
      pc hvc (by show findById? s.categories pc._id = some pc; rw [hpcid]; exact hpc)
    rw [h, hid]
    show Except.ok (modifyFirst s.categories pc._id _) = _
    rw [hpcid]
  have hsaveS : Document.save s.subcategories
      ({ ps with items := ps.items ++ [doc._id] } : SubCategory)
      = .ok (modifyFirst s.subcategories sid
          (fun _ => { ps with items := ps.items ++ [newId] })) := by
    have h := Document.save_of_valid s.subcategories
      ({ ps with items := ps.items ++ [doc._id] } : SubCategory)
      ps hvs (by show findById? s.subcategories ps._id = some ps; rw [hpsid]; exact hps)
    rw [h, hid]
    show Except.ok (modifyFirst s.subcategories ps._id _) = _
    rw [hpsid]
  simp [createItem, Model.findById_of_parse _ _ _ hparseC, Model.findById_of_parse _ _ _ hparseS,
    hpc, hps, hbody, hins, hsaveC, hsaveS]

theorem createItem_created_inv {s : Store} {newId : ObjectId} {body : ItemBody}
    (h : (createItem s newId body).2.status = 201) :
    ∃ cid sid pc ps doc, RefersTo s.categories body.category cid pc ∧
      RefersTo s.subcategories body.subcategory sid ps ∧
      pc.validate = true ∧ ps.validate = true ∧ Item.fromBody newId body = .ok doc ∧
      findById? s.items newId = none := by
  unfold createItem at h
  rcases hc : Model.findById s.categories body.category with e | (_ | pc)
  · simp [hc, Response.status] at h
  · simp [hc, Response.status] at h
  · rcases hsb : Model.findById s.subcategories body.subcategory with e | (_ | ps)
    · simp [hc, hsb, Response.status] at h
    · simp [hc, hsb, Response.status] at h
    · rcases hb : Item.fromBody newId body with e | doc
      · simp [hc, hsb, hb, Response.status] at h
      · rcases hi : insertOne s.items doc with e | its
        · simp [hc, hsb, hb, hi, Response.status] at h
        · rcases hs : Document.save s.categories
              ({ pc with items := pc.items ++ [doc._id] } : Category) with e | cats
          · simp [hc, hsb, hb, hi, hs, Response.status] at h
          · rcases hs2 : Document.save s.subcategories
                ({ ps with items := ps.items ++ [doc._id] } : SubCategory) with e | subs
            · simp [hc, hsb, hb, hi, hs, hs2, Response.status] at h
            · obtain ⟨cid, hparseC, hpc⟩ := Model.findById_some_inv hc
              obtain ⟨sid, hparseS, hps⟩ := Model.findById_some_inv hsb
              have hid : doc._id = newId := (itemFromBody_ok_inv hb).1
              refine ⟨cid, sid, pc, ps, doc, ⟨hparseC, hpc⟩, ⟨hparseS, hps⟩,
                (Document.save_ok_inv hs).1, (Document.save_ok_inv hs2).1, rfl, ?_⟩
              have := (insertOne_ok_inv hi).1
              rw [← hid]; exact this

/-! ## Creating a Subcategory or an Item under existing parents -/

/-- C1, as stated, fails: after `updateCategory` has stored "Beverages" with
`taxApplicability = true` and no `tax`, a valid `createSubcategory` request
naming it as parent answers 500; the Subcategory is stored, and the parent's
`subCategories` list does not contain its id. -/
theorem createSubcategory_unvalidated_parent :
    coldDrinks.category = some idC1.toHexString ∧
    (findById? (Store.empty.run taxWithoutValue).categories idC1).isSome = true ∧
    SubCategory.fromBody idS1 coldDrinks = .ok coldDrinksDoc ∧
    (createSubcategory (Store.empty.run taxWithoutValue) idS1 coldDrinks).2.status = 500 ∧
    (createSubcategory (Store.empty.run taxWithoutValue) idS1 coldDrinks).1.subcategories
      = [coldDrinksDoc] ∧
    (createSubcategory (Store.empty.run taxWithoutValue) idS1 coldDrinks).1.categories.map
      Category.subCategories = [[]] := by
  decide

/-- C1, amended: when the `category` field is the id of a stored Category whose own
document passes schema validation, the other fields pass validation, and the
generated id is new (no stored Subcategory has it, the parent's list does not
hold it), `createSubcategory` answers 201 with the new document, the store
holds that document under the returned id, and the parent's `subCategories`
is the old list followed by the id, which it contains exactly once. -/
theorem createSubcategory_links_parent (s : Store) (newId cid : ObjectId)
    (body : SubcategoryBody) (parent : Category) (doc : SubCategory)
    (hcat : RefersTo s.categories body.category cid parent)
    (hvalid : parent.validate = true)
    (hbody : SubCategory.fromBody newId body = .ok doc)
    (hnew : ∀ d ∈ s.subcategories, d._id ≠ newId)
    (hnotin : newId ∉ parent.subCategories) :
    (createSubcategory s newId body).2 = .json 201 doc ∧ doc._id = newId ∧
    findById? (createSubcategory s newId body).1.subcategories newId = some doc ∧
    findById? (createSubcategory s newId body).1.categories cid
      = some { parent with subCategories := parent.subCategories ++ [newId] } ∧
    (parent.subCategories ++ [newId]).count newId = 1 := by
  have hid : doc._id = newId := (subCategoryFromBody_ok_inv hbody).1
  have hnone : findById? s.subcategories newId = none :=
    (findById?_eq_none_iff _ _).2 hnew
  rw [createSubcategory_of_valid s newId cid body parent doc hcat hvalid hbody hnone]
  refine ⟨rfl, hid, ?_, ?_, ?_⟩
  · have := findById?_append_new s.subcategories doc
      (by show findById? s.subcategories doc._id = none; rw [hid]; exact hnone)
    rw [← hid]; exact this
  · exact findById?_modifyFirst s.categories cid _ parent hcat.2
      (by show parent._id = cid; exact findById?_id hcat.2)
  · simp [List.count_append, List.count_eq_zero_of_not_mem hnotin]

/-- C1, amended, at "Cold Drinks" created under a stored "Beverages". -/
theorem createSubcategory_links_parent_witness :
    (createSubcategory ⟨[beveragesDoc], [], []⟩ idS1 coldDrinks).2 = .json 201 coldDrinksDoc ∧
    coldDrinksDoc._id = idS1 ∧
    findById? (createSubcategory ⟨[beveragesDoc], [], []⟩ idS1 coldDrinks).1.subcategories idS1
      = some coldDrinksDoc ∧
    findById? (createSubcategory ⟨[beveragesDoc], [], []⟩ idS1 coldDrinks).1.categories idC1
      = some { beveragesDoc with subCategories := beveragesDoc.subCategories ++ [idS1] } ∧
    (beveragesDoc.subCategories ++ [idS1]).count idS1 = 1 :=
  createSubcategory_links_parent ⟨[beveragesDoc], [], []⟩ idS1 idC1 coldDrinks beveragesDoc
    coldDrinksDoc ⟨by decide, by decide⟩ (by decide) (by decide) (by decide) (by decide)

/-- C2, as stated, fails: with "Cold Drinks" stored under "Beverages" and
"Beverages" then updated to `taxApplicability = true` with no `tax`, a valid
`createItem` request naming both as parents answers 500; the Item is stored,
and neither parent's `items` list contains its id. -/
theorem createItem_unvalidated_parent :
    cola.category = some idC1.toHexString ∧ cola.subcategory = some idS1.toHexString ∧
    (findById? (Store.empty.run taxWithoutValueAfterChild).categories idC1).isSome = true ∧
    (findById? (Store.empty.run taxWithoutValueAfterChild).subcategories idS1).isSome = true ∧
    Item.fromBody idI1 cola = .ok colaDoc ∧
    (createItem (Store.empty.run taxWithoutValueAfterChild) idI1 cola).2.status = 500 ∧
    (createItem (Store.empty.run taxWithoutValueAfterChild) idI1 cola).1.items = [colaDoc] ∧
    (createItem (Store.empty.run taxWithoutValueAfterChild) idI1 cola).1.categories.map
      Category.items = [[]] ∧
    (createItem (Store.empty.run taxWithoutValueAfterChild) idI1 cola).1.subcategories.map
      SubCategory.items = [[]] := by
  decide

/-- C2, amended: when `category` and `subcategory` are the ids of a stored Category
and a stored Subcategory whose own documents pass schema validation, the
other fields pass validation, and no stored Item has the generated id,
`createItem` answers 201 with the new document, the store holds that document
under the returned id, and each parent's `items` list is its old list followed
by the id, so the id is a member of both. -/
theorem createItem_links_parents (s : Store) (newId cid sid : ObjectId) (body : ItemBody)
    (pc : Category) (ps : SubCategory) (doc : Item)
    (hcat : RefersTo s.categories body.category cid pc)
    (hsub : RefersTo s.subcategories body.subcategory sid ps)
    (hvc : pc.validate = true) (hvs : ps.validate = true)
    (hbody : Item.fromBody newId body = .ok doc)
    (hnew : ∀ d ∈ s.items, d._id ≠ newId) :
    (createItem s newId body).2 = .json 201 doc ∧ doc._id = newId ∧
    findById? (createItem s newId body).1.items newId = some doc ∧
    findById? (createItem s newId body).1.categories cid
      = some { pc with items := pc.items ++ [newId] } ∧
    findById? (createItem s newId body).1.subcategories sid
      = some { ps with items := ps.items ++ [newId] } ∧
    newId ∈ pc.items ++ [newId] ∧ newId ∈ ps.items ++ [newId] := by
  have hid : doc._id = newId := (itemFromBody_ok_inv hbody).1
  have hnone : findById? s.items newId = none := (findById?_eq_none_iff _ _).2 hnew
  rw [createItem_of_valid s newId cid sid body pc ps doc hcat hsub hvc hvs hbody hnone]
  refine ⟨rfl, hid, ?_, ?_, ?_, by simp, by simp⟩
  · have := findById?_append_new s.items doc
      (by show findById? s.items doc._id = none; rw [hid]; exact hnone)
    rw [← hid]; exact this
  · exact findById?_modifyFirst s.categories cid _ pc hcat.2
      (by show pc._id = cid; exact findById?_id hcat.2)
  · exact findById?_modifyFirst s.subcategories sid _ ps hsub.2
      (by show ps._id = sid; exact findById?_id hsub.2)

/-- C2, amended, at "Cola" created under stored "Beverages" and "Cold Drinks". -/
theorem createItem_links_parents_witness :
    (createItem ⟨[beveragesDoc], [coldDrinksDoc], []⟩ idI1 cola).2 = .json 201 colaDoc ∧
    colaDoc._id = idI1 ∧
    findById? (createItem ⟨[beveragesDoc], [coldDrinksDoc], []⟩ idI1 cola).1.items idI1
      = some colaDoc ∧
    findById? (createItem ⟨[beveragesDoc], [coldDrinksDoc], []⟩ idI1 cola).1.categories idC1
      = some { beveragesDoc with items := beveragesDoc.items ++ [idI1] } ∧
    findById? (createItem ⟨[beveragesDoc], [coldDrinksDoc], []⟩ idI1 cola).1.subcategories idS1
      = some { coldDrinksDoc with items := coldDrinksDoc.items ++ [idI1] } ∧
    idI1 ∈ beveragesDoc.items ++ [idI1] ∧ idI1 ∈ coldDrinksDoc.items ++ [idI1] :=
  createItem_links_parents ⟨[beveragesDoc], [coldDrinksDoc], []⟩ idI1 idC1 idS1 cola
    beveragesDoc coldDrinksDoc colaDoc ⟨by decide, by decide⟩ ⟨by decide, by decide⟩
    (by decide) (by decide) (by decide) (by decide)

/-! ## Creating under a parent that does not exist -/

theorem Model.findById_of_no_reference {α : Type} [Document α] {docs : List α}
    {v : Option String} (h : ∀ id d, ¬ RefersTo docs v id d) :
    (¬ Malformed v → Model.findById docs v = .ok none) ∧
    (Malformed v → ∃ x, v = some x ∧ Model.findById docs v = .error (.cast x)) := by
  constructor
  · intro hm
    cases v with
    | none => rfl
    | some x =>
      cases hp : ObjectId.parse x with
      | none => exact absurd ⟨x, rfl, hp⟩ hm
      | some id =>
        cases hf : findById? docs id with
        | none => simp [Model.findById, hp, hf]
        | some d => exact absurd ⟨by simp [hp], hf⟩ (h id d)
  · rintro ⟨x, hx, hp⟩
    exact ⟨x, hx, Model.findById_of_malformed hx hp⟩

/-- C3, as stated, fails: with "Beverages" stored, a `createSubcategory` request
whose `category` is the string "Beverages" (the id of no stored Category)
answers 500, not 404. -/
theorem createSubcategory_category_by_name :
    coldDrinksByName.category = some "Beverages" ∧ ObjectId.parse "Beverages" = none ∧
    (∀ c ∈ (⟨[beveragesDoc], [], []⟩ : Store).categories,
      coldDrinksByName.category ≠ some c._id.toHexString) ∧
    (createSubcategory ⟨[beveragesDoc], [], []⟩ idS1 coldDrinksByName).2.status = 500 := by
  decide

/-- C3, amended: when the `category` field is not the id of any stored Category,
`createSubcategory` leaves the store as it was; it answers 404 "Category not
found" when the field is absent or a well-formed ObjectId, and 500 when the
field is a string that is not a well-formed ObjectId. -/
theorem createSubcategory_unknown_category (s : Store) (newId : ObjectId)
    (body : SubcategoryBody)
    (h : ∀ cid parent, ¬ RefersTo s.categories body.category cid parent) :
    (createSubcategory s newId body).1 = s ∧
    (¬ Malformed body.category →
      (createSubcategory s newId body).2 = .error 404 "Category not found") ∧
    (Malformed body.category → (createSubcategory s newId body).2.status = 500) := by
  obtain ⟨h1, h2⟩ := Model.findById_of_no_reference h
  by_cases hm : Malformed body.category
  · obtain ⟨x, -, hx⟩ := h2 hm
    simp [createSubcategory, hx, hm, Response.status]
  · simp [createSubcategory, h1 hm, hm]

/-- C3, amended, at a request naming the well-formed id `idC2`, which is not stored. -/
theorem createSubcategory_unknown_category_witness :
    (createSubcategory ⟨[beveragesDoc], [], []⟩ idS1
        { coldDrinks with category := some idC2.toHexString }).1 = ⟨[beveragesDoc], [], []⟩ ∧
    (createSubcategory ⟨[beveragesDoc], [], []⟩ idS1
        { coldDrinks with category := some idC2.toHexString }).2
      = .error 404 "Category not found" := by
  have hno : ∀ cid parent, ¬ RefersTo (⟨[beveragesDoc], [], []⟩ : Store).categories
      ({ coldDrinks with category := some idC2.toHexString } : SubcategoryBody).category
      cid parent := by
    rintro cid parent ⟨hp, hf⟩
    have hcid : cid = idC2 := by
      have : some idC2 = some cid := by
        rw [← hp]; decide
      exact (Option.some.inj this).symm
    subst hcid
    have hnone : findById? (⟨[beveragesDoc], [], []⟩ : Store).categories idC2 = none := by
      decide
    rw [hnone] at hf
    cases hf
  have key := createSubcategory_unknown_category ⟨[beveragesDoc], [], []⟩ idS1
    { coldDrinks with category := some idC2.toHexString } hno
  refine ⟨key.1, key.2.1 ?_⟩
  rintro ⟨x, hx, hp⟩
  have hx2 : x = idC2.toHexString := (Option.some.inj hx).symm
  subst hx2
  rw [ObjectId.parse_toHexString] at hp
  cases hp

/-- C4, as stated, fails: with "Beverages" stored, a `createItem` request whose
`category` is the string "Beverages" (a reference to no stored Category)
answers 500, not 404. -/
theorem createItem_category_by_name :
    colaByName.category = some "Beverages" ∧ ObjectId.parse "Beverages" = none ∧
    (∀ c ∈ (⟨[beveragesDoc], [coldDrinksDoc], []⟩ : Store).categories,
      colaByName.category ≠ some c._id.toHexString) ∧
    (createItem ⟨[beveragesDoc], [coldDrinksDoc], []⟩ idI1 colaByName).2.status = 500 := by
  decide

/-- C4, amended: `createItem` writes nothing when a parent is missing.  If `category`
is not the id of a stored Category, whatever `subcategory` is, the store is
unchanged and the answer is 404 "Category not found" (500 when `category` is
not a well-formed ObjectId).  Otherwise, if `subcategory` is not the id of a
stored Subcategory, the store is unchanged and the answer is 404 "Subcategory
not found" (500 when `subcategory` is not a well-formed ObjectId). -/
theorem createItem_unknown_parent (s : Store) (newId : ObjectId) (body : ItemBody) :
    ((∀ cid pc, ¬ RefersTo s.categories body.category cid pc) →
      (createItem s newId body).1 = s ∧
      (¬ Malformed body.category →
        (createItem s newId body).2 = .error 404 "Category not found") ∧
      (Malformed body.category → (createItem s newId body).2.status = 500)) ∧
    (∀ cid pc, RefersTo s.categories body.category cid pc →
      (∀ sid ps, ¬ RefersTo s.subcategories body.subcategory sid ps) →
      (createItem s newId body).1 = s ∧
      (¬ Malformed body.subcategory →
        (createItem s newId body).2 = .error 404 "Subcategory not found") ∧
      (Malformed body.subcategory → (createItem s newId body).2.status = 500)) := by
  constructor
  · intro h
    obtain ⟨h1, h2⟩ := Model.findById_of_no_reference h
    by_cases hm : Malformed body.category
    · obtain ⟨x, -, hx⟩ := h2 hm
      simp [createItem, hx, hm, Response.status]
    · simp [createItem, h1 hm, hm]
  · rintro cid pc ⟨hparse, hpc⟩ h
    obtain ⟨h1, h2⟩ := Model.findById_of_no_reference h
    have hc := Model.findById_of_parse s.categories body.category cid hparse
    by_cases hm : Malformed body.subcategory
    · obtain ⟨x, -, hx⟩ := h2 hm
      simp [createItem, hc, hpc, hx, hm, Response.status]
    · simp [createItem, hc, hpc, h1 hm, hm]

/-- C4, amended, at requests over stored "Beverages": one naming neither a stored
Category nor a stored Subcategory, one naming "Beverages" and no stored
Subcategory. -/
theorem createItem_unknown_parent_witness :
    ((createItem ⟨[beveragesDoc], [], []⟩ idI1 { cola with category := none }).1
        = ⟨[beveragesDoc], [], []⟩ ∧
      (createItem ⟨[beveragesDoc], [], []⟩ idI1 { cola with category := none }).2
        = .error 404 "Category not found") ∧
    ((createItem ⟨[beveragesDoc], [], []⟩ idI1 { cola with subcategory := none }).1
        = ⟨[beveragesDoc], [], []⟩ ∧
      (createItem ⟨[beveragesDoc], [], []⟩ idI1 { cola with subcategory := none }).2
        = .error 404 "Subcategory not found") := by
  have k1 := (createItem_unknown_parent ⟨[beveragesDoc], [], []⟩ idI1
    { cola with category := none }).1
    (by rintro cid pc ⟨hp, -⟩; simp at hp)
  have k2 := (createItem_unknown_parent ⟨[beveragesDoc], [], []⟩ idI1
    { cola with subcategory := none }).2 idC1 beveragesDoc ⟨by decide, by decide⟩
    (by rintro sid ps ⟨hp, -⟩; simp at hp)
  refine ⟨⟨k1.1, k1.2.1 ?_⟩, ⟨k2.1, k2.2.1 ?_⟩⟩
  · rintro ⟨x, hx, -⟩; simp at hx
  · rintro ⟨x, hx, -⟩; simp at hx

/-! ## Parent lists grow at the end -/

theorem modifyFirst_singleton {α : Type} [Document α] (d : α) (id : ObjectId) (f : α → α)
    (h : Document.id d = id) : modifyFirst [d] id f = [f d] := by
  simp [modifyFirst, h]

theorem findById?_singleton {α : Type} [Document α] (d : α) (id : ObjectId)
    (h : Document.id d = id) : findById? [d] id = some d := by
  simp [findById?, h]

/-- The scenario of C5 for arbitrary ids and valid bodies: from the empty store,
a Category, a Subcategory under it and an Item under both leave exactly these
three documents; the Subcategory keeps the `items` it was created with, in
front of the new id. -/
theorem run_create_chain (c1 s1 i1 : ObjectId) (cb : CategoryBody) (sb : SubcategoryBody)
    (ib : ItemBody) (docC : Category) (docS : SubCategory) (docI : Item)
    (hC : Category.fromBody c1 cb = .ok docC)
    (hS : SubCategory.fromBody s1 sb = .ok docS)
    (hI : Item.fromBody i1 ib = .ok docI)
    (hSC : docS.category = c1)
    (hIC : docI.category = c1) (hIS : docI.subcategory = s1) :
    Store.empty.run [.createCategory c1 cb, .createSubcategory s1 sb, .createItem i1 ib] =
      ⟨[{ docC with subCategories := [s1], items := [i1] }],
        [{ docS with items := docS.items ++ [i1] }], [docI]⟩ := by
  obtain ⟨hCid, -, -, -, hCsub, hCitems, hCvalid⟩ := categoryFromBody_ok_inv hC
  obtain ⟨hSid, hSparse, hScast, hSvalid⟩ := subCategoryFromBody_ok_inv hS
  obtain ⟨hIid, hIparseC, hIparseS, -⟩ := itemFromBody_ok_inv hI
  have step1 : createCategory Store.empty c1 cb = (⟨[docC], [], []⟩, .json 201 docC) := by
    simp [createCategory, hC, insertOne, findById?, Store.empty]
  have step2 : createSubcategory ⟨[docC], [], []⟩ s1 sb
      = (⟨[{ docC with subCategories := [s1] }], [docS], []⟩, .json 201 docS) := by
    rw [createSubcategory_of_valid ⟨[docC], [], []⟩ s1 c1 sb docC docS
      ⟨by rw [hSparse, hSC], findById?_singleton docC c1 hCid⟩ hCvalid hS
      (by simp [findById?])]
    rw [modifyFirst_singleton docC c1 _ hCid, hCsub]
    rfl
  have step3 : createItem ⟨[{ docC with subCategories := [s1] }], [docS], []⟩ i1 ib
      = (⟨[{ docC with subCategories := [s1], items := [i1] }],
          [{ docS with items := docS.items ++ [i1] }], [docI]⟩, .json 201 docI) := by
    rw [createItem_of_valid ⟨[{ docC with subCategories := [s1] }], [docS], []⟩ i1 c1 s1 ib
      { docC with subCategories := [s1] } docS docI
      ⟨by rw [hIparseC, hIC], findById?_singleton _ c1 hCid⟩
      ⟨by rw [hIparseS, hIS], findById?_singleton _ s1 hSid⟩
      hCvalid hSvalid hI (by simp [findById?])]
    rw [modifyFirst_singleton _ c1 _ hCid, modifyFirst_singleton docS s1 _ hSid,
      hCitems]
    rfl
  simp [Store.run, Store.step, step1, step2, step3]

/-- C5, as stated, fails in its scenario: from the empty store, "Beverages" as C1,
then "Cold Drinks" as S1 under C1 with `items: [idI2]` in its body, then
"Cola" as I1 under C1 and S1 are each answered with 201 and leave
`S1.items = [idI2, I1]`, not `[I1]`. -/
theorem create_chain_keeps_supplied_items :
    (createCategory Store.empty idC1 beverages).2.status = 201 ∧
    (createSubcategory (Store.empty.run [.createCategory idC1 beverages]) idS1
      coldDrinksWithItems).2.status = 201 ∧
    (createItem (Store.empty.run [.createCategory idC1 beverages,
      .createSubcategory idS1 coldDrinksWithItems]) idI1 cola).2.status = 201 ∧
    (Store.empty.run [.createCategory idC1 beverages,
        .createSubcategory idS1 coldDrinksWithItems, .createItem idI1 cola]).categories.map
      (fun c => (c._id, c.subCategories, c.items)) = [(idC1, [idS1], [idI1])] ∧
    (Store.empty.run [.createCategory idC1 beverages,
        .createSubcategory idS1 coldDrinksWithItems, .createItem idI1 cola]).subcategories.map
      (fun c => (c._id, c.items)) = [(idS1, [idI2, idI1])] := by
  decide

/-- C5, amended: a successful `createSubcategory` leaves the parent Category's
`subCategories` equal to the list before followed by the new id; a
successful `createItem` leaves the parent Category's `items` and the parent
Subcategory's `items` each equal to the list before followed by the new id;
and from the empty store, creating Category C1, Subcategory S1 under C1 and
Item I1 under C1 and S1 leaves `C1.subCategories = [S1]`, `C1.items = [I1]`
and `S1.items` equal to the items S1 was created with followed by I1, which
is `[I1]` when the body of S1 supplied no `items`. -/
theorem create_appends_to_parent_lists :
    (∀ (s : Store) (newId : ObjectId) (body : SubcategoryBody),
      (createSubcategory s newId body).2.status = 201 →
      ∃ cid parent, RefersTo s.categories body.category cid parent ∧
        (findById? (createSubcategory s newId body).1.categories cid).map
          Category.subCategories = some (parent.subCategories ++ [newId])) ∧
    (∀ (s : Store) (newId : ObjectId) (body : ItemBody),
      (createItem s newId body).2.status = 201 →
      ∃ cid sid pc ps, RefersTo s.categories body.category cid pc ∧
        RefersTo s.subcategories body.subcategory sid ps ∧
        (findById? (createItem s newId body).1.categories cid).map Category.items
          = some (pc.items ++ [newId]) ∧
        (findById? (createItem s newId body).1.subcategories sid).map SubCategory.items
          = some (ps.items ++ [newId])) ∧
    (∀ (c1 s1 i1 : ObjectId) (cb : CategoryBody) (sb : SubcategoryBody) (ib : ItemBody)
        (docC : Category) (docS : SubCategory) (docI : Item),
      Category.fromBody c1 cb = .ok docC → SubCategory.fromBody s1 sb = .ok docS →
      Item.fromBody i1 ib = .ok docI → docS.category = c1 →
      docI.category = c1 → docI.subcategory = s1 →
      (Store.empty.run
          [.createCategory c1 cb, .createSubcategory s1 sb, .createItem i1 ib]).categories.map
        (fun c => (c._id, c.subCategories, c.items)) = [(c1, [s1], [i1])] ∧
      (∃ supplied, castIds (sb.items.getD []) = some supplied ∧
        (Store.empty.run
            [.createCategory c1 cb, .createSubcategory s1 sb,
              .createItem i1 ib]).subcategories.map
          (fun c => (c._id, c.items)) = [(s1, supplied ++ [i1])]) ∧
      (sb.items = none →
        (Store.empty.run
            [.createCategory c1 cb, .createSubcategory s1 sb,
              .createItem i1 ib]).subcategories.map
          (fun c => (c._id, c.items)) = [(s1, [i1])])) := by
  refine ⟨?_, ?_, ?_⟩
  · intro s newId body h
    obtain ⟨cid, parent, doc, hcat, hvalid, hbody, hnew⟩ := createSubcategory_created_inv h
    refine ⟨cid, parent, hcat, ?_⟩
    rw [createSubcategory_of_valid s newId cid body parent doc hcat hvalid hbody hnew]
    have := findById?_modifyFirst s.categories cid
      (fun _ => ({ parent with subCategories := parent.subCategories ++ [newId] } : Category))
      parent hcat.2 (by show parent._id = cid; exact findById?_id hcat.2)
    simp [this]
  · intro s newId body h
    obtain ⟨cid, sid, pc, ps, doc, hcat, hsub, hvc, hvs, hbody, hnew⟩ :=
      createItem_created_inv h
    refine ⟨cid, sid, pc, ps, hcat, hsub, ?_, ?_⟩
    · rw [createItem_of_valid s newId cid sid body pc ps doc hcat hsub hvc hvs hbody hnew]
      have := findById?_modifyFirst s.categories cid
        (fun _ => ({ pc with items := pc.items ++ [newId] } : Category))
        pc hcat.2 (by show pc._id = cid; exact findById?_id hcat.2)
      simp [this]
    · rw [createItem_of_valid s newId cid sid body pc ps doc hcat hsub hvc hvs hbody hnew]
      have := findById?_modifyFirst s.subcategories sid
        (fun _ => ({ ps with items := ps.items ++ [newId] } : SubCategory))
        ps hsub.2 (by show ps._id = sid; exact findById?_id hsub.2)
      simp [this]
  · intro c1 s1 i1 cb sb ib docC docS docI hC hS hI hSC hIC hIS
    rw [run_create_chain c1 s1 i1 cb sb ib docC docS docI hC hS hI hSC hIC hIS]
    have hCid := (categoryFromBody_ok_inv hC).1
    obtain ⟨hSid, -, hScast, -⟩ := subCategoryFromBody_ok_inv hS
    refine ⟨by simp [hCid], ⟨docS.items, hScast, by simp [hSid]⟩, fun hitems => ?_⟩
    have hSitems : docS.items = [] := by
      rw [hitems] at hScast
      simpa [castIds] using hScast.symm
    simp [hSid, hSitems]

/-- C5, amended, at "Beverages", "Cold Drinks" and "Cola": the creation of "Cold
Drinks" under stored "Beverages", and the whole scenario from the empty
store with "Cold Drinks" sent without `items`. -/
theorem create_appends_to_parent_lists_witness :
    (∃ cid parent, RefersTo (⟨[beveragesDoc], [], []⟩ : Store).categories
        coldDrinks.category cid parent ∧
      (findById? (createSubcategory ⟨[beveragesDoc], [], []⟩ idS1 coldDrinks).1.categories
        cid).map Category.subCategories = some (parent.subCategories ++ [idS1])) ∧
    ((Store.empty.run [.createCategory idC1 beverages, .createSubcategory idS1 coldDrinks,
        .createItem idI1 cola]).categories.map
        (fun c => (c._id, c.subCategories, c.items)) = [(idC1, [idS1], [idI1])] ∧
      (Store.empty.run [.createCategory idC1 beverages, .createSubcategory idS1 coldDrinks,
        .createItem idI1 cola]).subcategories.map
        (fun c => (c._id, c.items)) = [(idS1, [idI1])]) :=
  ⟨create_appends_to_parent_lists.1 ⟨[beveragesDoc], [], []⟩ idS1 coldDrinks (by decide),
    (create_appends_to_parent_lists.2.2 idC1 idS1 idI1 beverages coldDrinks cola
      beveragesDoc coldDrinksDoc colaDoc (by decide) (by decide) (by decide) (by decide)
      (by decide) (by decide)).1,
    (create_appends_to_parent_lists.2.2 idC1 idS1 idI1 beverages coldDrinks cola
      beveragesDoc coldDrinksDoc colaDoc (by decide) (by decide) (by decide) (by decide)
      (by decide) (by decide)).2.2 (by decide)⟩

/-! ## Reading back what was created -/

theorem createCategory_created_inv {s : Store} {newId : ObjectId} {body : CategoryBody}
    {c : Category} (h : (createCategory s newId body).2 = .json 201 c) :
    Category.fromBody newId body = .ok c ∧ findById? s.categories c._id = none ∧
      (createCategory s newId body).1 = { s with categories := s.categories ++ [c] } := by
  unfold createCategory at h ⊢
  rcases hb : Category.fromBody newId body with e | doc
  · simp [hb] at h
  · rcases hi : insertOne s.categories doc with e | cats
    · simp [hb, hi] at h
    · simp only [hb, hi, Response.json.injEq, true_and] at h
      subst h
      obtain ⟨hn, hc⟩ := insertOne_ok_inv hi
      subst hc
      refine ⟨rfl, hn, ?_⟩
      simp [hi]

theorem getCategory_of_not_valid (s : Store) (name : String)
    (h : ObjectId.isValid name = false) :
    getCategory s name =
      match s.categories.find? (fun c => c.name == name) with
      | none => .error 404 "Category not found"
      | some c => .json 200 c := by
  unfold getCategory
  simp only [h]
  cases s.categories.find? (fun c => c.name == name) <;> rfl

/-- C6: when `createCategory` succeeds and returns a record, `getCategory` called on
the resulting store with that record's id answers 200 with the same record. -/
theorem getCategory_by_id_after_create (s : Store) (newId : ObjectId) (body : CategoryBody)
    (c : Category) (h : (createCategory s newId body).2 = .json 201 c) :
    getCategory (createCategory s newId body).1 c._id.toHexString = .json 200 c := by
  obtain ⟨-, hnone, hs⟩ := createCategory_created_inv h
  have hfind : findById? (s.categories ++ [c]) c._id = some c :=
    findById?_append_new s.categories c hnone
  rw [hs]
  simp [getCategory, ObjectId.isValid_toHexString, Model.findById,
    ObjectId.parse_toHexString, hfind]

/-- C6 at "Beverages" created in the empty store. -/
theorem getCategory_by_id_after_create_witness :
    (createCategory Store.empty idC1 beverages).2 = .json 201 beveragesDoc ∧
    getCategory (createCategory Store.empty idC1 beverages).1 beveragesDoc._id.toHexString
      = .json 200 beveragesDoc :=
  ⟨by decide,
    getCategory_by_id_after_create Store.empty idC1 beverages beveragesDoc (by decide)⟩

/-- C7, as stated, fails in two ways.  A Category created with a name of 24
hexadecimal digits is looked up by id, not by name, and is not found; and a
Category created with the name of an older Category is shadowed by it:
`getCategory` answers with the older record. -/
theorem getCategory_by_name_after_create_fails :
    ((createCategory Store.empty idC1 hexNamedCategory).2 = .json 201 hexNamedCategoryDoc ∧
      getCategory (createCategory Store.empty idC1 hexNamedCategory).1 hexNamedCategoryDoc.name
        = .error 404 "Category not found") ∧
    ((createCategory ⟨[beveragesDoc], [], []⟩ idC2 beverages).2
        = .json 201 beveragesAgainDoc ∧
      getCategory (createCategory ⟨[beveragesDoc], [], []⟩ idC2 beverages).1
        beveragesAgainDoc.name = .json 200 beveragesDoc ∧
      beveragesDoc ≠ beveragesAgainDoc) := by
  decide

/-- C7, amended: when `createCategory` succeeds and returns a record whose name is not
a valid ObjectId string and is not the name of a Category stored before the
call, `getCategory` called on the resulting store with that name answers 200
with the new record. -/
theorem getCategory_by_name_after_create (s : Store) (newId : ObjectId) (body : CategoryBody)
    (c : Category) (h : (createCategory s newId body).2 = .json 201 c)
    (hname : ObjectId.isValid c.name = false)
    (hunique : ∀ d ∈ s.categories, d.name ≠ c.name) :
    getCategory (createCategory s newId body).1 c.name = .json 200 c := by
  obtain ⟨-, -, hs⟩ := createCategory_created_inv h
  rw [hs, getCategory_of_not_valid _ _ hname]
  have hnone : s.categories.find? (fun d => d.name == c.name) = none := by
    rw [List.find?_eq_none]
    intro d hd
    simpa using hunique d hd
  simp [List.find?_append, hnone]

/-- C7, amended, at "Beverages" created in the empty store. -/
theorem getCategory_by_name_after_create_witness :
    (createCategory Store.empty idC1 beverages).2 = .json 201 beveragesDoc ∧
    getCategory (createCategory Store.empty idC1 beverages).1 beveragesDoc.name
      = .json 200 beveragesDoc :=
  ⟨by decide, getCategory_by_name_after_create Store.empty idC1 beverages beveragesDoc
    (by decide) (by decide) (by decide)⟩

/-! ## `searchItem` and `getItem` -/

/-- C8, as stated, fails: for a stored Item whose name is 24 hexadecimal digits,
`searchItem` finds it by name and answers 200, while `getItem` looks the
string up as an id and answers 404. -/
theorem getItem_differs_from_searchItem :
    searchItem ⟨[], [], [hexNamedItemDoc]⟩ hexName = .json 200 hexNamedItemDoc ∧
    getItem ⟨[], [], [hexNamedItemDoc]⟩ hexName = .error 404 "Item not found" := by
  decide

/-- C8, amended: for every string that is not a valid ObjectId string, `getItem` and
`searchItem` give the same result: when some stored Item has exactly that
name both answer 200 with the same Item record, which is a stored Item of
that name, and when no stored Item has that name both answer 404. -/
theorem getItem_eq_searchItem (s : Store) (name : String)
    (h : ObjectId.isValid name = false) :
    getItem s name = searchItem s name ∧
    ((∃ c ∈ s.items, c.name = name) →
      ∃ c ∈ s.items, c.name = name ∧ searchItem s name = .json 200 c ∧
        getItem s name = .json 200 c) ∧
    ((∀ c ∈ s.items, c.name ≠ name) →
      searchItem s name = .error 404 "Item not found" ∧
      getItem s name = .error 404 "Item not found") := by
  have heq : getItem s name = searchItem s name := by
    unfold getItem searchItem
    simp only [h]
    cases s.items.find? (fun c => c.name == name) <;> rfl
  refine ⟨heq, ?_, ?_⟩
  · rintro ⟨c, hc, hcn⟩
    cases hf : s.items.find? (fun c => c.name == name) with
    | none =>
      rw [List.find?_eq_none] at hf
      exact absurd (by simpa using hcn) (hf c hc)
    | some d =>
      have hs : searchItem s name = .json 200 d := by simp [searchItem, hf]
      refine ⟨d, List.mem_of_find?_eq_some hf, ?_, hs, ?_⟩
      · simpa using List.find?_some hf
      · rw [heq, hs]
  · intro hno
    have hf : s.items.find? (fun c => c.name == name) = none := by
      rw [List.find?_eq_none]
      intro d hd
      simpa using hno d hd
    have hs : searchItem s name = .error 404 "Item not found" := by simp [searchItem, hf]
    exact ⟨hs, by rw [heq, hs]⟩

/-- C8, amended, at a store holding "Cola", for the names "Cola" and "Fanta". -/
theorem getItem_eq_searchItem_witness :
    (getItem ⟨[], [], [colaDoc]⟩ "Cola" = searchItem ⟨[], [], [colaDoc]⟩ "Cola" ∧
      searchItem ⟨[], [], [colaDoc]⟩ "Cola" = .json 200 colaDoc) ∧
    (getItem ⟨[], [], [colaDoc]⟩ "Fanta" = searchItem ⟨[], [], [colaDoc]⟩ "Fanta" ∧
      searchItem ⟨[], [], [colaDoc]⟩ "Fanta" = .error 404 "Item not found" ∧
      getItem ⟨[], [], [colaDoc]⟩ "Fanta" = .error 404 "Item not found") :=
  ⟨⟨(getItem_eq_searchItem ⟨[], [], [colaDoc]⟩ "Cola" (by decide)).1, by decide⟩,
    ⟨(getItem_eq_searchItem ⟨[], [], [colaDoc]⟩ "Fanta" (by decide)).1,
      (getItem_eq_searchItem ⟨[], [], [colaDoc]⟩ "Fanta" (by decide)).2.2 (by decide)⟩⟩

/-! ## The conditional `tax` requirement -/

theorem categoryFromBody_of_fields (newId : ObjectId) (body : CategoryBody)
    (name image description : String)
    (hn : body.name = some name) (hi : body.image = some image)
    (hd : body.description = some description) :
    Category.fromBody newId body =
      if (requiredString name && requiredString image && requiredString description
          && (!body.taxApplicability.getD false || body.tax.isSome)) = true
      then .ok { _id := newId, name := name, image := image, description := description,
                 taxApplicability := body.taxApplicability.getD false, tax := body.tax,
                 taxType := "percentage", subCategories := [], items := [] }
      else .error (.validation "Category") := by
  simp only [Category.fromBody, hn, hi, hd, Category.validate]

theorem categoryFromBody_tax_missing (newId : ObjectId) (body : CategoryBody)
    (hta : body.taxApplicability = some true) (htax : body.tax = none) :
    Category.fromBody newId body = .error (.validation "Category") := by
  unfold Category.fromBody
  split
  · simp [Category.validate, hta, htax]
  · rfl

/-- C9, as stated, fails: a `createCategory` request with `name`, `image` and
`description` all present, `taxApplicability = true` and `tax = 5` answers 500
when the name is the empty string, and stores nothing. -/
theorem createCategory_empty_name :
    emptyNameTaxed.name.isSome = true ∧ emptyNameTaxed.image.isSome = true ∧
    emptyNameTaxed.description.isSome = true ∧
    emptyNameTaxed.taxApplicability = some true ∧ emptyNameTaxed.tax = some 5 ∧
    (createCategory Store.empty idC1 emptyNameTaxed).2.status = 500 ∧
    (createCategory Store.empty idC1 emptyNameTaxed).1 = Store.empty := by
  decide

/-- C9, amended: for a `createCategory` request with `taxApplicability = true`.  If
`tax` is absent the call answers 500 and the store is unchanged.  If `tax` is
a number, `name`, `image` and `description` are present and not empty, and no
stored Category has the generated id, the call answers 201 and the record
stored under that id is the returned one and carries that tax. -/
theorem createCategory_conditional_tax (s : Store) (newId : ObjectId) (body : CategoryBody)
    (hta : body.taxApplicability = some true) :
    (body.tax = none →
      (createCategory s newId body).1 = s ∧ (createCategory s newId body).2.status = 500) ∧
    (∀ (t : Int) (name image description : String),
      body.tax = some t → body.name = some name → body.image = some image →
      body.description = some description →
      name ≠ "" → image ≠ "" → description ≠ "" →
      (∀ c ∈ s.categories, c._id ≠ newId) →
      ∃ c, (createCategory s newId body).2 = .json 201 c ∧ c.tax = some t ∧
        findById? (createCategory s newId body).1.categories newId = some c) := by
  constructor
  · intro htax
    simp [createCategory, categoryFromBody_tax_missing newId body hta htax, Response.status]
  · intro t name image description htax hn hi hd hne1 hne2 hne3 hnew
    have hlen : ∀ v : String, v ≠ "" → requiredString v = true := by
      intro v hv
      have : v.length ≠ 0 := by
        intro h0
        apply hv
        have : v.data = [] := List.length_eq_zero.mp h0
        exact String.ext this
      simpa [requiredString] using Nat.pos_of_ne_zero this
    have hdoc := categoryFromBody_of_fields newId body name image description hn hi hd
    simp only [hlen name hne1, hlen image hne2, hlen description hne3, hta, htax,
      Option.getD_some, Option.isSome_some, Bool.not_true, Bool.or_true, Bool.and_self,
      if_true] at hdoc
    have hnone : findById? s.categories newId = none := (findById?_eq_none_iff _ _).2 hnew
    obtain ⟨doc, hdoc, hdtax, hdid⟩ : ∃ doc : Category,
        Category.fromBody newId body = .ok doc ∧ doc.tax = some t ∧ doc._id = newId :=
      ⟨_, hdoc, rfl, rfl⟩
    have hins : insertOne s.categories doc = .ok (s.categories ++ [doc]) :=
      insertOne_of_new (by show findById? s.categories doc._id = none; rw [hdid]; exact hnone)
    refine ⟨doc, ?_, hdtax, ?_⟩
    · simp [createCategory, hdoc, hins]
    · simp only [createCategory, hdoc, hins]
      have := findById?_append_new s.categories doc
        (by show findById? s.categories doc._id = none; rw [hdid]; exact hnone)
      rw [← hdid]; exact this

/-- C9, amended, at "Beverages" sent with `taxApplicability = true`: without `tax`,
and with `tax = 5`. -/
theorem createCategory_conditional_tax_witness :
    ((createCategory Store.empty idC1 { beverages with taxApplicability := some true }).1
        = Store.empty ∧
      (createCategory Store.empty idC1
        { beverages with taxApplicability := some true }).2.status = 500) ∧
    (∃ c, (createCategory Store.empty idC1 beveragesTaxed).2 = .json 201 c ∧
      c.tax = some 5 ∧
      findById? (createCategory Store.empty idC1 beveragesTaxed).1.categories idC1 = some c) :=
  ⟨(createCategory_conditional_tax Store.empty idC1
      { beverages with taxApplicability := some true } rfl).1 rfl,
    (createCategory_conditional_tax Store.empty idC1 beveragesTaxed rfl).2 5 "Beverages"
      "beverages.png" "Drinks" rfl rfl rfl rfl (by decide) (by decide) (by decide)
      (by decide)⟩

/-- C10 fails on the code: `createCategory` followed by `updateCategory` with
`{ taxApplicability: true }` answers 200 and leaves a stored Category with
`taxApplicability = true` and no `tax`; the update is written without the
schema validation that `createCategory` runs. -/
theorem updateCategory_skips_conditional_tax :
    (createCategory Store.empty idC1 beverages).2.status = 201 ∧
    (updateCategory (createCategory Store.empty idC1 beverages).1 idC1.toHexString
      { taxApplicability := some true }).2.status = 200 ∧
    (Store.empty.run taxWithoutValue).categories.map
      (fun c => (c._id, c.taxApplicability, c.tax)) = [(idC1, true, none)] ∧
    (createCategory Store.empty idC1 { beverages with taxApplicability := some true }).2.status
      = 500 := by
  decide

/-! ## Where the conditional `tax` requirement is kept -/

theorem mem_modifyFirst {α : Type} [Document α] {docs : List α} {id : ObjectId} {f : α → α}
    {d : α} (h : d ∈ modifyFirst docs id f) :
    d ∈ docs ∨ ∃ x ∈ docs, Document.id x = id ∧ d = f x := by
  induction docs with
  | nil => simp [modifyFirst] at h
  | cons y ys ih =>
    unfold modifyFirst at h
    split at h
    · rename_i hy
      rcases List.mem_cons.mp h with h | h
      · exact Or.inr ⟨y, List.mem_cons_self _ _, hy, h⟩
      · exact Or.inl (List.mem_cons_of_mem _ h)
    · rcases List.mem_cons.mp h with h | h
      · exact Or.inl (h ▸ List.mem_cons_self _ _)
      · rcases ih h with h | ⟨x, hx, hid, hd⟩
        · exact Or.inl (List.mem_cons_of_mem _ h)
        · exact Or.inr ⟨x, List.mem_cons_of_mem _ hx, hid, hd⟩

theorem createCategory_categories (s : Store) (newId : ObjectId) (body : CategoryBody) :
    (createCategory s newId body).1.categories = s.categories ∨
    ∃ doc, doc.validate = true ∧
      (createCategory s newId body).1.categories = s.categories ++ [doc] := by
  rcases hb : Category.fromBody newId body with e | doc
  · left; simp [createCategory, hb]
  · rcases hi : insertOne s.categories doc with e | cats
    · left; simp [createCategory, hb, hi]
    · refine Or.inr ⟨doc, (categoryFromBody_ok_inv hb).2.2.2.2.2.2, ?_⟩
      simp [createCategory, hb, hi, (insertOne_ok_inv hi).2]

theorem deleteCategory_categories (s : Store) (id : String) :
    ∀ c ∈ (deleteCategory s id).1.categories, c ∈ s.categories := by
  intro c hc
  unfold deleteCategory at hc
  rcases hd : Model.findByIdAndDelete s.categories id with e | ⟨cats, _ | d⟩
  · simpa [hd] using hc
  · simpa [hd] using hc
  · simp only [hd] at hc
    unfold Model.findByIdAndDelete at hd
    split at hd
    · cases hd
    · split at hd
      · simp only [Except.ok.injEq, Prod.mk.injEq] at hd
        cases hd.2
      · simp only [Except.ok.injEq, Prod.mk.injEq] at hd
        rw [← hd.1] at hc
        exact List.mem_of_mem_eraseP hc

theorem createSubcategory_categories (s : Store) (newId : ObjectId) (body : SubcategoryBody) :
    (createSubcategory s newId body).1.categories = s.categories ∨
    ∃ cid parent, findById? s.categories cid = some parent ∧
      (createSubcategory s newId body).1.categories =
        modifyFirst s.categories cid
          (fun _ => { parent with subCategories := parent.subCategories ++ [newId] }) := by
  by_cases h : (createSubcategory s newId body).2.status = 201
  · obtain ⟨cid, parent, doc, hcat, hvalid, hbody, hnew⟩ := createSubcategory_created_inv h
    refine Or.inr ⟨cid, parent, hcat.2, ?_⟩
    rw [createSubcategory_of_valid s newId cid body parent doc hcat hvalid hbody hnew]
  · left
    rcases hc : Model.findById s.categories body.category with e | (_ | parent)
    · simp [createSubcategory, hc]
    · simp [createSubcategory, hc]
    · rcases hb : SubCategory.fromBody newId body with e | doc
      · simp [createSubcategory, hc, hb]
      · rcases hi : insertOne s.subcategories doc with e | subs
        · simp [createSubcategory, hc, hb, hi]
        · rcases hs : Document.save s.categories
              ({ parent with subCategories := parent.subCategories ++ [doc._id] } : Category)
            with e | cats
          · simp [createSubcategory, hc, hb, hi, hs]
          · simp [createSubcategory, hc, hb, hi, hs, Response.status] at h

theorem createItem_categories (s : Store) (newId : ObjectId) (body : ItemBody) :
    (createItem s newId body).1.categories = s.categories ∨
    ∃ cid pc, findById? s.categories cid = some pc ∧
      (createItem s newId body).1.categories =
        modifyFirst s.categories cid (fun _ => { pc with items := pc.items ++ [newId] }) := by
  rcases hc : Model.findById s.categories body.category with e | (_ | pc)
  · left; simp [createItem, hc]
  · left; simp [createItem, hc]
  · rcases hsb : Model.findById s.subcategories body.subcategory with e | (_ | ps)
    · left; simp [createItem, hc, hsb]
    · left; simp [createItem, hc, hsb]
    · rcases hb : Item.fromBody newId body with e | doc
      · left; simp [createItem, hc, hsb, hb]
      · rcases hi : insertOne s.items doc with e | its
        · left; simp [createItem, hc, hsb, hb, hi]
        · rcases hs : Document.save s.categories
              ({ pc with items := pc.items ++ [doc._id] } : Category) with e | cats
          · left; simp [createItem, hc, hsb, hb, hi, hs]
          · obtain ⟨cid, -, hpc⟩ := Model.findById_some_inv hc
            have hid : doc._id = newId := (itemFromBody_ok_inv hb).1
            have hcats := (Document.save_ok_inv hs).2
            have hpid : pc._id = cid := findById?_id hpc
            refine Or.inr ⟨cid, pc, hpc, ?_⟩
            have hcats' : cats = modifyFirst s.categories cid
                (fun _ => { pc with items := pc.items ++ [newId] }) := by
              rw [hcats, ← hid, ← hpid]; rfl
            rcases hs2 : Document.save s.subcategories
                ({ ps with items := ps.items ++ [doc._id] } : SubCategory) with e | subs
            · simp [createItem, hc, hsb, hb, hi, hs, hs2, hcats']
            · simp [createItem, hc, hsb, hb, hi, hs, hs2, hcats']

theorem castScalars_of_ne_nil {uncastable : List String} (h : uncastable ≠ []) :
    ∃ e, castScalars uncastable = .error e := by
  cases uncastable with
  | nil => exact absurd rfl h
  | cons path rest => exact ⟨.castField path, rfl⟩

/-- An update of a Category with a field that does not cast answers 500 and writes
nothing. -/
theorem updateCategory_of_uncastable (s : Store) (id : String) (body : CategoryUpdate)
    (h : body.uncastable ≠ []) :
    ∃ e, updateCategory s id body = (s, .error 500 e) := by
  obtain ⟨e, he⟩ := castScalars_of_ne_nil h
  exact ⟨e.message, by simp [updateCategory, he]⟩

/-- An update of a Subcategory with a field that does not cast answers 500 and
writes nothing. -/
theorem updateSubcategory_of_uncastable (s : Store) (id : String) (body : SubcategoryUpdate)
    (h : body.uncastable ≠ []) :
    ∃ e, updateSubcategory s id body = (s, .error 500 e) := by
  obtain ⟨e, he⟩ := castScalars_of_ne_nil h
  exact ⟨e.message, by simp [updateSubcategory, he]⟩

/-- An update of an Item with a field that does not cast answers 500 and writes
nothing. -/
theorem updateItem_of_uncastable (s : Store) (id : String) (body : ItemUpdate)
    (h : body.uncastable ≠ []) :
    ∃ e, updateItem s id body = (s, .error 500 e) := by
  obtain ⟨e, he⟩ := castScalars_of_ne_nil h
  exact ⟨e.message, by simp [updateItem, he]⟩

theorem updateSubcategory_categories (s : Store) (id : String) (body : SubcategoryUpdate) :
    (updateSubcategory s id body).1.categories = s.categories := by
  unfold updateSubcategory
  split
  · rfl
  · split
    · rfl
    · rfl
    · split <;> rfl

theorem deleteSubcategory_categories (s : Store) (id : String) :
    (deleteSubcategory s id).1.categories = s.categories := by
  unfold deleteSubcategory
  split <;> rfl

theorem updateItem_categories (s : Store) (id : String) (body : ItemUpdate) :
    (updateItem s id body).1.categories = s.categories := by
  unfold updateItem
  split
  · rfl
  · split
    · rfl
    · rfl
    · split <;> rfl

theorem deleteItem_categories (s : Store) (id : String) :
    (deleteItem s id).1.categories = s.categories := by
  unfold deleteItem
  split <;> rfl

/-- Every request other than `updateCategory` keeps the conditional `tax`
requirement: a Category enters the store validated, and the create flows
only push ids on the lists of a stored Category. -/
theorem conditionalTax_step (s : Store) (r : Request) (hr : r.isUpdateCategory = false)
    (h : ConditionalTax s) : ConditionalTax (s.step r) := by
  intro c hc
  cases r with
  | createCategory newId body =>
    rcases createCategory_categories s newId body with heq | ⟨doc, hv, heq⟩
    · exact h c (by simpa [Store.step, heq] using hc)
    · simp only [Store.step, heq, List.mem_append, List.mem_singleton] at hc
      rcases hc with hc | hc
      · exact h c hc
      · subst hc
        intro hta
        have hv' : Category.validate c = true := hv
        simp only [Category.validate, hta, Bool.not_true, Bool.false_or, Bool.and_eq_true]
          at hv'
        exact hv'.2
  | updateCategory id body => simp [Request.isUpdateCategory] at hr
  | deleteCategory id => exact h c (deleteCategory_categories s id c hc)
  | createSubcategory newId body =>
    rcases createSubcategory_categories s newId body with heq | ⟨cid, parent, hp, heq⟩
    · exact h c (by simpa [Store.step, heq] using hc)
    · simp only [Store.step, heq] at hc
      rcases mem_modifyFirst hc with hc | ⟨x, -, -, hx⟩
      · exact h c hc
      · subst hx
        exact h parent (findById?_mem hp)
  | updateSubcategory id body =>
    exact h c (by simpa [Store.step, updateSubcategory_categories] using hc)
  | deleteSubcategory id =>
    exact h c (by simpa [Store.step, deleteSubcategory_categories] using hc)
  | createItem newId body =>
    rcases createItem_categories s newId body with heq | ⟨cid, pc, hp, heq⟩
    · exact h c (by simpa [Store.step, heq] using hc)
    · simp only [Store.step, heq] at hc
      rcases mem_modifyFirst hc with hc | ⟨x, -, -, hx⟩
      · exact h c hc
      · subst hx
        exact h pc (findById?_mem hp)
  | updateItem id body =>
    exact h c (by simpa [Store.step, updateItem_categories] using hc)
  | deleteItem id =>
    exact h c (by simpa [Store.step, deleteItem_categories] using hc)

/-- From the empty store, any sequence of requests that never calls
`updateCategory` keeps the conditional `tax` requirement. -/
theorem conditionalTax_run (requests : List Request)
    (hr : ∀ r ∈ requests, r.isUpdateCategory = false) :
    ConditionalTax (Store.empty.run requests) := by
  suffices ∀ (s : Store), ConditionalTax s → ConditionalTax (s.run requests) from
    this Store.empty (by intro c hc; simp [Store.empty] at hc)
  induction requests with
  | nil => intro s h; exact h
  | cons r rs ih =>
    intro s h
    exact ih (fun x hx => hr x (List.mem_cons_of_mem _ hx)) (s.step r)
      (conditionalTax_step s r (hr r (List.mem_cons_self _ _)) h)

/-! ## Updates and deletes by id -/

section ById

variable {α : Type} [Document α]

theorem findByIdAndUpdate_of_found (docs : List α) (id : String) (oid : ObjectId) (d : α)
    (f : α → α) (hp : ObjectId.parse id = some oid) (hd : findById? docs oid = some d) :
    Model.findByIdAndUpdate docs id f = .ok (modifyFirst docs oid f, some (f d)) := by
  simp [Model.findByIdAndUpdate, hp, hd]

theorem findByIdAndUpdate_of_missing (docs : List α) (id : String) (oid : ObjectId)
    (f : α → α) (hp : ObjectId.parse id = some oid) (hd : findById? docs oid = none) :
    Model.findByIdAndUpdate docs id f = .ok (docs, none) := by
  simp [Model.findByIdAndUpdate, hp, hd]

theorem findByIdAndUpdate_of_malformed (docs : List α) (id : String) (f : α → α)
    (hp : ObjectId.parse id = none) :
    Model.findByIdAndUpdate docs id f = .error (.cast id) := by
  simp [Model.findByIdAndUpdate, hp]

theorem findByIdAndDelete_of_found (docs : List α) (id : String) (oid : ObjectId) (d : α)
    (hp : ObjectId.parse id = some oid) (hd : findById? docs oid = some d) :
    Model.findByIdAndDelete docs id
      = .ok (docs.eraseP (fun x => Document.id x == oid), some d) := by
  simp [Model.findByIdAndDelete, hp, hd]

theorem findByIdAndDelete_of_missing (docs : List α) (id : String) (oid : ObjectId)
    (hp : ObjectId.parse id = some oid) (hd : findById? docs oid = none) :
    Model.findByIdAndDelete docs id = .ok (docs, none) := by
  simp [Model.findByIdAndDelete, hp, hd]

theorem findByIdAndDelete_of_malformed (docs : List α) (id : String)
    (hp : ObjectId.parse id = none) :
    Model.findByIdAndDelete docs id = .error (.cast id) := by
  simp [Model.findByIdAndDelete, hp]

theorem findById?_of_not_stored (docs : List α) (id : String) (oid : ObjectId)
    (h : ∀ d ∈ docs, ObjectId.parse id ≠ some (Document.id d))
    (hp : ObjectId.parse id = some oid) : findById? docs oid = none := by
  rw [findById?_eq_none_iff]
  intro d hd hid
  exact h d hd (by rw [hp, hid])

theorem eraseP_eq_erase [DecidableEq α] (docs : List α) (oid : ObjectId) (d : α)
    (h : findById? docs oid = some d) :
    docs.eraseP (fun x => Document.id x == oid) = docs.erase d := by
  induction docs with
  | nil => simp [findById?] at h
  | cons x xs ih =>
    unfold findById? at h ih
    by_cases hx : Document.id x = oid
    · simp [List.find?_cons, hx] at h
      subst h
      simp [List.eraseP_cons, hx]
    · simp [List.find?_cons, hx] at h
      have hne : x ≠ d := by
        rintro rfl
        have := List.find?_some h
        exact hx (by simpa using this)
      simp [List.eraseP_cons, hx, List.erase_cons_tail, hne, ih h]

theorem findById?_eraseP_ne (docs : List α) (oid other : ObjectId) (h : other ≠ oid) :
    findById? (docs.eraseP (fun x => Document.id x == oid)) other = findById? docs other := by
  induction docs with
  | nil => rfl
  | cons x xs ih =>
    unfold findById? at ih ⊢
    by_cases hx : Document.id x = oid
    · have b1 : (Document.id x == oid) = true := by simp [hx]
      have b2 : (Document.id x == other) = false := by
        simp only [beq_eq_false_iff_ne]; rw [hx]; exact fun e => h e.symm
      simp only [List.eraseP_cons, List.find?_cons, b1, b2, cond_true]
    · have b1 : (Document.id x == oid) = false := by simp [hx]
      by_cases hxo : Document.id x = other
      · have b2 : (Document.id x == other) = true := by simp [hxo]
        simp only [List.eraseP_cons, List.find?_cons, b1, b2, cond_false]
      · have b2 : (Document.id x == other) = false := by simp [hxo]
        simp only [List.eraseP_cons, List.find?_cons, b1, b2, cond_false, ih]

theorem findById?_eraseP_self (docs : List α) (oid : ObjectId) (hu : UniqueIds docs) :
    findById? (docs.eraseP (fun x => Document.id x == oid)) oid = none := by
  induction docs with
  | nil => rfl
  | cons x xs ih =>
    unfold UniqueIds at hu ih
    simp only [List.map_cons, List.nodup_cons] at hu
    by_cases hx : Document.id x = oid
    · simp only [List.eraseP_cons, hx, beq_self_eq_true, cond_true]
      rw [findById?_eq_none_iff]
      intro d hd hid
      exact hu.1 (List.mem_map.mpr ⟨d, hd, by rw [hid, hx]⟩)
    · have := ih hu.2
      unfold findById? at this ⊢
      simp [List.eraseP_cons, hx, List.find?_cons, this]

theorem findById?_modifyFirst_ne (docs : List α) (id other : ObjectId) (f : α → α)
    (hf : ∀ x, Document.id x = id → Document.id (f x) = id) (h : other ≠ id) :
    findById? (modifyFirst docs id f) other = findById? docs other := by
  induction docs with
  | nil => rfl
  | cons x xs ih =>
    unfold findById? at ih ⊢
    by_cases hx : Document.id x = id
    · have b2 : (Document.id x == other) = false := by
        simp only [beq_eq_false_iff_ne]; rw [hx]; exact fun e => h e.symm
      have b3 : (Document.id (f x) == other) = false := by
        simp only [beq_eq_false_iff_ne]; rw [hf x hx]; exact fun e => h e.symm
      simp only [modifyFirst, if_pos hx, List.find?_cons, b2, b3]
    · by_cases hxo : Document.id x = other
      · have b2 : (Document.id x == other) = true := by simp [hxo]
        simp only [modifyFirst, if_neg hx, List.find?_cons, b2]
      · have b2 : (Document.id x == other) = false := by simp [hxo]
        simp only [modifyFirst, if_neg hx, List.find?_cons, b2, ih]

theorem findById?_append_of_some (docs : List α) (d x : α) (id : ObjectId)
    (h : findById? docs id = some x) : findById? (docs ++ [d]) id = some x := by
  unfold findById? at *
  simp [List.find?_append, h]

theorem findById?_append_of_ne (docs : List α) (d : α) (id : ObjectId)
    (h : Document.id d ≠ id) : findById? (docs ++ [d]) id = findById? docs id := by
  unfold findById?
  cases hf : docs.find? (fun d => Document.id d == id) with
  | some x => simp [List.find?_append, hf]
  | none => simp [List.find?_append, hf, h]

theorem map_id_modifyFirst (docs : List α) (id : ObjectId) (f : α → α)
    (hf : ∀ x, Document.id x = id → Document.id (f x) = id) :
    (modifyFirst docs id f).map Document.id = docs.map Document.id := by
  induction docs with
  | nil => rfl
  | cons x xs ih =>
    by_cases hx : Document.id x = id
    · simp [modifyFirst, hx, hf x hx]
    · simp [modifyFirst, hx, ih]

theorem uniqueIds_modifyFirst (docs : List α) (id : ObjectId) (f : α → α)
    (hf : ∀ x, Document.id x = id → Document.id (f x) = id) (hu : UniqueIds docs) :
    UniqueIds (modifyFirst docs id f) := by
  unfold UniqueIds at *
  rw [map_id_modifyFirst docs id f hf]
  exact hu

theorem uniqueIds_append (docs : List α) (d : α)
    (hn : findById? docs (Document.id d) = none) (hu : UniqueIds docs) :
    UniqueIds (docs ++ [d]) := by
  unfold UniqueIds at *
  rw [List.map_append, List.nodup_append]
  refine ⟨hu, by simp, ?_⟩
  intro a ha hb
  simp only [List.map_cons, List.map_nil, List.mem_singleton] at hb
  obtain ⟨x, hx, hxa⟩ := List.mem_map.mp ha
  exact (findById?_eq_none_iff _ _).1 hn x hx (by rw [hxa, hb])

theorem uniqueIds_eraseP (docs : List α) (p : α → Bool) (hu : UniqueIds docs) :
    UniqueIds (docs.eraseP p) := by
  unfold UniqueIds at *
  exact List.Nodup.sublist ((List.eraseP_sublist docs).map Document.id) hu

end ById

/-! ## Updating a record that does not exist -/

theorem castOptionalId_cases (v : Option String) :
    (¬ Malformed v ∧ castOptionalId v = .ok (v.bind ObjectId.parse)) ∨
    (Malformed v ∧ ∃ x, castOptionalId v = .error (.cast x)) := by
  cases v with
  | none => exact Or.inl ⟨(by rintro ⟨x, hx, -⟩; cases hx), rfl⟩
  | some x =>
    cases hp : ObjectId.parse x with
    | none => exact Or.inr ⟨⟨x, rfl, hp⟩, x, by simp [castOptionalId, hp]⟩
    | some id =>
      refine Or.inl ⟨?_, by simp [castOptionalId, hp]⟩
      rintro ⟨y, hy, hn⟩
      cases hy
      rw [hp] at hn
      cases hn

theorem castOptionalIds_cases (v : Option (List String)) :
    (¬ MalformedIds v ∧ castOptionalIds v = .ok (v.bind castIds)) ∨
    (MalformedIds v ∧ ∃ e, castOptionalIds v = .error e) := by
  cases v with
  | none => exact Or.inl ⟨(by rintro ⟨x, hx, -⟩; cases hx), rfl⟩
  | some xs =>
    cases hp : castIds xs with
    | none =>
      exact Or.inr ⟨⟨xs, rfl, hp⟩, .cast (String.intercalate "," xs),
        by simp [castOptionalIds, hp]⟩
    | some ids =>
      refine Or.inl ⟨?_, by simp [castOptionalIds, hp]⟩
      rintro ⟨y, hy, hn⟩
      cases hy
      rw [hp] at hn
      cases hn

theorem not_malformed_toHexString (oid : ObjectId) : ¬ Malformed (some oid.toHexString) := by
  rintro ⟨x, hx, hn⟩
  cases hx
  rw [ObjectId.parse_toHexString] at hn
  cases hn

theorem not_malformedIds_none : ¬ MalformedIds none := by
  rintro ⟨x, hx, -⟩
  cases hx

theorem updateSubcategory_of_cast (s : Store) (id : String) (body : SubcategoryUpdate)
    (hu : body.uncastable = [])
    (hc : ¬ Malformed body.category) (hi : ¬ MalformedIds body.items) :
    updateSubcategory s id body =
      match Model.findByIdAndUpdate s.subcategories id
          (SubCategory.applyUpdate body.toSubcategoryBody
            (body.category.bind ObjectId.parse) (body.items.bind castIds)) with
      | .error e => (s, .error 500 e.message)
      | .ok (_, none) => (s, .error 404 "Subcategory not found")
      | .ok (subcategories, some updated) =>
        ({ s with subcategories := subcategories }, .json 200 updated) := by
  rcases castOptionalId_cases body.category with ⟨-, h1⟩ | ⟨h1, -⟩
  · rcases castOptionalIds_cases body.items with ⟨-, h2⟩ | ⟨h2, -⟩
    · simp only [updateSubcategory, hu, castScalars, h1, h2]
    · exact absurd h2 hi
  · exact absurd h1 hc

theorem updateSubcategory_of_malformed (s : Store) (id : String) (body : SubcategoryUpdate)
    (h : body.uncastable ≠ [] ∨ Malformed body.category ∨ MalformedIds body.items) :
    (updateSubcategory s id body).1 = s ∧ (updateSubcategory s id body).2.status = 500 := by
  by_cases hu : body.uncastable = []
  · rcases castOptionalId_cases body.category with ⟨hn1, h1⟩ | ⟨-, x, h1⟩
    · rcases castOptionalIds_cases body.items with ⟨hn2, -⟩ | ⟨-, e, h2⟩
      · rcases h with h | h | h
        · exact absurd hu h
        · exact absurd h hn1
        · exact absurd h hn2
      · simp [updateSubcategory, hu, castScalars, h1, h2, Response.status]
    · simp [updateSubcategory, hu, castScalars, h1, Response.status]
  · obtain ⟨e, he⟩ := updateSubcategory_of_uncastable s id body hu
    simp [he, Response.status]

theorem updateItem_of_cast (s : Store) (id : String) (body : ItemUpdate)
    (hu : body.uncastable = [])
    (hc : ¬ Malformed body.category) (hs : ¬ Malformed body.subcategory) :
    updateItem s id body =
      match Model.findByIdAndUpdate s.items id
          (Item.applyUpdate body.toItemBody (body.category.bind ObjectId.parse)
            (body.subcategory.bind ObjectId.parse)) with
      | .error e => (s, .error 500 e.message)
      | .ok (_, none) => (s, .error 404 "Item not found")
      | .ok (items, some updated) => ({ s with items := items }, .json 200 updated) := by
  rcases castOptionalId_cases body.category with ⟨-, h1⟩ | ⟨h1, -⟩
  · rcases castOptionalId_cases body.subcategory with ⟨-, h2⟩ | ⟨h2, -⟩
    · simp only [updateItem, hu, castScalars, h1, h2]
    · exact absurd h2 hs
  · exact absurd h1 hc

theorem updateItem_of_malformed (s : Store) (id : String) (body : ItemUpdate)
    (h : body.uncastable ≠ [] ∨ Malformed body.category ∨ Malformed body.subcategory) :
    (updateItem s id body).1 = s ∧ (updateItem s id body).2.status = 500 := by
  by_cases hu : body.uncastable = []
  · rcases castOptionalId_cases body.category with ⟨hn1, h1⟩ | ⟨-, x, h1⟩
    · rcases castOptionalId_cases body.subcategory with ⟨hn2, -⟩ | ⟨-, e, h2⟩
      · rcases h with h | h | h
        · exact absurd hu h
        · exact absurd h hn1
        · exact absurd h hn2
      · simp [updateItem, hu, castScalars, h1, h2, Response.status]
    · simp [updateItem, hu, castScalars, h1, Response.status]
  · obtain ⟨e, he⟩ := updateItem_of_uncastable s id body hu
    simp [he, Response.status]

theorem updateCategory_of_castable (s : Store) (id : String) (body : CategoryUpdate)
    (hu : body.uncastable = []) :
    updateCategory s id body =
      match Model.findByIdAndUpdate s.categories id
          (Category.applyUpdate body.toCategoryBody) with
      | .error e => (s, .error 500 e.message)
      | .ok (_, none) => (s, .error 404 "Category not found")
      | .ok (categories, some updated) =>
        ({ s with categories := categories }, .json 200 updated) := by
  simp only [updateCategory, hu, castScalars]

/-- C11, as stated, fails: with "Beverages", "Cold Drinks" and "Cola" stored, an
update whose route parameter is the string "Beverages" (the identifier of no
stored record) answers 500, not 404, in each of the three controllers; and so
does an update at the well-formed identifier `idC2` of no stored record when
the body carries a field that does not cast (`tax: "abc"` for a Category or
Subcategory, `baseAmount: "abc"` for an Item). -/
theorem update_by_name_answers_500 :
    ObjectId.parse "Beverages" = none ∧
    (updateCategory ⟨[beveragesDoc], [coldDrinksDoc], [colaDoc]⟩ "Beverages"
      { toCategoryBody := beverages }).2.status = 500 ∧
    (updateSubcategory ⟨[beveragesDoc], [coldDrinksDoc], [colaDoc]⟩ "Beverages"
      { toSubcategoryBody := coldDrinks }).2.status = 500 ∧
    (updateItem ⟨[beveragesDoc], [coldDrinksDoc], [colaDoc]⟩ "Beverages"
      { toItemBody := cola }).2.status = 500 ∧
    (ObjectId.parse idC2.toHexString).isSome = true ∧
    (updateCategory ⟨[beveragesDoc], [coldDrinksDoc], [colaDoc]⟩ idC2.toHexString
      { uncastable := ["tax"] }).2.status = 500 ∧
    (updateSubcategory ⟨[beveragesDoc], [coldDrinksDoc], [colaDoc]⟩ idC2.toHexString
      { uncastable := ["tax"] }).2.status = 500 ∧
    (updateItem ⟨[beveragesDoc], [coldDrinksDoc], [colaDoc]⟩ idC2.toHexString
      { uncastable := ["baseAmount"] }).2.status = 500 := by
  decide

/-- C11, amended: when the route parameter is not the identifier of a stored record
of the entity type, each of `updateCategory`, `updateSubcategory` and
`updateItem` leaves the store unchanged; it answers 404 when the parameter is
a well-formed ObjectId, every field of the body casts to its schema type and
the ids in the body (`category`, `items`, `subcategory`) are absent or
well-formed, and 500 when the parameter or one of those ids is not
well-formed or a field of the body does not cast. -/
theorem update_unknown_id (s : Store) (id : String) :
    (∀ body : CategoryUpdate, (∀ d ∈ s.categories, ObjectId.parse id ≠ some d._id) →
      (updateCategory s id body).1 = s ∧
      ((ObjectId.parse id).isSome = true → body.uncastable = [] →
        (updateCategory s id body).2 = .error 404 "Category not found") ∧
      (ObjectId.parse id = none ∨ body.uncastable ≠ [] →
        (updateCategory s id body).2.status = 500)) ∧
    (∀ body : SubcategoryUpdate,
      (∀ d ∈ s.subcategories, ObjectId.parse id ≠ some d._id) →
      (updateSubcategory s id body).1 = s ∧
      ((ObjectId.parse id).isSome = true → body.uncastable = [] →
        ¬ Malformed body.category → ¬ MalformedIds body.items →
        (updateSubcategory s id body).2 = .error 404 "Subcategory not found") ∧
      (ObjectId.parse id = none ∨ body.uncastable ≠ [] ∨ Malformed body.category ∨
          MalformedIds body.items →
        (updateSubcategory s id body).2.status = 500)) ∧
    (∀ body : ItemUpdate, (∀ d ∈ s.items, ObjectId.parse id ≠ some d._id) →
      (updateItem s id body).1 = s ∧
      ((ObjectId.parse id).isSome = true → body.uncastable = [] →
        ¬ Malformed body.category → ¬ Malformed body.subcategory →
        (updateItem s id body).2 = .error 404 "Item not found") ∧
      (ObjectId.parse id = none ∨ body.uncastable ≠ [] ∨ Malformed body.category ∨
          Malformed body.subcategory →
        (updateItem s id body).2.status = 500)) := by
  refine ⟨?_, ?_, ?_⟩
  · intro body h
    by_cases hu : body.uncastable = []
    · rw [updateCategory_of_castable s id body hu]
      cases hp : ObjectId.parse id with
      | none =>
        simp [findByIdAndUpdate_of_malformed _ _ _ hp, Response.status]
      | some oid =>
        have hn := findById?_of_not_stored s.categories id oid h hp
        simp [findByIdAndUpdate_of_missing _ _ _ _ hp hn, hu]
    · obtain ⟨e, he⟩ := updateCategory_of_uncastable s id body hu
      simp [he, hu, Response.status]
  · intro body h
    by_cases hm : body.uncastable ≠ [] ∨ Malformed body.category ∨ MalformedIds body.items
    · obtain ⟨h1, h2⟩ := updateSubcategory_of_malformed s id body hm
      refine ⟨h1, ?_, fun _ => h2⟩
      intro _ hu hc hi
      rcases hm with hm | hm | hm
      · exact absurd hu hm
      · exact absurd hm hc
      · exact absurd hm hi
    · have hu : body.uncastable = [] := by
        by_contra hx
        exact hm (Or.inl hx)
      have hc : ¬ Malformed body.category := fun x => hm (Or.inr (Or.inl x))
      have hi : ¬ MalformedIds body.items := fun x => hm (Or.inr (Or.inr x))
      rw [updateSubcategory_of_cast s id body hu hc hi]
      cases hp : ObjectId.parse id with
      | none =>
        simp [findByIdAndUpdate_of_malformed _ _ _ hp, Response.status]
      | some oid =>
        have hn := findById?_of_not_stored s.subcategories id oid h hp
        simp [findByIdAndUpdate_of_missing _ _ _ _ hp hn, hu, hc, hi]
  · intro body h
    by_cases hm : body.uncastable ≠ [] ∨ Malformed body.category ∨
        Malformed body.subcategory
    · obtain ⟨h1, h2⟩ := updateItem_of_malformed s id body hm
      refine ⟨h1, ?_, fun _ => h2⟩
      intro _ hu hc hi
      rcases hm with hm | hm | hm
      · exact absurd hu hm
      · exact absurd hm hc
      · exact absurd hm hi
    · have hu : body.uncastable = [] := by
        by_contra hx
        exact hm (Or.inl hx)
      have hc : ¬ Malformed body.category := fun x => hm (Or.inr (Or.inl x))
      have hi : ¬ Malformed body.subcategory := fun x => hm (Or.inr (Or.inr x))
      rw [updateItem_of_cast s id body hu hc hi]
      cases hp : ObjectId.parse id with
      | none =>
        simp [findByIdAndUpdate_of_malformed _ _ _ hp, Response.status]
      | some oid =>
        have hn := findById?_of_not_stored s.items id oid h hp
        simp [findByIdAndUpdate_of_missing _ _ _ _ hp hn, hu, hc, hi]

/-- C11, amended, at the well-formed id `idC2`, stored in none of the collections of
a store holding "Beverages", "Cold Drinks" and "Cola": an update whose fields
cast answers 404, one with `tax: "abc"` answers 500, and the store stays as
it was. -/
theorem update_unknown_id_witness :
    ((updateCategory ⟨[beveragesDoc], [coldDrinksDoc], [colaDoc]⟩ idC2.toHexString
        { toCategoryBody := beverages }).1 = ⟨[beveragesDoc], [coldDrinksDoc], [colaDoc]⟩ ∧
      (updateCategory ⟨[beveragesDoc], [coldDrinksDoc], [colaDoc]⟩ idC2.toHexString
        { toCategoryBody := beverages }).2 = .error 404 "Category not found") ∧
    (updateCategory ⟨[beveragesDoc], [coldDrinksDoc], [colaDoc]⟩ idC2.toHexString
        { uncastable := ["tax"] }).2.status = 500 ∧
    ((updateSubcategory ⟨[beveragesDoc], [coldDrinksDoc], [colaDoc]⟩ idC2.toHexString
        { toSubcategoryBody := coldDrinks }).1
        = ⟨[beveragesDoc], [coldDrinksDoc], [colaDoc]⟩ ∧
      (updateSubcategory ⟨[beveragesDoc], [coldDrinksDoc], [colaDoc]⟩ idC2.toHexString
        { toSubcategoryBody := coldDrinks }).2 = .error 404 "Subcategory not found") ∧
    ((updateItem ⟨[beveragesDoc], [coldDrinksDoc], [colaDoc]⟩ idC2.toHexString
        { toItemBody := cola }).1 = ⟨[beveragesDoc], [coldDrinksDoc], [colaDoc]⟩ ∧
      (updateItem ⟨[beveragesDoc], [coldDrinksDoc], [colaDoc]⟩ idC2.toHexString
        { toItemBody := cola }).2 = .error 404 "Item not found") := by
  have k := update_unknown_id ⟨[beveragesDoc], [coldDrinksDoc], [colaDoc]⟩ idC2.toHexString
  have k1 := k.1 { toCategoryBody := beverages } (by decide)
  have k1u := k.1 { uncastable := ["tax"] } (by decide)
  have k2 := k.2.1 { toSubcategoryBody := coldDrinks } (by decide)
  have k3 := k.2.2 { toItemBody := cola } (by decide)
  exact ⟨⟨k1.1, k1.2.1 (by decide) (by decide)⟩, k1u.2.2 (Or.inr (by decide)),
    ⟨k2.1, k2.2.1 (by decide) (by decide) (not_malformed_toHexString idC1)
      not_malformedIds_none⟩,
    ⟨k3.1, k3.2.1 (by decide) (by decide) (not_malformed_toHexString idC1)
      (not_malformed_toHexString idS1)⟩⟩

/-! ## Deleting does not cascade -/

theorem getCategory_by_id (s : Store) (oid : ObjectId) :
    getCategory s oid.toHexString =
      match findById? s.categories oid with
      | none => .error 404 "Category not found"
      | some c => .json 200 c := by
  unfold getCategory
  simp only [ObjectId.isValid_toHexString, if_true, Model.findById, ObjectId.parse_toHexString]
  cases findById? s.categories oid <;> rfl

theorem getSubcategory_congr (s t : Store) (h : t.subcategories = s.subcategories)
    (x : String) : getSubcategory t x = getSubcategory s x := by
  unfold getSubcategory
  rw [h]

theorem getItem_congr (s t : Store) (h : t.items = s.items) (x : String) :
    getItem t x = getItem s x := by
  unfold getItem
  rw [h]

theorem getCategory_congr (s t : Store) (h : t.categories = s.categories) (x : String) :
    getCategory t x = getCategory s x := by
  unfold getCategory
  rw [h]

theorem deleteCategory_of_found (s : Store) (id : String) (cid : ObjectId) (c : Category)
    (hid : ObjectId.parse id = some cid) (hc : findById? s.categories cid = some c) :
    deleteCategory s id =
      (⟨s.categories.eraseP (fun x => Document.id x == cid), s.subcategories, s.items⟩,
        .message 200 "Category deleted successfully") := by
  simp [deleteCategory, findByIdAndDelete_of_found _ _ _ _ hid hc]

theorem deleteSubcategory_of_found (s : Store) (id : String) (sid : ObjectId)
    (c : SubCategory) (hid : ObjectId.parse id = some sid)
    (hc : findById? s.subcategories sid = some c) :
    deleteSubcategory s id =
      (⟨s.categories, s.subcategories.eraseP (fun x => Document.id x == sid), s.items⟩,
        .message 200 "Subcategory deleted successfully") := by
  simp [deleteSubcategory, findByIdAndDelete_of_found _ _ _ _ hid hc]

theorem deleteItem_of_found (s : Store) (id : String) (iid : ObjectId) (c : Item)
    (hid : ObjectId.parse id = some iid) (hc : findById? s.items iid = some c) :
    deleteItem s id =
      (⟨s.categories, s.subcategories, s.items.eraseP (fun x => Document.id x == iid)⟩,
        .message 200 "Item deleted successfully") := by
  simp [deleteItem, findByIdAndDelete_of_found _ _ _ _ hid hc]

/-- C12: for the id of a stored Category, `deleteCategory` answers 200 and removes
that one record: the Categories left are the ones before without it, every
other Category is found under its id as before, and (ids being unique) the
deleted id finds nothing.  The Subcategories and the Items are untouched,
those naming the deleted Category included, and `getSubcategory` and
`getItem` answer as before. -/
theorem deleteCategory_no_cascade (s : Store) (id : String) (cid : ObjectId) (c : Category)
    (hid : ObjectId.parse id = some cid) (hc : findById? s.categories cid = some c) :
    (deleteCategory s id).2 = .message 200 "Category deleted successfully" ∧
    (deleteCategory s id).1.categories = s.categories.erase c ∧
    (UniqueIds s.categories → findById? (deleteCategory s id).1.categories cid = none) ∧
    (∀ other, other ≠ cid →
      findById? (deleteCategory s id).1.categories other = findById? s.categories other ∧
      getCategory (deleteCategory s id).1 other.toHexString
        = getCategory s other.toHexString) ∧
    (deleteCategory s id).1.subcategories = s.subcategories ∧
    (deleteCategory s id).1.items = s.items ∧
    (∀ x, getSubcategory (deleteCategory s id).1 x = getSubcategory s x) ∧
    (∀ x, getItem (deleteCategory s id).1 x = getItem s x) := by
  rw [deleteCategory_of_found s id cid c hid hc]
  refine ⟨rfl, eraseP_eq_erase s.categories cid c hc,
    fun hu => findById?_eraseP_self s.categories cid hu, ?_, rfl, rfl,
    fun x => getSubcategory_congr s _ rfl x, fun x => getItem_congr s _ rfl x⟩
  intro other hne
  have h := findById?_eraseP_ne s.categories cid other hne
  refine ⟨h, ?_⟩
  rw [getCategory_by_id, getCategory_by_id]
  show (match findById? (s.categories.eraseP (fun x => Document.id x == cid)) other with
    | none => Response.error 404 "Category not found"
    | some c => Response.json 200 c) = _
  rw [h]

/-- C12 at a store holding "Beverages" with "Cold Drinks" and "Cola" under it. -/
theorem deleteCategory_no_cascade_witness :
    (deleteCategory ⟨[beveragesDoc], [coldDrinksDoc], [colaDoc]⟩ idC1.toHexString).2
      = .message 200 "Category deleted successfully" ∧
    (deleteCategory ⟨[beveragesDoc], [coldDrinksDoc], [colaDoc]⟩ idC1.toHexString).1
      = ⟨[], [coldDrinksDoc], [colaDoc]⟩ ∧
    coldDrinksDoc.category = idC1 ∧ colaDoc.category = idC1 := by
  have k := deleteCategory_no_cascade ⟨[beveragesDoc], [coldDrinksDoc], [colaDoc]⟩
    idC1.toHexString idC1 beveragesDoc (by decide) (by decide)
  exact ⟨k.1, by decide, rfl, rfl⟩

/-- C13: for the id of a stored Item, `deleteItem` answers 200 and removes that one
record: the Items left are the ones before without it, every other Item is
found under its id as before, and (ids being unique) the deleted id finds
nothing.  Every Category and every Subcategory is unchanged, so the deleted
id stays in each `items` list that held it. -/
theorem deleteItem_keeps_parent_lists (s : Store) (id : String) (iid : ObjectId) (it : Item)
    (hid : ObjectId.parse id = some iid) (hit : findById? s.items iid = some it) :
    (deleteItem s id).2 = .message 200 "Item deleted successfully" ∧
    (deleteItem s id).1.items = s.items.erase it ∧
    (UniqueIds s.items → findById? (deleteItem s id).1.items iid = none) ∧
    (∀ other, other ≠ iid →
      findById? (deleteItem s id).1.items other = findById? s.items other) ∧
    (deleteItem s id).1.categories = s.categories ∧
    (deleteItem s id).1.subcategories = s.subcategories ∧
    (∀ pc, findById? s.categories it.category = some pc → iid ∈ pc.items →
      findById? (deleteItem s id).1.categories it.category = some pc ∧ iid ∈ pc.items) ∧
    (∀ ps, findById? s.subcategories it.subcategory = some ps → iid ∈ ps.items →
      findById? (deleteItem s id).1.subcategories it.subcategory = some ps ∧
        iid ∈ ps.items) := by
  rw [deleteItem_of_found s id iid it hid hit]
  exact ⟨rfl, eraseP_eq_erase s.items iid it hit,
    fun hu => findById?_eraseP_self s.items iid hu,
    fun other hne => findById?_eraseP_ne s.items iid other hne, rfl, rfl,
    fun pc hpc hmem => ⟨hpc, hmem⟩, fun ps hps hmem => ⟨hps, hmem⟩⟩

/-- C13 at "Cola" deleted from a store where both parents list it. -/
theorem deleteItem_keeps_parent_lists_witness :
    (deleteItem ⟨[{ beveragesDoc with items := [idI1] }],
        [{ coldDrinksDoc with items := [idI1] }], [colaDoc]⟩ idI1.toHexString).2
      = .message 200 "Item deleted successfully" ∧
    (deleteItem ⟨[{ beveragesDoc with items := [idI1] }],
        [{ coldDrinksDoc with items := [idI1] }], [colaDoc]⟩ idI1.toHexString).1
      = ⟨[{ beveragesDoc with items := [idI1] }],
        [{ coldDrinksDoc with items := [idI1] }], []⟩ := by
  have k := deleteItem_keeps_parent_lists
    ⟨[{ beveragesDoc with items := [idI1] }], [{ coldDrinksDoc with items := [idI1] }],
      [colaDoc]⟩ idI1.toHexString idI1 colaDoc (by decide) (by decide)
  exact ⟨k.1, by decide⟩

/-! ## Listing by parent -/

/-- C14, as stated, fails: when the route parameter is not a well-formed ObjectId the
three listings answer 500 instead of a (possibly empty) sequence. -/
theorem list_by_name_answers_500 :
    ObjectId.parse "Beverages" = none ∧
    (getSubcategoriesByCategory menu "Beverages").status = 500 ∧
    (getItemsByCategory menu "Beverages").status = 500 ∧
    (getItemsBySubcategory menu "Beverages").status = 500 := by
  decide

/-- C14, amended: for a route parameter that is a well-formed ObjectId, whether or
not a parent with that id exists, `getSubcategoriesByCategory`,
`getItemsByCategory` and `getItemsBySubcategory` answer 200 with exactly the
stored records whose `category` (respectively `subcategory`) is that id, in
store order, hence with the empty sequence when none match; for any other
parameter they answer 500; they never answer 404. -/
theorem list_by_parent (s : Store) (id : String) :
    (∀ oid, ObjectId.parse id = some oid →
      getSubcategoriesByCategory s id
        = .json 200 (s.subcategories.filter (fun c => c.category == oid)) ∧
      getItemsByCategory s id = .json 200 (s.items.filter (fun c => c.category == oid)) ∧
      getItemsBySubcategory s id
        = .json 200 (s.items.filter (fun c => c.subcategory == oid)) ∧
      ((∀ c ∈ s.subcategories, c.category ≠ oid) →
        getSubcategoriesByCategory s id = .json 200 []) ∧
      ((∀ c ∈ s.items, c.category ≠ oid) → getItemsByCategory s id = .json 200 []) ∧
      ((∀ c ∈ s.items, c.subcategory ≠ oid) →
        getItemsBySubcategory s id = .json 200 [])) ∧
    (ObjectId.parse id = none →
      (getSubcategoriesByCategory s id).status = 500 ∧
      (getItemsByCategory s id).status = 500 ∧
      (getItemsBySubcategory s id).status = 500) ∧
    (getSubcategoriesByCategory s id).status ≠ 404 ∧
    (getItemsByCategory s id).status ≠ 404 ∧
    (getItemsBySubcategory s id).status ≠ 404 := by
  cases hp : ObjectId.parse id with
  | none =>
    simp [getSubcategoriesByCategory, getItemsByCategory, getItemsBySubcategory, hp,
      Response.status]
  | some oid =>
    refine ⟨?_, by simp, ?_⟩
    · intro oid' h
      cases h
      refine ⟨by simp [getSubcategoriesByCategory, hp], by simp [getItemsByCategory, hp],
        by simp [getItemsBySubcategory, hp], ?_, ?_, ?_⟩
      · intro hno
        have : s.subcategories.filter (fun c => c.category == oid) = [] := by
          rw [List.filter_eq_nil_iff]
          intro c hc
          simpa using hno c hc
        simp [getSubcategoriesByCategory, hp, this]
      · intro hno
        have : s.items.filter (fun c => c.category == oid) = [] := by
          rw [List.filter_eq_nil_iff]
          intro c hc
          simpa using hno c hc
        simp [getItemsByCategory, hp, this]
      · intro hno
        have : s.items.filter (fun c => c.subcategory == oid) = [] := by
          rw [List.filter_eq_nil_iff]
          intro c hc
          simpa using hno c hc
        simp [getItemsBySubcategory, hp, this]
    · simp [getSubcategoriesByCategory, getItemsByCategory, getItemsBySubcategory, hp,
        Response.status]

/-- C14, amended, at the stored parents of `menu` and at an id with no parent. -/
theorem list_by_parent_witness :
    (getSubcategoriesByCategory menu idC1.toHexString
        = .json 200 (menu.subcategories.filter (fun c => c.category == idC1)) ∧
      getItemsBySubcategory menu idS1.toHexString
        = .json 200 (menu.items.filter (fun c => c.subcategory == idS1))) ∧
    getItemsByCategory menu idC2.toHexString = .json 200 [] :=
  ⟨⟨((list_by_parent menu idC1.toHexString).1 idC1 (by decide)).1,
      ((list_by_parent menu idS1.toHexString).1 idS1 (by decide)).2.2.1⟩,
    ((list_by_parent menu idC2.toHexString).1 idC2 (by decide)).2.2.2.2.1 (by decide)⟩

/-! ## What an update writes -/

theorem updateCategory_of_found (s : Store) (id : String) (cid : ObjectId) (c : Category)
    (body : CategoryUpdate) (hu : body.uncastable = [])
    (hid : ObjectId.parse id = some cid)
    (hc : findById? s.categories cid = some c) :
    updateCategory s id body =
      (⟨modifyFirst s.categories cid (Category.applyUpdate body.toCategoryBody),
          s.subcategories, s.items⟩,
        .json 200 (Category.applyUpdate body.toCategoryBody c)) := by
  rw [updateCategory_of_castable s id body hu]
  simp [findByIdAndUpdate_of_found _ _ _ _ _ hid hc]

theorem updateSubcategory_of_found (s : Store) (id : String) (sid : ObjectId)
    (c : SubCategory) (body : SubcategoryUpdate) (hu : body.uncastable = [])
    (hid : ObjectId.parse id = some sid)
    (hc : findById? s.subcategories sid = some c)
    (hcat : ¬ Malformed body.category) (hitems : ¬ MalformedIds body.items) :
    updateSubcategory s id body =
      (⟨s.categories,
        modifyFirst s.subcategories sid
          (SubCategory.applyUpdate body.toSubcategoryBody
            (body.category.bind ObjectId.parse) (body.items.bind castIds)), s.items⟩,
        .json 200 (SubCategory.applyUpdate body.toSubcategoryBody
          (body.category.bind ObjectId.parse) (body.items.bind castIds) c)) := by
  rw [updateSubcategory_of_cast s id body hu hcat hitems]
  simp [findByIdAndUpdate_of_found _ _ _ _ _ hid hc]

theorem updateItem_of_found (s : Store) (id : String) (iid : ObjectId) (it : Item)
    (body : ItemUpdate) (hu : body.uncastable = [])
    (hid : ObjectId.parse id = some iid)
    (hit : findById? s.items iid = some it)
    (hcat : ¬ Malformed body.category) (hsub : ¬ Malformed body.subcategory) :
    updateItem s id body =
      (⟨s.categories, s.subcategories,
        modifyFirst s.items iid
          (Item.applyUpdate body.toItemBody (body.category.bind ObjectId.parse)
            (body.subcategory.bind ObjectId.parse))⟩,
        .json 200 (Item.applyUpdate body.toItemBody (body.category.bind ObjectId.parse)
          (body.subcategory.bind ObjectId.parse) it)) := by
  rw [updateItem_of_cast s id body hu hcat hsub]
  simp [findByIdAndUpdate_of_found _ _ _ _ _ hid hit]

/-- C15, as stated, fails: updating "Beverages" with a body that supplies only
`taxApplicability` answers 200 with a record whose `name`, `image`,
`description` and `tax` are the previous ones: a field the request does not
supply keeps its value.  And an update of "Beverages" whose `tax` does not
cast to a number (`tax: "abc"`) answers 500, not 200, and writes nothing. -/
theorem updateCategory_keeps_missing_fields :
    onlyTaxApplicability.name = none ∧ onlyTaxApplicability.image = none ∧
    (updateCategory ⟨[beveragesDoc], [], []⟩ idC1.toHexString onlyTaxApplicability).2
      = .json 200 { beveragesDoc with taxApplicability := true } ∧
    ({ beveragesDoc with taxApplicability := true } : Category).name = beveragesDoc.name ∧
    ({ beveragesDoc with taxApplicability := true } : Category).image = beveragesDoc.image ∧
    (updateCategory ⟨[beveragesDoc], [], []⟩ idC1.toHexString onlyTaxApplicability).1
      = ⟨[{ beveragesDoc with taxApplicability := true }], [], []⟩ ∧
    (updateCategory ⟨[beveragesDoc], [], []⟩ idC1.toHexString
      { uncastable := ["tax"] }).2.status = 500 ∧
    (updateCategory ⟨[beveragesDoc], [], []⟩ idC1.toHexString
      { uncastable := ["tax"] }).1 = ⟨[beveragesDoc], [], []⟩ := by
  decide

/-- C15, amended: for the id of a stored Category, when every field the body
supplies casts to its schema type `updateCategory` answers 200 with the
record as it is stored after the update: each of `name`, `image`,
`description`, `taxApplicability` and `tax` that the body supplies has the
body's value, each one the body does not supply keeps its previous value,
and the identifier, `taxType` and the two child lists are unchanged.  When
a supplied field does not cast it answers 500 and the store is unchanged. -/
theorem updateCategory_sets_supplied_fields (s : Store) (id : String) (cid : ObjectId)
    (c : Category) (body : CategoryUpdate) (hid : ObjectId.parse id = some cid)
    (hc : findById? s.categories cid = some c) :
    (body.uncastable = [] →
      ∃ u : Category, (updateCategory s id body).2 = .json 200 u ∧
        findById? (updateCategory s id body).1.categories cid = some u ∧
        u._id = c._id ∧
        u.name = body.name.getD c.name ∧ u.image = body.image.getD c.image ∧
        u.description = body.description.getD c.description ∧
        u.taxApplicability = body.taxApplicability.getD c.taxApplicability ∧
        (∀ t, body.tax = some t → u.tax = some t) ∧ (body.tax = none → u.tax = c.tax) ∧
        u.taxType = c.taxType ∧ u.subCategories = c.subCategories ∧ u.items = c.items) ∧
    (body.uncastable ≠ [] →
      (updateCategory s id body).1 = s ∧ (updateCategory s id body).2.status = 500) := by
  refine ⟨fun hu => ?_, fun hu => ?_⟩
  · refine ⟨Category.applyUpdate body.toCategoryBody c, ?_, ?_, rfl, rfl, rfl, rfl, rfl,
      ?_, ?_, rfl, rfl, rfl⟩
    · rw [updateCategory_of_found s id cid c body hu hid hc]
    · rw [updateCategory_of_found s id cid c body hu hid hc]
      exact findById?_modifyFirst s.categories cid _ c hc
        (by show c._id = cid; exact findById?_id hc)
    · intro t ht
      simp [Category.applyUpdate, ht]
    · intro ht
      simp [Category.applyUpdate, ht]
  · obtain ⟨e, he⟩ := updateCategory_of_uncastable s id body hu
    simp [he, Response.status]

/-- C15, amended, at "Beverages" updated with `taxApplicability = true` and `tax = 5`
and the three strings unchanged, and at "Beverages" updated with a `tax` that
does not cast. -/
theorem updateCategory_sets_supplied_fields_witness :
    (∃ u : Category,
      (updateCategory ⟨[beveragesDoc], [], []⟩ idC1.toHexString
        { toCategoryBody := beveragesTaxed }).2 = .json 200 u ∧
      findById? (updateCategory ⟨[beveragesDoc], [], []⟩ idC1.toHexString
        { toCategoryBody := beveragesTaxed }).1.categories idC1 = some u ∧
      u._id = idC1 ∧ u.taxApplicability = true ∧ u.tax = some 5) ∧
    ((updateCategory ⟨[beveragesDoc], [], []⟩ idC1.toHexString
        { uncastable := ["tax"] }).1 = ⟨[beveragesDoc], [], []⟩ ∧
      (updateCategory ⟨[beveragesDoc], [], []⟩ idC1.toHexString
        { uncastable := ["tax"] }).2.status = 500) := by
  obtain ⟨u, h1, h2, h3, -, -, -, h4, h5, -⟩ :=
    (updateCategory_sets_supplied_fields ⟨[beveragesDoc], [], []⟩ idC1.toHexString idC1
      beveragesDoc { toCategoryBody := beveragesTaxed } (by decide) (by decide)).1
      (by decide)
  exact ⟨⟨u, h1, h2, h3, h4, h5 5 rfl⟩,
    (updateCategory_sets_supplied_fields ⟨[beveragesDoc], [], []⟩ idC1.toHexString idC1
      beveragesDoc { uncastable := ["tax"] } (by decide) (by decide)).2 (by decide)⟩

/-- C18, as stated, fails: an `updateItem` request for the stored "Cola" whose
`category` is the string "Beverages" answers 500 and changes nothing, and so
does one whose `baseAmount` does not cast to a number (`baseAmount: "abc"`). -/
theorem updateItem_category_by_name :
    (findById? menu.items idI1).isSome = true ∧
    (updateItem menu idI1.toHexString moveToBeveragesByName).2.status = 500 ∧
    (updateItem menu idI1.toHexString moveToBeveragesByName).1 = menu ∧
    (updateItem menu idI1.toHexString { uncastable := ["baseAmount"] }).2.status = 500 ∧
    (updateItem menu idI1.toHexString { uncastable := ["baseAmount"] }).1 = menu := by
  decide

/-- C18, amended: for the id of a stored Item, `updateItem` never changes a Category
or a Subcategory.  When every field the body supplies casts to its schema
type and the body's `category` and `subcategory` are absent or well-formed
ObjectIds, stored or not, it answers 200 with the record as stored after the
update: each field the body supplies, `category` and `subcategory` included,
has the body's value and the others keep theirs.  When a supplied field does
not cast, or `category` or `subcategory` is not a well-formed ObjectId, it
answers 500 and the store is unchanged. -/
theorem updateItem_ignores_parents (s : Store) (id : String) (iid : ObjectId) (it : Item)
    (body : ItemUpdate) (hid : ObjectId.parse id = some iid)
    (hit : findById? s.items iid = some it) :
    (updateItem s id body).1.categories = s.categories ∧
    (updateItem s id body).1.subcategories = s.subcategories ∧
    (body.uncastable = [] → ¬ Malformed body.category → ¬ Malformed body.subcategory →
      ∃ u : Item, (updateItem s id body).2 = .json 200 u ∧
        findById? (updateItem s id body).1.items iid = some u ∧ u._id = it._id ∧
        (∀ cid, body.category.bind ObjectId.parse = some cid → u.category = cid) ∧
        (body.category = none → u.category = it.category) ∧
        (∀ sid, body.subcategory.bind ObjectId.parse = some sid → u.subcategory = sid) ∧
        (body.subcategory = none → u.subcategory = it.subcategory) ∧
        u.name = body.name.getD it.name ∧ u.image = body.image.getD it.image ∧
        u.description = body.description.getD it.description ∧
        u.taxApplicability = body.taxApplicability.getD it.taxApplicability ∧
        u.tax = body.tax.getD it.tax ∧ u.baseAmount = body.baseAmount.getD it.baseAmount ∧
        u.discount = body.discount.getD it.discount ∧
        u.totalAmount = body.totalAmount.getD it.totalAmount) ∧
    (body.uncastable ≠ [] ∨ Malformed body.category ∨ Malformed body.subcategory →
      (updateItem s id body).1 = s ∧ (updateItem s id body).2.status = 500) := by
  by_cases hm : body.uncastable ≠ [] ∨ Malformed body.category ∨ Malformed body.subcategory
  · obtain ⟨h1, h2⟩ := updateItem_of_malformed s id body hm
    refine ⟨by rw [h1], by rw [h1], ?_, fun _ => ⟨h1, h2⟩⟩
    intro hu hc hs
    rcases hm with hm | hm | hm
    · exact absurd hu hm
    · exact absurd hm hc
    · exact absurd hm hs
  · have hu : body.uncastable = [] := by
      by_contra hx
      exact hm (Or.inl hx)
    have hc : ¬ Malformed body.category := fun x => hm (Or.inr (Or.inl x))
    have hs : ¬ Malformed body.subcategory := fun x => hm (Or.inr (Or.inr x))
    rw [updateItem_of_found s id iid it body hu hid hit hc hs]
    refine ⟨rfl, rfl, ?_, fun h => absurd h hm⟩
    intro _ _ _
    refine ⟨_, rfl, ?_, rfl, ?_, ?_, ?_, ?_, rfl, rfl, rfl, rfl, rfl, rfl, rfl, rfl⟩
    · exact findById?_modifyFirst s.items iid _ it hit
        (by show it._id = iid; exact findById?_id hit)
    · intro cid h; simp [Item.applyUpdate, h]
    · intro h; simp [Item.applyUpdate, h]
    · intro sid h; simp [Item.applyUpdate, h]
    · intro h; simp [Item.applyUpdate, h]

/-- C18, amended, at "Cola" moved to a Category and a Subcategory that are not
stored, and at "Cola" updated with a `baseAmount` that does not cast. -/
theorem updateItem_ignores_parents_witness :
    (updateItem menu idI1.toHexString moveToUnknownParents).1.categories = menu.categories ∧
    (updateItem menu idI1.toHexString moveToUnknownParents).1.subcategories
      = menu.subcategories ∧
    (updateItem menu idI1.toHexString moveToUnknownParents).2
      = .json 200 { colaDoc with category := idC2, subcategory := idI2 } ∧
    findById? menu.categories idC2 = none ∧ findById? menu.subcategories idI2 = none ∧
    ((updateItem menu idI1.toHexString { uncastable := ["baseAmount"] }).1 = menu ∧
      (updateItem menu idI1.toHexString { uncastable := ["baseAmount"] }).2.status
        = 500) := by
  have k := updateItem_ignores_parents menu idI1.toHexString idI1 colaDoc
    moveToUnknownParents (by decide) (by decide)
  have k2 := updateItem_ignores_parents menu idI1.toHexString idI1 colaDoc
    { uncastable := ["baseAmount"] } (by decide) (by decide)
  exact ⟨k.1, k.2.1, by decide, by decide, by decide, k2.2.2.2 (Or.inl (by decide))⟩

/-! ## What each request does to each collection -/

theorem findById?_modifyFirst_of_some {α : Type} [Document α] (docs : List α)
    (id other : ObjectId) (f : α → α) (d : α)
    (hf : ∀ x, Document.id x = id → Document.id (f x) = id)
    (h : findById? docs other = some d) :
    findById? (modifyFirst docs id f) other = some (if other = id then f d else d) := by
  by_cases ho : other = id
  · subst ho
    rw [if_pos rfl]
    exact findById?_modifyFirst docs other f d h (hf d (findById?_id h))
  · rw [if_neg ho, findById?_modifyFirst_ne docs id other f hf ho]
    exact h

theorem createCategory_frame (s : Store) (newId : ObjectId) (body : CategoryBody) :
    (createCategory s newId body).1.subcategories = s.subcategories ∧
    (createCategory s newId body).1.items = s.items := by
  unfold createCategory
  split
  · exact ⟨rfl, rfl⟩
  · split <;> exact ⟨rfl, rfl⟩

theorem updateCategory_frame (s : Store) (id : String) (body : CategoryUpdate) :
    (updateCategory s id body).1.subcategories = s.subcategories ∧
    (updateCategory s id body).1.items = s.items := by
  unfold updateCategory
  split
  · exact ⟨rfl, rfl⟩
  · split <;> exact ⟨rfl, rfl⟩

theorem deleteCategory_frame (s : Store) (id : String) :
    (deleteCategory s id).1.subcategories = s.subcategories ∧
    (deleteCategory s id).1.items = s.items := by
  unfold deleteCategory
  split <;> exact ⟨rfl, rfl⟩

theorem updateCategory_categories (s : Store) (id : String) (body : CategoryUpdate) :
    (updateCategory s id body).1.categories = s.categories ∨
    ∃ oid, (updateCategory s id body).1.categories
      = modifyFirst s.categories oid (Category.applyUpdate body.toCategoryBody) := by
  by_cases hu : body.uncastable = []
  · rw [updateCategory_of_castable s id body hu]
    cases hp : ObjectId.parse id with
    | none => left; simp [findByIdAndUpdate_of_malformed _ _ _ hp]
    | some oid =>
      cases hf : findById? s.categories oid with
      | none => left; simp [findByIdAndUpdate_of_missing _ _ _ _ hp hf]
      | some c =>
        right
        exact ⟨oid, by simp [findByIdAndUpdate_of_found _ _ _ _ _ hp hf]⟩
  · obtain ⟨e, he⟩ := updateCategory_of_uncastable s id body hu
    left
    rw [he]

theorem deleteCategory_categories_cases (s : Store) (id : String) :
    (deleteCategory s id).1.categories = s.categories ∨
    ∃ oid, (deleteCategory s id).1.categories
      = s.categories.eraseP (fun x => Document.id x == oid) := by
  cases hp : ObjectId.parse id with
  | none => left; simp [deleteCategory, findByIdAndDelete_of_malformed _ _ hp]
  | some oid =>
    cases hf : findById? s.categories oid with
    | none => left; simp [deleteCategory, findByIdAndDelete_of_missing _ _ _ hp hf]
    | some c => right; exact ⟨oid, by rw [deleteCategory_of_found s id oid c hp hf]⟩

theorem createSubcategory_categories_cases (s : Store) (newId : ObjectId)
    (body : SubcategoryBody) :
    (createSubcategory s newId body).1.categories = s.categories ∨
    ∃ cid parent, RefersTo s.categories body.category cid parent ∧
      (createSubcategory s newId body).2.status = 201 ∧
      (createSubcategory s newId body).1.categories =
        modifyFirst s.categories cid
          (fun _ => { parent with subCategories := parent.subCategories ++ [newId] }) := by
  by_cases h : (createSubcategory s newId body).2.status = 201
  · obtain ⟨cid, parent, doc, hcat, hvalid, hbody, hnew⟩ := createSubcategory_created_inv h
    refine Or.inr ⟨cid, parent, hcat, h, ?_⟩
    rw [createSubcategory_of_valid s newId cid body parent doc hcat hvalid hbody hnew]
  · rcases createSubcategory_categories s newId body with hc | ⟨cid, parent, hp, hc⟩
    · exact Or.inl hc
    · left
      rcases hc' : Model.findById s.categories body.category with e | (_ | parent')
      · simp [createSubcategory, hc']
      · simp [createSubcategory, hc']
      · rcases hb : SubCategory.fromBody newId body with e | doc
        · simp [createSubcategory, hc', hb]
        · rcases hi : insertOne s.subcategories doc with e | subs
          · simp [createSubcategory, hc', hb, hi]
          · rcases hs : Document.save s.categories
                ({ parent' with subCategories := parent'.subCategories ++ [doc._id] } :
                  Category) with e | cats
            · simp [createSubcategory, hc', hb, hi, hs]
            · simp [createSubcategory, hc', hb, hi, hs, Response.status] at h

theorem createSubcategory_frame (s : Store) (newId : ObjectId) (body : SubcategoryBody) :
    (createSubcategory s newId body).1.items = s.items ∧
    ((createSubcategory s newId body).1.subcategories = s.subcategories ∨
      ∃ doc, SubCategory.fromBody newId body = .ok doc ∧
        findById? s.subcategories newId = none ∧
        (createSubcategory s newId body).1.subcategories = s.subcategories ++ [doc]) := by
  rcases hc : Model.findById s.categories body.category with e | (_ | parent)
  · simp [createSubcategory, hc]
  · simp [createSubcategory, hc]
  · rcases hb : SubCategory.fromBody newId body with e | doc
    · simp [createSubcategory, hc, hb]
    · rcases hi : insertOne s.subcategories doc with e | subs
      · simp [createSubcategory, hc, hb, hi]
      · obtain ⟨hn, hsubs⟩ := insertOne_ok_inv hi
        have hid : doc._id = newId := (subCategoryFromBody_ok_inv hb).1
        have hn' : findById? s.subcategories newId = none := by rw [← hid]; exact hn
        rcases hs : Document.save s.categories
            ({ parent with subCategories := parent.subCategories ++ [doc._id] } : Category)
          with e | cats
        · refine ⟨by simp [createSubcategory, hc, hb, hi, hs], Or.inr ⟨doc, rfl, hn', ?_⟩⟩
          simp [createSubcategory, hc, hb, hi, hs, hsubs]
        · refine ⟨by simp [createSubcategory, hc, hb, hi, hs], Or.inr ⟨doc, rfl, hn', ?_⟩⟩
          simp [createSubcategory, hc, hb, hi, hs, hsubs]

theorem updateSubcategory_frame (s : Store) (id : String) (body : SubcategoryUpdate) :
    (updateSubcategory s id body).1.items = s.items ∧
    ((updateSubcategory s id body).1.subcategories = s.subcategories ∨
      ∃ oid, (updateSubcategory s id body).1.subcategories
        = modifyFirst s.subcategories oid
            (SubCategory.applyUpdate body.toSubcategoryBody
              (body.category.bind ObjectId.parse) (body.items.bind castIds))) := by
  by_cases hm : body.uncastable ≠ [] ∨ Malformed body.category ∨ MalformedIds body.items
  · rw [(updateSubcategory_of_malformed s id body hm).1]
    exact ⟨rfl, Or.inl rfl⟩
  · have hu : body.uncastable = [] := by
      by_contra hx
      exact hm (Or.inl hx)
    have hc : ¬ Malformed body.category := fun x => hm (Or.inr (Or.inl x))
    have hi : ¬ MalformedIds body.items := fun x => hm (Or.inr (Or.inr x))
    cases hp : ObjectId.parse id with
    | none =>
      rw [updateSubcategory_of_cast s id body hu hc hi]
      simp [findByIdAndUpdate_of_malformed _ _ _ hp]
    | some oid =>
      cases hf : findById? s.subcategories oid with
      | none =>
        rw [updateSubcategory_of_cast s id body hu hc hi]
        simp [findByIdAndUpdate_of_missing _ _ _ _ hp hf]
      | some c =>
        rw [updateSubcategory_of_found s id oid c body hu hp hf hc hi]
        exact ⟨rfl, Or.inr ⟨oid, rfl⟩⟩

/-- How `updateSubcategory` ends: it writes nothing and does not answer 200, or it
has found the Subcategory of the id and stored the update applied to it. -/
theorem updateSubcategory_cases (s : Store) (id : String) (body : SubcategoryUpdate) :
    ((updateSubcategory s id body).1 = s ∧ (updateSubcategory s id body).2.status ≠ 200) ∨
    ∃ oid c, ObjectId.parse id = some oid ∧ findById? s.subcategories oid = some c ∧
      ¬ MalformedIds body.items ∧
      updateSubcategory s id body =
        (⟨s.categories,
          modifyFirst s.subcategories oid
            (SubCategory.applyUpdate body.toSubcategoryBody
              (body.category.bind ObjectId.parse) (body.items.bind castIds)), s.items⟩,
          .json 200 (SubCategory.applyUpdate body.toSubcategoryBody
            (body.category.bind ObjectId.parse) (body.items.bind castIds) c)) := by
  by_cases hm : body.uncastable ≠ [] ∨ Malformed body.category ∨ MalformedIds body.items
  · obtain ⟨h1, h2⟩ := updateSubcategory_of_malformed s id body hm
    exact Or.inl ⟨h1, by rw [h2]; decide⟩
  · have hu : body.uncastable = [] := by
      by_contra hx
      exact hm (Or.inl hx)
    have hc : ¬ Malformed body.category := fun x => hm (Or.inr (Or.inl x))
    have hi : ¬ MalformedIds body.items := fun x => hm (Or.inr (Or.inr x))
    cases hp : ObjectId.parse id with
    | none =>
      left
      rw [updateSubcategory_of_cast s id body hu hc hi]
      simp [findByIdAndUpdate_of_malformed _ _ _ hp, Response.status]
    | some oid =>
      cases hf : findById? s.subcategories oid with
      | none =>
        left
        rw [updateSubcategory_of_cast s id body hu hc hi]
        simp [findByIdAndUpdate_of_missing _ _ _ _ hp hf, Response.status]
      | some c =>
        exact Or.inr ⟨oid, c, rfl, hf, hi,
          updateSubcategory_of_found s id oid c body hu hp hf hc hi⟩

theorem deleteSubcategory_frame (s : Store) (id : String) :
    (deleteSubcategory s id).1.items = s.items ∧
    ((deleteSubcategory s id).1.subcategories = s.subcategories ∨
      ∃ oid, (deleteSubcategory s id).1.subcategories
        = s.subcategories.eraseP (fun x => Document.id x == oid)) := by
  cases hp : ObjectId.parse id with
  | none => simp [deleteSubcategory, findByIdAndDelete_of_malformed _ _ hp]
  | some oid =>
    cases hf : findById? s.subcategories oid with
    | none => simp [deleteSubcategory, findByIdAndDelete_of_missing _ _ _ hp hf]
    | some c =>
      rw [deleteSubcategory_of_found s id oid c hp hf]
      exact ⟨rfl, Or.inr ⟨oid, rfl⟩⟩

theorem updateItem_frame (s : Store) (id : String) (body : ItemUpdate) :
    (updateItem s id body).1.subcategories = s.subcategories := by
  unfold updateItem
  split
  · rfl
  · split
    · rfl
    · rfl
    · split <;> rfl

theorem deleteItem_frame (s : Store) (id : String) :
    (deleteItem s id).1.subcategories = s.subcategories := by
  unfold deleteItem
  split <;> rfl

/-- How far `createItem` gets: nothing written; the Item inserted and the save of
the parent Category failed; the Category saved and the save of the parent
Subcategory failed (500); or everything written (201). -/
theorem createItem_cases (s : Store) (newId : ObjectId) (body : ItemBody) :
    (createItem s newId body).1 = s ∨
    (∃ doc, Item.fromBody newId body = .ok doc ∧ findById? s.items newId = none ∧
      (createItem s newId body).1 = ⟨s.categories, s.subcategories, s.items ++ [doc]⟩) ∨
    (∃ doc cid pc sid ps, Item.fromBody newId body = .ok doc ∧
      findById? s.items newId = none ∧
      RefersTo s.categories body.category cid pc ∧
      RefersTo s.subcategories body.subcategory sid ps ∧
      pc.validate = true ∧
      (((createItem s newId body).2.status = 500 ∧ ps.validate = false ∧
        (createItem s newId body).1 =
          ⟨modifyFirst s.categories cid (fun _ => { pc with items := pc.items ++ [newId] }),
            s.subcategories, s.items ++ [doc]⟩) ∨
       ((createItem s newId body).2.status = 201 ∧ ps.validate = true ∧
        (createItem s newId body).1 =
          ⟨modifyFirst s.categories cid (fun _ => { pc with items := pc.items ++ [newId] }),
            modifyFirst s.subcategories sid
              (fun _ => { ps with items := ps.items ++ [newId] }),
            s.items ++ [doc]⟩))) := by
  rcases hc : Model.findById s.categories body.category with e | (_ | pc)
  · left; simp [createItem, hc]
  · left; simp [createItem, hc]
  · rcases hsb : Model.findById s.subcategories body.subcategory with e | (_ | ps)
    · left; simp [createItem, hc, hsb]
    · left; simp [createItem, hc, hsb]
    · rcases hb : Item.fromBody newId body with e | doc
      · left; simp [createItem, hc, hsb, hb]
      · rcases hi : insertOne s.items doc with e | its
        · left; simp [createItem, hc, hsb, hb, hi]
        · obtain ⟨hn, hits⟩ := insertOne_ok_inv hi
          have hid : doc._id = newId := (itemFromBody_ok_inv hb).1
          have hn' : findById? s.items newId = none := by rw [← hid]; exact hn
          obtain ⟨cid, hparseC, hpc⟩ := Model.findById_some_inv hc
          obtain ⟨sid, hparseS, hps⟩ := Model.findById_some_inv hsb
          have hpcid : pc._id = cid := findById?_id hpc
          have hpsid : ps._id = sid := findById?_id hps
          rcases hs : Document.save s.categories
              ({ pc with items := pc.items ++ [doc._id] } : Category) with e | cats
          · right; left
            exact ⟨doc, rfl, hn', by simp [createItem, hc, hsb, hb, hi, hs, hits]⟩
          · right; right
            obtain ⟨hvc, hcats⟩ := Document.save_ok_inv hs
            have hcats' : cats = modifyFirst s.categories cid
                (fun _ => { pc with items := pc.items ++ [newId] }) := by
              rw [hcats, ← hid, ← hpcid]; rfl
            refine ⟨doc, cid, pc, sid, ps, rfl, hn', ⟨hparseC, hpc⟩, ⟨hparseS, hps⟩,
              hvc, ?_⟩
            by_cases hvs : ps.validate = true
            · right
              rw [createItem_of_valid s newId cid sid body pc ps doc ⟨hparseC, hpc⟩
                ⟨hparseS, hps⟩ hvc hvs hb hn']
              exact ⟨rfl, hvs, rfl⟩
            · left
              have hvs' : ps.validate = false := by simpa using hvs
              have hs2 : Document.save s.subcategories
                  ({ ps with items := ps.items ++ [doc._id] } : SubCategory)
                  = .error (.validation "SubCategory") := by
                have : Document.validate
                    ({ ps with items := ps.items ++ [doc._id] } : SubCategory) = false := hvs'
                simp [Document.save, this, Document.modelName]
              refine ⟨?_, hvs', ?_⟩
              · simp [createItem, hc, hsb, hb, hi, hs, hs2, Response.status]
              · simp [createItem, hc, hsb, hb, hi, hs, hs2, hits, hcats']

/-! ## Child lists only grow, and only through creation -/

/-- C16, as stated, fails: with "Cold Drinks" stored under "Beverages" and then
updated to an empty `name`, a `createItem` request naming both as parents
answers 500 (the save of the Subcategory fails validation) after the
Category was saved: the Category's `items` has grown although the request
did not succeed. -/
theorem createItem_fails_after_category_saved :
    (createItem (Store.empty.run emptiedSubcategoryName) idI1 cola).2.status = 500 ∧
    (findById? (Store.empty.run emptiedSubcategoryName).categories idC1).map Category.items
      = some [] ∧
    (findById? ((Store.empty.run emptiedSubcategoryName).step
      (.createItem idI1 cola)).categories idC1).map Category.items = some [idI1] := by
  decide

/-- C16, amended: for every request and every Category stored under the same id
before and after it (ids being unique), `subCategories` changes only through
a `createSubcategory` naming that Category that answers 201, and `items`
only through a `createItem` naming that Category that answers 201, or 500
because the later save of the parent Subcategory failed validation; the new
list is then the old one followed by the new id.  No update and no delete
changes either list. -/
theorem category_lists_change_by_create_only (s : Store) (r : Request) (cid : ObjectId)
    (c c' : Category) (hu : UniqueIds s.categories)
    (hb : findById? s.categories cid = some c)
    (ha : findById? (s.step r).categories cid = some c') :
    (c'.subCategories = c.subCategories ∨
      ∃ newId body, r = .createSubcategory newId body ∧
        (createSubcategory s newId body).2.status = 201 ∧
        body.category.bind ObjectId.parse = some cid ∧
        c'.subCategories = c.subCategories ++ [newId]) ∧
    (c'.items = c.items ∨
      ∃ newId body, r = .createItem newId body ∧
        body.category.bind ObjectId.parse = some cid ∧
        ((createItem s newId body).2.status = 201 ∨
          ((createItem s newId body).2.status = 500 ∧
            ∃ sid ps, RefersTo s.subcategories body.subcategory sid ps ∧
              ps.validate = false)) ∧
        c'.items = c.items ++ [newId]) ∧
    (r.isCreate = false → c'.subCategories = c.subCategories ∧ c'.items = c.items) := by
  have same : c' = c → _ := fun h =>
    (show (c'.subCategories = c.subCategories ∨
      ∃ newId body, r = .createSubcategory newId body ∧
        (createSubcategory s newId body).2.status = 201 ∧
        body.category.bind ObjectId.parse = some cid ∧
        c'.subCategories = c.subCategories ++ [newId]) ∧
    (c'.items = c.items ∨
      ∃ newId body, r = .createItem newId body ∧
        body.category.bind ObjectId.parse = some cid ∧
        ((createItem s newId body).2.status = 201 ∨
          ((createItem s newId body).2.status = 500 ∧
            ∃ sid ps, RefersTo s.subcategories body.subcategory sid ps ∧
              ps.validate = false)) ∧
        c'.items = c.items ++ [newId]) ∧
    (r.isCreate = false → c'.subCategories = c.subCategories ∧ c'.items = c.items) from by
      subst h
      exact ⟨Or.inl rfl, Or.inl rfl, fun _ => ⟨rfl, rfl⟩⟩)
  have unchanged : (s.step r).categories = s.categories → c' = c := by
    intro h
    rw [h, hb] at ha
    exact (Option.some.inj ha).symm
  cases r with
  | createCategory newId body =>
    apply same
    rcases createCategory_categories s newId body with h | ⟨doc, -, h⟩
    · exact unchanged h
    · have ha' : findById? (s.categories ++ [doc]) cid = some c' := by
        rw [← h]; exact ha
      rw [findById?_append_of_some s.categories doc c cid hb] at ha'
      exact (Option.some.inj ha').symm
  | updateCategory id body =>
    rcases updateCategory_categories s id body with h | ⟨oid, h⟩
    · exact same (unchanged h)
    · have ha' : findById? (modifyFirst s.categories oid
          (Category.applyUpdate body.toCategoryBody)) cid = some c' := by rw [← h]; exact ha
      rw [findById?_modifyFirst_of_some s.categories oid cid
        (Category.applyUpdate body.toCategoryBody) c (fun x hx => by exact hx) hb] at ha'
      have hc' := (Option.some.inj ha').symm
      by_cases ho : cid = oid
      · rw [if_pos ho] at hc'
        subst hc'
        exact ⟨Or.inl rfl, Or.inl rfl, fun _ => ⟨rfl, rfl⟩⟩
      · rw [if_neg ho] at hc'
        exact same hc'
  | deleteCategory id =>
    apply same
    rcases deleteCategory_categories_cases s id with h | ⟨oid, h⟩
    · exact unchanged h
    · have ha' : findById? (s.categories.eraseP (fun x => Document.id x == oid)) cid
          = some c' := by rw [← h]; exact ha
      by_cases ho : cid = oid
      · subst ho
        rw [findById?_eraseP_self s.categories cid hu] at ha'
        cases ha'
      · rw [findById?_eraseP_ne s.categories oid cid ho, hb] at ha'
        exact (Option.some.inj ha').symm
  | createSubcategory newId body =>
    rcases createSubcategory_categories_cases s newId body with h | ⟨cid0, parent, href, hst, h⟩
    · exact same (unchanged h)
    · have ha' : findById? (modifyFirst s.categories cid0
          (fun _ => ({ parent with subCategories := parent.subCategories ++ [newId] } :
            Category))) cid = some c' := by rw [← h]; exact ha
      rw [findById?_modifyFirst_of_some s.categories cid0 cid
        (fun _ => ({ parent with subCategories := parent.subCategories ++ [newId] } :
          Category)) c (fun _ _ => by show parent._id = cid0; exact findById?_id href.2) hb] at ha'
      have hc' := (Option.some.inj ha').symm
      by_cases ho : cid = cid0
      · rw [if_pos ho] at hc'
        subst ho
        have hpc : parent = c := by
          have := href.2
          rw [hb] at this
          exact (Option.some.inj this).symm
        subst hpc
        subst hc'
        exact ⟨Or.inr ⟨newId, body, rfl, hst, href.1, rfl⟩, Or.inl rfl,
          fun hcr => by simp [Request.isCreate] at hcr⟩
      · rw [if_neg ho] at hc'
        exact same hc'
  | updateSubcategory id body =>
    exact same (unchanged (updateSubcategory_categories s id body))
  | deleteSubcategory id =>
    exact same (unchanged (deleteSubcategory_categories s id))
  | createItem newId body =>
    rcases createItem_cases s newId body with h | ⟨doc, -, -, h⟩ |
      ⟨doc, cid0, pc, sid, ps, -, -, hrefC, hrefS, -, hcase⟩
    · exact same (unchanged (by show (createItem s newId body).1.categories = _; rw [h]))
    · exact same (unchanged (by show (createItem s newId body).1.categories = _; rw [h]))
    · have hcats : (createItem s newId body).1.categories = modifyFirst s.categories cid0
          (fun _ => ({ pc with items := pc.items ++ [newId] } : Category)) := by
        rcases hcase with ⟨-, -, h⟩ | ⟨-, -, h⟩ <;> rw [h]
      have hstatus : (createItem s newId body).2.status = 201 ∨
          ((createItem s newId body).2.status = 500 ∧
            ∃ sid ps, RefersTo s.subcategories body.subcategory sid ps ∧
              ps.validate = false) := by
        rcases hcase with ⟨h1, h2, -⟩ | ⟨h1, -, -⟩
        · exact Or.inr ⟨h1, sid, ps, hrefS, h2⟩
        · exact Or.inl h1
      have ha' : findById? (modifyFirst s.categories cid0
          (fun _ => ({ pc with items := pc.items ++ [newId] } : Category))) cid
          = some c' := by rw [← hcats]; exact ha
      rw [findById?_modifyFirst_of_some s.categories cid0 cid
        (fun _ => ({ pc with items := pc.items ++ [newId] } : Category)) c
        (fun _ _ => by show pc._id = cid0; exact findById?_id hrefC.2) hb] at ha'
      have hc' := (Option.some.inj ha').symm
      by_cases ho : cid = cid0
      · rw [if_pos ho] at hc'
        subst ho
        have hpc : pc = c := by
          have := hrefC.2
          rw [hb] at this
          exact (Option.some.inj this).symm
        subst hpc
        subst hc'
        exact ⟨Or.inl rfl, Or.inr ⟨newId, body, rfl, hrefC.1, hstatus, rfl⟩,
          fun hcr => by simp [Request.isCreate] at hcr⟩
      · rw [if_neg ho] at hc'
        exact same hc'
  | updateItem id body =>
    exact same (unchanged (updateItem_categories s id body))
  | deleteItem id =>
    exact same (unchanged (deleteItem_categories s id))

/-- C16, amended, at "Cola" created under stored "Beverages" and "Cold Drinks". -/
theorem category_lists_change_by_create_only_witness :
    UniqueIds (⟨[beveragesDoc], [coldDrinksDoc], []⟩ : Store).categories ∧
    findById? (⟨[beveragesDoc], [coldDrinksDoc], []⟩ : Store).categories idC1
      = some beveragesDoc ∧
    findById? ((⟨[beveragesDoc], [coldDrinksDoc], []⟩ : Store).step
      (.createItem idI1 cola)).categories idC1 = some { beveragesDoc with items := [idI1] } ∧
    ({ beveragesDoc with items := [idI1] } : Category).subCategories
      = beveragesDoc.subCategories ∧
    ({ beveragesDoc with items := [idI1] } : Category).items = beveragesDoc.items ++ [idI1] := by
  have hu : UniqueIds (⟨[beveragesDoc], [coldDrinksDoc], []⟩ : Store).categories := by
    unfold UniqueIds; decide
  have k := category_lists_change_by_create_only ⟨[beveragesDoc], [coldDrinksDoc], []⟩
    (.createItem idI1 cola) idC1 beveragesDoc { beveragesDoc with items := [idI1] }
    hu (by decide) (by decide)
  refine ⟨hu, by decide, by decide, ?_, ?_⟩
  · rcases k.1 with h | ⟨newId, body, hr, -⟩
    · exact h
    · cases hr
  · rcases k.2.1 with h | ⟨newId, body, hr, -, -, h⟩
    · exact absurd h (by decide)
    · cases hr
      exact h

/-- C17, as stated, fails: `updateSubcategory` with an `items` array in its body
replaces the stored list; here "Cold Drinks" holds `[idI1]` before and the
empty list after. -/
theorem updateSubcategory_replaces_items :
    (updateSubcategory menu idS1.toHexString clearItems).2.status = 200 ∧
    (findById? menu.subcategories idS1).map SubCategory.items = some [idI1] ∧
    (findById? (menu.step (.updateSubcategory idS1.toHexString clearItems)).subcategories
      idS1).map SubCategory.items = some [] := by
  decide

/-- C17, amended: for every request and every Subcategory stored under the same id
before and after it (ids being unique).  When the request is not an
`updateSubcategory` that supplies `items`, the `items` list before is an
initial segment of the list after: the list is unchanged, or a `createItem`
naming that Subcategory has put the new id at its end.  When the request is
an `updateSubcategory` that supplies `items`: if it names that Subcategory
and answers 200, the list after is exactly the supplied one; otherwise the
list is unchanged. -/
theorem subcategory_items_grow (s : Store) (r : Request) (sid : ObjectId)
    (sc sc' : SubCategory) (hu : UniqueIds s.subcategories)
    (hb : findById? s.subcategories sid = some sc)
    (ha : findById? (s.step r).subcategories sid = some sc') :
    (r.setsItems = false →
      sc.items <+: sc'.items ∧
      (sc'.items = sc.items ∨
        ∃ newId body, r = .createItem newId body ∧
          body.subcategory.bind ObjectId.parse = some sid ∧
          (createItem s newId body).2.status = 201 ∧
          sc'.items = sc.items ++ [newId])) ∧
    (∀ id body xs, r = .updateSubcategory id body → body.items = some xs →
      (ObjectId.parse id = some sid → (updateSubcategory s id body).2.status = 200 →
        castIds xs = some sc'.items) ∧
      (ObjectId.parse id ≠ some sid ∨ (updateSubcategory s id body).2.status ≠ 200 →
        sc'.items = sc.items)) := by
  refine ⟨fun hr => ?_, ?_⟩
  · suffices hmain : sc'.items = sc.items ∨
        ∃ newId body, r = .createItem newId body ∧
          body.subcategory.bind ObjectId.parse = some sid ∧
          (createItem s newId body).2.status = 201 ∧
          sc'.items = sc.items ++ [newId] by
      refine ⟨?_, hmain⟩
      rcases hmain with h | ⟨newId, _, _, _, _, h⟩
      · exact ⟨[], by rw [h]; simp⟩
      · exact ⟨[newId], h.symm⟩
    have unchanged : (s.step r).subcategories = s.subcategories → sc'.items = sc.items := by
      intro h
      rw [h, hb] at ha
      rw [← Option.some.inj ha]
    cases r with
    | createCategory newId body => exact Or.inl (unchanged (createCategory_frame s newId body).1)
    | updateCategory id body => exact Or.inl (unchanged (updateCategory_frame s id body).1)
    | deleteCategory id => exact Or.inl (unchanged (deleteCategory_frame s id).1)
    | createSubcategory newId body =>
      left
      rcases (createSubcategory_frame s newId body).2 with h | ⟨doc, -, -, h⟩
      · exact unchanged h
      · have ha' : findById? (s.subcategories ++ [doc]) sid = some sc' := by
          rw [← h]; exact ha
        rw [findById?_append_of_some s.subcategories doc sc sid hb] at ha'
        rw [← Option.some.inj ha']
    | updateSubcategory id body =>
      left
      have hitems : body.items = none := by
        simpa [Request.setsItems] using hr
      rcases (updateSubcategory_frame s id body).2 with h | ⟨oid, h⟩
      · exact unchanged h
      · have ha' : findById? (modifyFirst s.subcategories oid
            (SubCategory.applyUpdate body.toSubcategoryBody
              (body.category.bind ObjectId.parse) (body.items.bind castIds))) sid
            = some sc' := by rw [← h]; exact ha
        rw [findById?_modifyFirst_of_some s.subcategories oid sid
          (SubCategory.applyUpdate body.toSubcategoryBody
            (body.category.bind ObjectId.parse) (body.items.bind castIds)) sc
          (fun x hx => by exact hx) hb] at ha'
        rw [← Option.some.inj ha']
        by_cases ho : sid = oid
        · rw [if_pos ho]
          simp [SubCategory.applyUpdate, hitems]
        · rw [if_neg ho]
    | deleteSubcategory id =>
      left
      rcases (deleteSubcategory_frame s id).2 with h | ⟨oid, h⟩
      · exact unchanged h
      · have ha' : findById? (s.subcategories.eraseP (fun x => Document.id x == oid)) sid
            = some sc' := by rw [← h]; exact ha
        by_cases ho : sid = oid
        · subst ho
          rw [findById?_eraseP_self s.subcategories sid hu] at ha'
          cases ha'
        · rw [findById?_eraseP_ne s.subcategories oid sid ho, hb] at ha'
          rw [← Option.some.inj ha']
    | createItem newId body =>
      rcases createItem_cases s newId body with h | ⟨doc, -, -, h⟩ |
        ⟨doc, cid, pc, sid0, ps, -, -, -, hrefS, -, ⟨-, -, h⟩ | ⟨hst, -, h⟩⟩
      · exact Or.inl (unchanged (by show (createItem s newId body).1.subcategories = _; rw [h]))
      · exact Or.inl (unchanged (by show (createItem s newId body).1.subcategories = _; rw [h]))
      · exact Or.inl (unchanged (by show (createItem s newId body).1.subcategories = _; rw [h]))
      · have ha' : findById? (modifyFirst s.subcategories sid0
            (fun _ => ({ ps with items := ps.items ++ [newId] } : SubCategory))) sid
            = some sc' := by
          have : (s.step (.createItem newId body)).subcategories
              = modifyFirst s.subcategories sid0
                (fun _ => ({ ps with items := ps.items ++ [newId] } : SubCategory)) := by
            show (createItem s newId body).1.subcategories = _
            rw [h]
          rw [← this]; exact ha
        rw [findById?_modifyFirst_of_some s.subcategories sid0 sid
          (fun _ => ({ ps with items := ps.items ++ [newId] } : SubCategory)) sc
          (fun _ _ => by show ps._id = sid0; exact findById?_id hrefS.2) hb] at ha'
        have hc' := (Option.some.inj ha').symm
        by_cases ho : sid = sid0
        · rw [if_pos ho] at hc'
          subst ho
          have hps : ps = sc := by
            have := hrefS.2
            rw [hb] at this
            exact (Option.some.inj this).symm
          subst hps
          subst hc'
          exact Or.inr ⟨newId, body, rfl, hrefS.1, hst, rfl⟩
        · rw [if_neg ho] at hc'
          subst hc'
          exact Or.inl rfl
    | updateItem id body => exact Or.inl (unchanged (updateItem_frame s id body))
    | deleteItem id => exact Or.inl (unchanged (deleteItem_frame s id))
  · intro id body xs hreq hxs
    subst hreq
    have ha0 : findById? (updateSubcategory s id body).1.subcategories sid = some sc' := ha
    rcases updateSubcategory_cases s id body with ⟨h1, h2⟩ | ⟨oid, c, hp, hf, hmi, heq⟩
    · refine ⟨fun _ h => absurd h h2, fun _ => ?_⟩
      rw [h1, hb] at ha0
      rw [← Option.some.inj ha0]
    · have hst : (updateSubcategory s id body).2.status = 200 := by rw [heq]; rfl
      rw [heq] at ha0
      have ha1 : findById? (modifyFirst s.subcategories oid
          (SubCategory.applyUpdate body.toSubcategoryBody
            (body.category.bind ObjectId.parse) (body.items.bind castIds))) sid
          = some sc' := ha0
      rw [findById?_modifyFirst_of_some s.subcategories oid sid
        (SubCategory.applyUpdate body.toSubcategoryBody
          (body.category.bind ObjectId.parse) (body.items.bind castIds)) sc
        (fun x hx => by exact hx) hb] at ha1
      have hc' := (Option.some.inj ha1).symm
      have hcast : ∃ ids, castIds xs = some ids := by
        cases hci : castIds xs with
        | none => exact absurd ⟨xs, hxs, hci⟩ hmi
        | some ids => exact ⟨ids, rfl⟩
      obtain ⟨ids, hids⟩ := hcast
      refine ⟨fun hps _ => ?_, fun hne => ?_⟩
      · have ho : sid = oid := by
          rw [hp] at hps
          exact (Option.some.inj hps).symm
        rw [if_pos ho] at hc'
        rw [hc', hids]
        simp [SubCategory.applyUpdate, hxs, hids]
      · rcases hne with hne | hne
        · have ho : sid ≠ oid := by
            intro h
            apply hne
            rw [hp, h]
          rw [if_neg ho] at hc'
          rw [hc']
        · exact absurd hst hne

/-- C17, amended, at "Cola" created under stored "Beverages" and "Cold Drinks", and at
the update of "Cold Drinks" that supplies an empty `items`. -/
theorem subcategory_items_grow_witness :
    UniqueIds (⟨[beveragesDoc], [coldDrinksDoc], []⟩ : Store).subcategories ∧
    findById? (⟨[beveragesDoc], [coldDrinksDoc], []⟩ : Store).subcategories idS1
      = some coldDrinksDoc ∧
    findById? ((⟨[beveragesDoc], [coldDrinksDoc], []⟩ : Store).step
      (.createItem idI1 cola)).subcategories idS1
      = some { coldDrinksDoc with items := [idI1] } ∧
    coldDrinksDoc.items <+: ({ coldDrinksDoc with items := [idI1] } : SubCategory).items ∧
    findById? (menu.step (.updateSubcategory idS1.toHexString clearItems)).subcategories
      idS1 = some coldDrinksDoc ∧
    castIds [] = some coldDrinksDoc.items := by
  have hu : UniqueIds (⟨[beveragesDoc], [coldDrinksDoc], []⟩ : Store).subcategories := by
    unfold UniqueIds; decide
  have hm : UniqueIds menu.subcategories := by
    unfold UniqueIds; decide
  have k := subcategory_items_grow ⟨[beveragesDoc], [coldDrinksDoc], []⟩
    (.createItem idI1 cola) idS1 coldDrinksDoc { coldDrinksDoc with items := [idI1] }
    hu (by decide) (by decide)
  have k2 := subcategory_items_grow menu (.updateSubcategory idS1.toHexString clearItems)
    idS1 { coldDrinksDoc with items := [idI1] } coldDrinksDoc hm (by decide) (by decide)
  exact ⟨hu, by decide, by decide, (k.1 rfl).1, by decide,
    (k2.2 idS1.toHexString clearItems [] rfl rfl).1 (by decide) (by decide)⟩

/-! ## Keeping child lists and parent fields in step -/

section LinkLemmas

variable {P C : Type} [Document P]

theorem mem_modifyFirst_of_unique {α : Type} [Document α] (docs : List α) (id : ObjectId)
    (f : α → α) (d0 x : α) (hu : UniqueIds docs) (h0 : findById? docs id = some d0)
    (hx : x ∈ modifyFirst docs id f) :
    (x ∈ docs ∧ Document.id x ≠ id) ∨ x = f d0 := by
  induction docs with
  | nil => simp [findById?] at h0
  | cons y ys ih =>
    unfold UniqueIds at hu ih
    simp only [List.map_cons, List.nodup_cons] at hu
    unfold findById? at h0 ih
    by_cases hy : Document.id y = id
    · simp only [List.find?_cons, hy, beq_self_eq_true] at h0
      have hyd : y = d0 := Option.some.inj h0
      simp only [modifyFirst, if_pos hy] at hx
      rcases List.mem_cons.mp hx with hx | hx
      · right; rw [hx, hyd]
      · left
        refine ⟨List.mem_cons_of_mem _ hx, ?_⟩
        intro hxi
        exact hu.1 (List.mem_map.mpr ⟨x, hx, by rw [hxi, hy]⟩)
    · have hb : (Document.id y == id) = false := by simp [hy]
      simp only [List.find?_cons, hb] at h0
      simp only [modifyFirst, if_neg hy] at hx
      rcases List.mem_cons.mp hx with hx | hx
      · left; exact ⟨by rw [hx]; exact List.mem_cons_self _ _, by rw [hx]; exact hy⟩
      · rcases ih hu.2 h0 hx with ⟨h1, h2⟩ | h1
        · left; exact ⟨List.mem_cons_of_mem _ h1, h2⟩
        · right; exact h1

theorem filter_map_modifyFirst {α β : Type} [Document α] (docs : List α) (id : ObjectId)
    (f : α → α) (d0 : α) (p : α → Bool) (g : α → β)
    (h0 : findById? docs id = some d0) (hp : p (f d0) = p d0) (hg : g (f d0) = g d0) :
    ((modifyFirst docs id f).filter p).map g = (docs.filter p).map g := by
  induction docs with
  | nil => rfl
  | cons y ys ih =>
    unfold findById? at h0 ih
    by_cases hy : Document.id y = id
    · simp only [List.find?_cons, hy, beq_self_eq_true] at h0
      have hyd : y = d0 := Option.some.inj h0
      subst hyd
      simp only [modifyFirst, if_pos hy, List.filter_cons, hp]
      split
      · simp [hg]
      · rfl
    · have hb : (Document.id y == id) = false := by simp [hy]
      simp only [List.find?_cons, hb] at h0
      simp only [modifyFirst, if_neg hy, List.filter_cons]
      split
      · simp [ih h0]
      · exact ih h0

theorem mem_ids_of_findById? {α : Type} [Document α] {docs : List α} {id : ObjectId} {d : α}
    (h : findById? docs id = some d) : id ∈ docs.map Document.id :=
  List.mem_map.mpr ⟨d, findById?_mem h, findById?_id h⟩

theorem not_mem_ids_of_findById? {α : Type} [Document α] {docs : List α} {id : ObjectId}
    (h : findById? docs id = none) : id ∉ docs.map Document.id := by
  intro hm
  obtain ⟨d, hd, hid⟩ := List.mem_map.mp hm
  exact (findById?_eq_none_iff docs id).1 h d hd hid

/-- A new parent with an empty list, to which no child refers. -/
theorem listsAgree_new_parent (parents : List P) (children : List C) (plist : P → List ObjectId)
    (ref cid : C → ObjectId) (q : P) (h : ListsAgree parents children plist ref cid)
    (hq : plist q = []) (hrefs : RefsIn children ref parents)
    (hnew : findById? parents (Document.id q) = none) :
    ListsAgree (parents ++ [q]) children plist ref cid := by
  intro p hp
  rcases List.mem_append.mp hp with hp | hp
  · exact h p hp
  · have hpq : p = q := by simpa using hp
    subst hpq
    rw [hq]
    have : children.filter (fun x => ref x == Document.id p) = [] := by
      rw [List.filter_eq_nil_iff]
      intro x hx hxe
      have hmem := hrefs x hx
      have : ref x = Document.id p := by simpa using hxe
      rw [this] at hmem
      exact not_mem_ids_of_findById? hnew hmem
    rw [this]
    rfl

/-- A new child, with its id put at the end of its parent's list. -/
theorem listsAgree_new_child (parents : List P) (children : List C) (plist : P → List ObjectId)
    (ref cid : C → ObjectId) (k : ObjectId) (p0 p1 : P) (ch : C)
    (h : ListsAgree parents children plist ref cid) (hu : UniqueIds parents)
    (h0 : findById? parents k = some p0) (hid : Document.id p1 = k)
    (hlist : plist p1 = plist p0 ++ [cid ch]) (href : ref ch = k) :
    ListsAgree (modifyFirst parents k (fun _ => p1)) (children ++ [ch]) plist ref cid := by
  intro p hp
  rcases mem_modifyFirst_of_unique parents k (fun _ => p1) p0 p hu h0 hp with ⟨hp, hne⟩ | hp
  · have hb : (ref ch == Document.id p) = false := by
      simp only [beq_eq_false_iff_ne]
      rw [href]
      exact fun e => hne e.symm
    have hf : (children ++ [ch]).filter (fun x => ref x == Document.id p)
        = children.filter (fun x => ref x == Document.id p) := by
      simp [List.filter_append, List.filter_cons, hb]
    rw [hf]
    exact h p hp
  · subst hp
    have hb : (ref ch == Document.id p) = true := by simp [href, hid]
    have hf : (children ++ [ch]).filter (fun x => ref x == Document.id p)
        = children.filter (fun x => ref x == Document.id p) ++ [ch] := by
      simp [List.filter_append, List.filter_cons, hb]
    rw [hf, List.map_append, hlist, h p0 (findById?_mem h0), hid, findById?_id h0]
    rfl

/-- One parent replaced by a copy with the same id and the same list. -/
theorem listsAgree_same_list (parents : List P) (children : List C) (plist : P → List ObjectId)
    (ref cid : C → ObjectId) (k : ObjectId) (p0 p1 : P)
    (h : ListsAgree parents children plist ref cid) (hu : UniqueIds parents)
    (h0 : findById? parents k = some p0) (hid : Document.id p1 = k)
    (hlist : plist p1 = plist p0) :
    ListsAgree (modifyFirst parents k (fun _ => p1)) children plist ref cid := by
  intro p hp
  rcases mem_modifyFirst_of_unique parents k (fun _ => p1) p0 p hu h0 hp with ⟨hp, -⟩ | hp
  · exact h p hp
  · subst hp
    rw [hlist, h p0 (findById?_mem h0), hid, findById?_id h0]

theorem refsIn_parents_append (children : List C) (ref : C → ObjectId) (parents : List P)
    (q : P) (h : RefsIn children ref parents) : RefsIn children ref (parents ++ [q]) := by
  intro x hx
  rw [List.map_append]
  exact List.mem_append_left _ (h x hx)

theorem refsIn_parents_modifyFirst (children : List C) (ref : C → ObjectId) (parents : List P)
    (k : ObjectId) (p1 : P) (hid : Document.id p1 = k) (h : RefsIn children ref parents) :
    RefsIn children ref (modifyFirst parents k (fun _ => p1)) := by
  intro x hx
  rw [map_id_modifyFirst parents k (fun _ => p1) (fun _ _ => hid)]
  exact h x hx

theorem refsIn_children_append (children : List C) (ref : C → ObjectId) (parents : List P)
    (ch : C) (h : RefsIn children ref parents) (hch : ref ch ∈ parents.map Document.id) :
    RefsIn (children ++ [ch]) ref parents := by
  intro x hx
  rcases List.mem_append.mp hx with hx | hx
  · exact h x hx
  · have : x = ch := by simpa using hx
    rw [this]; exact hch

end LinkLemmas

/-- One child replaced by a copy with the same id and the same parent field. -/
theorem listsAgree_same_child {P C : Type} [Document P] [Document C] (parents : List P)
    (children : List C) (plist : P → List ObjectId) (ref : C → ObjectId) (k : ObjectId)
    (c0 c1 : C) (h : ListsAgree parents children plist ref Document.id)
    (h0 : findById? children k = some c0) (hid : Document.id c1 = Document.id c0)
    (href : ref c1 = ref c0) :
    ListsAgree parents (modifyFirst children k (fun _ => c1)) plist ref Document.id := by
  intro p hp
  rw [filter_map_modifyFirst children k (fun _ => c1) c0 (fun x => ref x == Document.id p)
    Document.id h0 (by simp [href]) hid]
  exact h p hp

theorem refsIn_children_modifyFirst {P C : Type} [Document P] [Document C]
    (children : List C) (ref : C → ObjectId) (parents : List P) (k : ObjectId) (c0 c1 : C)
    (hu : UniqueIds children) (h0 : findById? children k = some c0) (href : ref c1 = ref c0)
    (h : RefsIn children ref parents) :
    RefsIn (modifyFirst children k (fun _ => c1)) ref parents := by
  intro x hx
  rcases mem_modifyFirst_of_unique children k (fun _ => c1) c0 x hu h0 hx with ⟨hx, -⟩ | hx
  · exact h x hx
  · rw [hx, href]
    exact h c0 (findById?_mem h0)

/-! ## Stores built by creations only -/

theorem createCategory_cases (s : Store) (newId : ObjectId) (body : CategoryBody) :
    (createCategory s newId body).1 = s ∨
    ∃ doc, Category.fromBody newId body = .ok doc ∧ findById? s.categories newId = none ∧
      (createCategory s newId body).1 = ⟨s.categories ++ [doc], s.subcategories, s.items⟩ := by
  rcases hb : Category.fromBody newId body with e | doc
  · left; simp [createCategory, hb]
  · rcases hi : insertOne s.categories doc with e | cats
    · left; simp [createCategory, hb, hi]
    · right
      obtain ⟨hn, hc⟩ := insertOne_ok_inv hi
      have hid : doc._id = newId := (categoryFromBody_ok_inv hb).1
      refine ⟨doc, rfl, by rw [← hid]; exact hn, ?_⟩
      simp [createCategory, hb, hi, hc]

theorem createSubcategory_cases_of_valid (s : Store) (newId : ObjectId)
    (body : SubcategoryBody) (hv : ∀ c ∈ s.categories, c.validate = true) :
    (createSubcategory s newId body).1 = s ∨
    ∃ doc cid parent, SubCategory.fromBody newId body = .ok doc ∧
      findById? s.subcategories newId = none ∧
      RefersTo s.categories body.category cid parent ∧
      (createSubcategory s newId body).1 =
        ⟨modifyFirst s.categories cid
            (fun _ => { parent with subCategories := parent.subCategories ++ [newId] }),
          s.subcategories ++ [doc], s.items⟩ := by
  rcases hc : Model.findById s.categories body.category with e | (_ | parent)
  · left; simp [createSubcategory, hc]
  · left; simp [createSubcategory, hc]
  · rcases hb : SubCategory.fromBody newId body with e | doc
    · left; simp [createSubcategory, hc, hb]
    · rcases hi : insertOne s.subcategories doc with e | subs
      · left; simp [createSubcategory, hc, hb, hi]
      · right
        obtain ⟨cid, hparse, hparent⟩ := Model.findById_some_inv hc
        have hid : doc._id = newId := (subCategoryFromBody_ok_inv hb).1
        have hn : findById? s.subcategories newId = none := by
          rw [← hid]; exact (insertOne_ok_inv hi).1
        refine ⟨doc, cid, parent, rfl, hn, ⟨hparse, hparent⟩, ?_⟩
        rw [createSubcategory_of_valid s newId cid body parent doc ⟨hparse, hparent⟩
          (hv parent (findById?_mem hparent)) hb hn]

theorem createItem_cases_of_valid (s : Store) (newId : ObjectId) (body : ItemBody)
    (hvc : ∀ c ∈ s.categories, c.validate = true)
    (hvs : ∀ c ∈ s.subcategories, c.validate = true) :
    (createItem s newId body).1 = s ∨
    ∃ doc cid pc sid ps, Item.fromBody newId body = .ok doc ∧
      findById? s.items newId = none ∧
      RefersTo s.categories body.category cid pc ∧
      RefersTo s.subcategories body.subcategory sid ps ∧
      (createItem s newId body).1 =
        ⟨modifyFirst s.categories cid (fun _ => { pc with items := pc.items ++ [newId] }),
          modifyFirst s.subcategories sid (fun _ => { ps with items := ps.items ++ [newId] }),
          s.items ++ [doc]⟩ := by
  rcases hc : Model.findById s.categories body.category with e | (_ | pc)
  · left; simp [createItem, hc]
  · left; simp [createItem, hc]
  · rcases hsb : Model.findById s.subcategories body.subcategory with e | (_ | ps)
    · left; simp [createItem, hc, hsb]
    · left; simp [createItem, hc, hsb]
    · rcases hb : Item.fromBody newId body with e | doc
      · left; simp [createItem, hc, hsb, hb]
      · rcases hi : insertOne s.items doc with e | its
        · left; simp [createItem, hc, hsb, hb, hi]
        · right
          obtain ⟨cid, hparseC, hpc⟩ := Model.findById_some_inv hc
          obtain ⟨sid, hparseS, hps⟩ := Model.findById_some_inv hsb
          have hid : doc._id = newId := (itemFromBody_ok_inv hb).1
          have hn : findById? s.items newId = none := by
            rw [← hid]; exact (insertOne_ok_inv hi).1
          refine ⟨doc, cid, pc, sid, ps, rfl, hn, ⟨hparseC, hpc⟩, ⟨hparseS, hps⟩, ?_⟩
          rw [createItem_of_valid s newId cid sid body pc ps doc ⟨hparseC, hpc⟩
            ⟨hparseS, hps⟩ (hvc pc (findById?_mem hpc)) (hvs ps (findById?_mem hps)) hb hn]

theorem grown_empty : Grown Store.empty := by
  refine ⟨⟨?_, ?_, ?_⟩, ?_, ?_, ?_, ?_, ?_, ?_, ?_, ?_⟩ <;>
    first
      | exact List.nodup_nil
      | (intro x hx; simp [Store.empty] at hx)

theorem grown_createCategory (s : Store) (newId : ObjectId) (body : CategoryBody)
    (h : Grown s) : Grown (createCategory s newId body).1 := by
  rcases createCategory_cases s newId body with he | ⟨doc, hb, hn, he⟩
  · rw [he]; exact h
  · rw [he]
    obtain ⟨⟨huc, hus, hui⟩, hvc, hvs, hrsc, hric, hris, l1, l2, l3⟩ := h
    obtain ⟨hid, -, -, -, hsub, hitems, hvalid⟩ := categoryFromBody_ok_inv hb
    have hn' : findById? s.categories (Document.id doc) = none := by
      show findById? s.categories doc._id = none
      rw [hid]; exact hn
    refine ⟨⟨uniqueIds_append s.categories doc hn' huc, hus, hui⟩, ?_, hvs,
      refsIn_parents_append _ _ _ doc hrsc, refsIn_parents_append _ _ _ doc hric, hris,
      listsAgree_new_parent _ _ _ _ _ doc l1 hsub hrsc hn',
      listsAgree_new_parent _ _ _ _ _ doc l2 hitems hric hn', l3⟩
    intro c hc
    rcases List.mem_append.mp hc with hc | hc
    · exact hvc c hc
    · have : c = doc := by simpa using hc
      rw [this]; exact hvalid

theorem grown_createSubcategory (s : Store) (newId : ObjectId) (body : SubcategoryBody)
    (hitems : body.items = none) (h : Grown s) : Grown (createSubcategory s newId body).1 := by
  obtain ⟨⟨huc, hus, hui⟩, hvc, hvs, hrsc, hric, hris, l1, l2, l3⟩ := h
  rcases createSubcategory_cases_of_valid s newId body hvc with he |
    ⟨doc, cid, parent, hb, hn, ⟨hparse, hparent⟩, he⟩
  · rw [he]; exact ⟨⟨huc, hus, hui⟩, hvc, hvs, hrsc, hric, hris, l1, l2, l3⟩
  · rw [he]
    obtain ⟨hid, hcat, hcast, hvalid⟩ := subCategoryFromBody_ok_inv hb
    have hdcat : doc.category = cid := by
      rw [hparse] at hcat
      exact (Option.some.inj hcat).symm
    have hditems : doc.items = [] := by
      rw [hitems] at hcast
      simpa [castIds] using hcast.symm
    have hn' : findById? s.subcategories (Document.id doc) = none := by
      show findById? s.subcategories doc._id = none
      rw [hid]; exact hn
    have hpid : parent._id = cid := findById?_id hparent
    have hp1 : Document.id
        ({ parent with subCategories := parent.subCategories ++ [newId] } : Category) = cid :=
      hpid
    refine ⟨⟨uniqueIds_modifyFirst s.categories cid _ (fun _ _ => hp1) huc,
        uniqueIds_append s.subcategories doc hn' hus, hui⟩, ?_, ?_, ?_, ?_, ?_, ?_, ?_, ?_⟩
    · intro c hc
      rcases mem_modifyFirst_of_unique s.categories cid _ parent c huc hparent hc with
        ⟨hc, -⟩ | hc
      · exact hvc c hc
      · rw [hc]; exact hvc parent (findById?_mem hparent)
    · intro c hc
      rcases List.mem_append.mp hc with hc | hc
      · exact hvs c hc
      · have : c = doc := by simpa using hc
        rw [this]; exact hvalid
    · refine refsIn_children_append _ _ _ doc
        (refsIn_parents_modifyFirst _ _ _ cid _ hp1 hrsc) ?_
      rw [map_id_modifyFirst s.categories cid _ (fun _ _ => hp1), hdcat]
      exact mem_ids_of_findById? hparent
    · exact refsIn_parents_modifyFirst _ _ _ cid _ hp1 hric
    · exact refsIn_parents_append _ _ _ doc hris
    · exact listsAgree_new_child s.categories s.subcategories Category.subCategories
        SubCategory.category SubCategory._id cid parent _ doc l1 huc hparent hp1
        (by show parent.subCategories ++ [newId] = parent.subCategories ++ [doc._id]
            rw [hid]) hdcat
    · exact listsAgree_same_list s.categories s.items Category.items Item.category Item._id
        cid parent _ l2 huc hparent hp1 rfl
    · exact listsAgree_new_parent s.subcategories s.items SubCategory.items Item.subcategory
        Item._id doc l3 hditems hris hn'

theorem grown_createItem (s : Store) (newId : ObjectId) (body : ItemBody) (h : Grown s) :
    Grown (createItem s newId body).1 := by
  obtain ⟨⟨huc, hus, hui⟩, hvc, hvs, hrsc, hric, hris, l1, l2, l3⟩ := h
  rcases createItem_cases_of_valid s newId body hvc hvs with he |
    ⟨doc, cid, pc, sid, ps, hb, hn, ⟨hparseC, hpc⟩, ⟨hparseS, hps⟩, he⟩
  · rw [he]; exact ⟨⟨huc, hus, hui⟩, hvc, hvs, hrsc, hric, hris, l1, l2, l3⟩
  · rw [he]
    obtain ⟨hid, hcat, hsub, -⟩ := itemFromBody_ok_inv hb
    have hdcat : doc.category = cid := by
      rw [hparseC] at hcat
      exact (Option.some.inj hcat).symm
    have hdsub : doc.subcategory = sid := by
      rw [hparseS] at hsub
      exact (Option.some.inj hsub).symm
    have hn' : findById? s.items (Document.id doc) = none := by
      show findById? s.items doc._id = none
      rw [hid]; exact hn
    have hpcid : pc._id = cid := findById?_id hpc
    have hpsid : ps._id = sid := findById?_id hps
    have hc1 : Document.id ({ pc with items := pc.items ++ [newId] } : Category) = cid := hpcid
    have hs1 : Document.id ({ ps with items := ps.items ++ [newId] } : SubCategory) = sid :=
      hpsid
    refine ⟨⟨uniqueIds_modifyFirst s.categories cid _ (fun _ _ => hc1) huc,
        uniqueIds_modifyFirst s.subcategories sid _ (fun _ _ => hs1) hus,
        uniqueIds_append s.items doc hn' hui⟩, ?_, ?_, ?_, ?_, ?_, ?_, ?_, ?_⟩
    · intro c hc
      rcases mem_modifyFirst_of_unique s.categories cid _ pc c huc hpc hc with ⟨hc, -⟩ | hc
      · exact hvc c hc
      · rw [hc]; exact hvc pc (findById?_mem hpc)
    · intro c hc
      rcases mem_modifyFirst_of_unique s.subcategories sid _ ps c hus hps hc with ⟨hc, -⟩ | hc
      · exact hvs c hc
      · rw [hc]; exact hvs ps (findById?_mem hps)
    · exact refsIn_parents_modifyFirst _ _ _ cid _ hc1
        (refsIn_children_modifyFirst s.subcategories SubCategory.category s.categories sid ps
          _ hus hps rfl hrsc)
    · refine refsIn_children_append _ _ _ doc
        (refsIn_parents_modifyFirst _ _ _ cid _ hc1 hric) ?_
      rw [map_id_modifyFirst s.categories cid _ (fun _ _ => hc1), hdcat]
      exact mem_ids_of_findById? hpc
    · refine refsIn_children_append _ _ _ doc
        (refsIn_parents_modifyFirst _ _ _ sid _ hs1 hris) ?_
      rw [map_id_modifyFirst s.subcategories sid _ (fun _ _ => hs1), hdsub]
      exact mem_ids_of_findById? hps
    · exact listsAgree_same_list s.categories _ Category.subCategories SubCategory.category
        SubCategory._id cid pc _
        (listsAgree_same_child s.categories s.subcategories Category.subCategories
          SubCategory.category sid ps _ l1 hps rfl rfl)
        huc hpc hc1 rfl
    · exact listsAgree_new_child s.categories s.items Category.items Item.category Item._id
        cid pc _ doc l2 huc hpc hc1
        (by show pc.items ++ [newId] = pc.items ++ [doc._id]; rw [hid]) hdcat
    · exact listsAgree_new_child s.subcategories s.items SubCategory.items Item.subcategory
        Item._id sid ps _ doc l3 hus hps hs1
        (by show ps.items ++ [newId] = ps.items ++ [doc._id]; rw [hid]) hdsub

theorem grown_step (s : Store) (r : Request) (hr : r.isPlainCreate = true) (h : Grown s) :
    Grown (s.step r) := by
  cases r with
  | createCategory newId body => exact grown_createCategory s newId body h
  | createSubcategory newId body =>
    exact grown_createSubcategory s newId body (by simpa [Request.isPlainCreate] using hr) h
  | createItem newId body => exact grown_createItem s newId body h
  | updateCategory id body => simp [Request.isPlainCreate] at hr
  | deleteCategory id => simp [Request.isPlainCreate] at hr
  | updateSubcategory id body => simp [Request.isPlainCreate] at hr
  | deleteSubcategory id => simp [Request.isPlainCreate] at hr
  | updateItem id body => simp [Request.isPlainCreate] at hr
  | deleteItem id => simp [Request.isPlainCreate] at hr

theorem grown_run (requests : List Request)
    (hr : ∀ r ∈ requests, r.isPlainCreate = true) : Grown (Store.empty.run requests) := by
  suffices ∀ (s : Store), Grown s → Grown (s.run requests) from this Store.empty grown_empty
  induction requests with
  | nil => intro s h; exact h
  | cons r rs ih =>
    intro s h
    exact ih (fun x hx => hr x (List.mem_cons_of_mem _ hx)) (s.step r)
      (grown_step s r (hr r (List.mem_cons_self _ _)) h)

/-- C19: in every store reached from the empty one by `createCategory`,
`createSubcategory` without `items` in the body, and `createItem` only, each
Category's `subCategories` is duplicate-free and is, in store (creation)
order, the ids of the stored Subcategories whose `category` is that Category;
its `items` is the ids of the stored Items whose `category` is that Category;
each Subcategory's `items` is the ids of the stored Items whose `subcategory`
is that Subcategory; and each list is the list of ids of what
`getSubcategoriesByCategory`, `getItemsByCategory` and
`getItemsBySubcategory` return for that parent. -/
theorem created_lists_match_children (requests : List Request)
    (hr : ∀ r ∈ requests, r.isPlainCreate = true) :
    (∀ c ∈ (Store.empty.run requests).categories,
      c.subCategories.Nodup ∧
      c.subCategories = ((Store.empty.run requests).subcategories.filter
        (fun x => x.category == c._id)).map SubCategory._id ∧
      c.items = ((Store.empty.run requests).items.filter
        (fun x => x.category == c._id)).map Item._id ∧
      (∃ subs, getSubcategoriesByCategory (Store.empty.run requests) c._id.toHexString
          = .json 200 subs ∧ subs.map SubCategory._id = c.subCategories) ∧
      (∃ its, getItemsByCategory (Store.empty.run requests) c._id.toHexString
          = .json 200 its ∧ its.map Item._id = c.items)) ∧
    (∀ sc ∈ (Store.empty.run requests).subcategories,
      sc.items = ((Store.empty.run requests).items.filter
        (fun x => x.subcategory == sc._id)).map Item._id ∧
      (∃ its, getItemsBySubcategory (Store.empty.run requests) sc._id.toHexString
          = .json 200 its ∧ its.map Item._id = sc.items)) := by
  obtain ⟨⟨-, hus, -⟩, -, -, -, -, -, l1, l2, l3⟩ := grown_run requests hr
  constructor
  · intro c hc
    have h1 := l1 c hc
    have h2 := l2 c hc
    refine ⟨?_, h1, h2, ⟨_, ?_, h1.symm⟩, ⟨_, ?_, h2.symm⟩⟩
    · rw [h1]
      exact List.Nodup.sublist ((List.filter_sublist _).map _) hus
    · simp [getSubcategoriesByCategory, ObjectId.parse_toHexString]
      rfl
    · simp [getItemsByCategory, ObjectId.parse_toHexString]
      rfl
  · intro sc hsc
    have h3 := l3 sc hsc
    refine ⟨h3, _, ?_, h3.symm⟩
    simp [getItemsBySubcategory, ObjectId.parse_toHexString]
    rfl

/-- C19 at the store built by creating "Beverages", "Cold Drinks" and "Cola". -/
theorem created_lists_match_children_witness :
    (∀ c ∈ (Store.empty.run createMenu).categories,
      c.subCategories.Nodup ∧
      c.subCategories = ((Store.empty.run createMenu).subcategories.filter
        (fun x => x.category == c._id)).map SubCategory._id ∧
      c.items = ((Store.empty.run createMenu).items.filter
        (fun x => x.category == c._id)).map Item._id ∧
      (∃ subs, getSubcategoriesByCategory (Store.empty.run createMenu) c._id.toHexString
          = .json 200 subs ∧ subs.map SubCategory._id = c.subCategories) ∧
      (∃ its, getItemsByCategory (Store.empty.run createMenu) c._id.toHexString
          = .json 200 its ∧ its.map Item._id = c.items)) ∧
    (∀ sc ∈ (Store.empty.run createMenu).subcategories,
      sc.items = ((Store.empty.run createMenu).items.filter
        (fun x => x.subcategory == sc._id)).map Item._id ∧
      (∃ its, getItemsBySubcategory (Store.empty.run createMenu) sc._id.toHexString
          = .json 200 its ∧ its.map Item._id = sc.items)) ∧
    Store.empty.run createMenu = menu :=
  ⟨(created_lists_match_children createMenu (by decide)).1,
    (created_lists_match_children createMenu (by decide)).2, by decide⟩

/-! ## The unique index on `_id` is kept by every request -/

theorem updateItem_items (s : Store) (id : String) (body : ItemUpdate) :
    (updateItem s id body).1.items = s.items ∨
    ∃ oid, (updateItem s id body).1.items
      = modifyFirst s.items oid
          (Item.applyUpdate body.toItemBody (body.category.bind ObjectId.parse)
            (body.subcategory.bind ObjectId.parse)) := by
  by_cases hm : body.uncastable ≠ [] ∨ Malformed body.category ∨ Malformed body.subcategory
  · left; rw [(updateItem_of_malformed s id body hm).1]
  · have hu : body.uncastable = [] := by
      by_contra hx
      exact hm (Or.inl hx)
    have hc : ¬ Malformed body.category := fun x => hm (Or.inr (Or.inl x))
    have hs : ¬ Malformed body.subcategory := fun x => hm (Or.inr (Or.inr x))
    cases hp : ObjectId.parse id with
    | none =>
      left
      rw [updateItem_of_cast s id body hu hc hs]
      simp [findByIdAndUpdate_of_malformed _ _ _ hp]
    | some oid =>
      cases hf : findById? s.items oid with
      | none =>
        left
        rw [updateItem_of_cast s id body hu hc hs]
        simp [findByIdAndUpdate_of_missing _ _ _ _ hp hf]
      | some c =>
        right
        rw [updateItem_of_found s id oid c body hu hp hf hc hs]
        exact ⟨oid, rfl⟩

theorem deleteItem_items (s : Store) (id : String) :
    (deleteItem s id).1.items = s.items ∨
    ∃ oid, (deleteItem s id).1.items = s.items.eraseP (fun x => Document.id x == oid) := by
  cases hp : ObjectId.parse id with
  | none => left; simp [deleteItem, findByIdAndDelete_of_malformed _ _ hp]
  | some oid =>
    cases hf : findById? s.items oid with
    | none => left; simp [deleteItem, findByIdAndDelete_of_missing _ _ _ hp hf]
    | some c => right; exact ⟨oid, by rw [deleteItem_of_found s id oid c hp hf]⟩

/-- Every request keeps the ids of each collection unique: inserts reject a taken
id, updates and saves keep the `_id` of the document they write, deletes
only remove. -/
theorem wellIndexed_step (s : Store) (r : Request) (h : s.WellIndexed) :
    (s.step r).WellIndexed := by
  obtain ⟨huc, hus, hui⟩ := h
  cases r with
  | createCategory newId body =>
    rcases createCategory_cases s newId body with he | ⟨doc, hb, hn, he⟩
    · show (createCategory s newId body).1.WellIndexed
      rw [he]; exact ⟨huc, hus, hui⟩
    · show (createCategory s newId body).1.WellIndexed
      rw [he]
      refine ⟨uniqueIds_append s.categories doc ?_ huc, hus, hui⟩
      show findById? s.categories doc._id = none
      rw [(categoryFromBody_ok_inv hb).1]; exact hn
  | updateCategory id body =>
    refine ⟨?_, ?_, ?_⟩
    · rcases updateCategory_categories s id body with he | ⟨oid, he⟩
      · show UniqueIds (updateCategory s id body).1.categories
        rw [he]; exact huc
      · show UniqueIds (updateCategory s id body).1.categories
        rw [he]
        exact uniqueIds_modifyFirst s.categories oid _ (fun x hx => by exact hx) huc
    · show UniqueIds (updateCategory s id body).1.subcategories
      rw [(updateCategory_frame s id body).1]; exact hus
    · show UniqueIds (updateCategory s id body).1.items
      rw [(updateCategory_frame s id body).2]; exact hui
  | deleteCategory id =>
    refine ⟨?_, ?_, ?_⟩
    · rcases deleteCategory_categories_cases s id with he | ⟨oid, he⟩
      · show UniqueIds (deleteCategory s id).1.categories
        rw [he]; exact huc
      · show UniqueIds (deleteCategory s id).1.categories
        rw [he]; exact uniqueIds_eraseP s.categories _ huc
    · show UniqueIds (deleteCategory s id).1.subcategories
      rw [(deleteCategory_frame s id).1]; exact hus
    · show UniqueIds (deleteCategory s id).1.items
      rw [(deleteCategory_frame s id).2]; exact hui
  | createSubcategory newId body =>
    refine ⟨?_, ?_, ?_⟩
    · rcases createSubcategory_categories s newId body with he | ⟨cid, parent, hp, he⟩
      · show UniqueIds (createSubcategory s newId body).1.categories
        rw [he]; exact huc
      · show UniqueIds (createSubcategory s newId body).1.categories
        rw [he]
        exact uniqueIds_modifyFirst s.categories cid _
          (fun _ _ => by show parent._id = cid; exact findById?_id hp) huc
    · rcases (createSubcategory_frame s newId body).2 with he | ⟨doc, hb, hn, he⟩
      · show UniqueIds (createSubcategory s newId body).1.subcategories
        rw [he]; exact hus
      · show UniqueIds (createSubcategory s newId body).1.subcategories
        rw [he]
        refine uniqueIds_append s.subcategories doc ?_ hus
        show findById? s.subcategories doc._id = none
        rw [(subCategoryFromBody_ok_inv hb).1]; exact hn
    · show UniqueIds (createSubcategory s newId body).1.items
      rw [(createSubcategory_frame s newId body).1]; exact hui
  | updateSubcategory id body =>
    refine ⟨?_, ?_, ?_⟩
    · show UniqueIds (updateSubcategory s id body).1.categories
      rw [updateSubcategory_categories]; exact huc
    · rcases (updateSubcategory_frame s id body).2 with he | ⟨oid, he⟩
      · show UniqueIds (updateSubcategory s id body).1.subcategories
        rw [he]; exact hus
      · show UniqueIds (updateSubcategory s id body).1.subcategories
        rw [he]
        exact uniqueIds_modifyFirst s.subcategories oid _ (fun x hx => by exact hx) hus
    · show UniqueIds (updateSubcategory s id body).1.items
      rw [(updateSubcategory_frame s id body).1]; exact hui
  | deleteSubcategory id =>
    refine ⟨?_, ?_, ?_⟩
    · show UniqueIds (deleteSubcategory s id).1.categories
      rw [deleteSubcategory_categories]; exact huc
    · rcases (deleteSubcategory_frame s id).2 with he | ⟨oid, he⟩
      · show UniqueIds (deleteSubcategory s id).1.subcategories
        rw [he]; exact hus
      · show UniqueIds (deleteSubcategory s id).1.subcategories
        rw [he]; exact uniqueIds_eraseP s.subcategories _ hus
    · show UniqueIds (deleteSubcategory s id).1.items
      rw [(deleteSubcategory_frame s id).1]; exact hui
  | createItem newId body =>
    show (createItem s newId body).1.WellIndexed
    rcases createItem_cases s newId body with he | ⟨doc, hb, hn, he⟩ |
      ⟨doc, cid, pc, sid, ps, hb, hn, hrefC, hrefS, -, ⟨-, -, he⟩ | ⟨-, -, he⟩⟩
    · rw [he]; exact ⟨huc, hus, hui⟩
    · rw [he]
      refine ⟨huc, hus, uniqueIds_append s.items doc ?_ hui⟩
      show findById? s.items doc._id = none
      rw [(itemFromBody_ok_inv hb).1]; exact hn
    · rw [he]
      refine ⟨uniqueIds_modifyFirst s.categories cid _
        (fun _ _ => by show pc._id = cid; exact findById?_id hrefC.2) huc, hus,
        uniqueIds_append s.items doc ?_ hui⟩
      show findById? s.items doc._id = none
      rw [(itemFromBody_ok_inv hb).1]; exact hn
    · rw [he]
      refine ⟨uniqueIds_modifyFirst s.categories cid _
        (fun _ _ => by show pc._id = cid; exact findById?_id hrefC.2) huc,
        uniqueIds_modifyFirst s.subcategories sid _
        (fun _ _ => by show ps._id = sid; exact findById?_id hrefS.2) hus,
        uniqueIds_append s.items doc ?_ hui⟩
      show findById? s.items doc._id = none
      rw [(itemFromBody_ok_inv hb).1]; exact hn
  | updateItem id body =>
    refine ⟨?_, ?_, ?_⟩
    · show UniqueIds (updateItem s id body).1.categories
      rw [updateItem_categories]; exact huc
    · show UniqueIds (updateItem s id body).1.subcategories
      rw [updateItem_frame]; exact hus
    · rcases updateItem_items s id body with he | ⟨oid, he⟩
      · show UniqueIds (updateItem s id body).1.items
        rw [he]; exact hui
      · show UniqueIds (updateItem s id body).1.items
        rw [he]
        exact uniqueIds_modifyFirst s.items oid _ (fun x hx => by exact hx) hui
  | deleteItem id =>
    refine ⟨?_, ?_, ?_⟩
    · show UniqueIds (deleteItem s id).1.categories
      rw [deleteItem_categories]; exact huc
    · show UniqueIds (deleteItem s id).1.subcategories
      rw [deleteItem_frame]; exact hus
    · rcases deleteItem_items s id with he | ⟨oid, he⟩
      · show UniqueIds (deleteItem s id).1.items
        rw [he]; exact hui
      · show UniqueIds (deleteItem s id).1.items
        rw [he]; exact uniqueIds_eraseP s.items _ hui

/-- Every store reached from the empty one has unique ids in each collection. -/
theorem wellIndexed_run (requests : List Request) :
    (Store.empty.run requests).WellIndexed := by
  suffices ∀ (s : Store), s.WellIndexed → (s.run requests).WellIndexed from
    this Store.empty ⟨List.nodup_nil, List.nodup_nil, List.nodup_nil⟩
  induction requests with
  | nil => intro s h; exact h
  | cons r rs ih => intro s h; exact ih (s.step r) (wellIndexed_step s r h)

end MenuManagement
